import Mathlib

/-!
Verification development for the GDScript toolkit's parsing pipeline
(lexer, parser, AST), shallowly embedded from the Go sources:
  - internal/core/parser/token.go   (token model, keyword table)
  - the lexer file (package parser; Lexer, NextToken, handleIndentation, ...)
  - internal/core/parser/parser.go  (Parser, Parse, statement/expression parsers)
  - internal/core/ast/*.go          (AST node model and its mutators)

Modelling conventions:
  - Go strings are walked rune by rune; we model the input as a `List Char`
    and byte offsets as character offsets (identical for ASCII input; no
    property proved below depends on the numeric value of an offset).
  - Go's `rune` value 0 (the lexer's EOF sentinel) is modelled as the
    character `charNul`.  Go's `utf8.DecodeRuneInString` on a NUL byte also
    yields rune 0, so an embedded NUL behaves as end of input in Go exactly
    as it does here.
  - Go slice `l.input[a:b]` is modelled by `listSlice`.
  - Go's unbounded `for` loops are modelled by structurally recursive
    functions with an explicit fuel argument.  Every lexer loop consumes at
    least one input character per iteration except immediately before it
    exits, so fuel `l.input.length + 2` is always sufficient; parser
    functions thread one shared fuel, and the top-level entry point passes
    a generous polynomial bound.  All universal theorems below are proved
    for every fuel value, so no fuel-sufficiency argument is ever needed.
  - `unicode.IsLetter` / `unicode.IsDigit` accept all Unicode letter/digit
    classes; we model their ASCII fragment (`Char.isAlpha` /
    `Char.isDigit`).  No claim below depends on how a non-ASCII character
    is classified.
-/

set_option maxHeartbeats 1000000

namespace GD

/-- Kinds of lexical tokens.  Go represents `TokenType` as a string; the Go
code only ever compares it against the named constants of token.go, so we
model it as a closed inductive with one constructor per constant. -/
inductive TokenType where
  | ILLEGAL | EOF | COMMENT | NL | INDENT | DEDENT
  | IDENT | INT | FLOAT | STRING | RSTRING | HEX | BIN
  | ASSIGN | PLUS | MINUS | BANG | ASTERISK | SLASH | PERCENT | POWER
  | LT | GT | EQ | NOT_EQ | LTE | GTE | AND | OR | NOT | AMPAMP | PIPEPIPE
  | PLUSEQ | MINUSEQ | ASTERISKEQ | SLASHEQ | PERCENTEQ | AMPEQ | PIPEEQ
  | CARETEQ | LTLTEQ | GTGTEQ | POWEREQ
  | BITAND | BITOR | BITXOR | BITNOT | LTLT | GTGT
  | DOT | COMMA | COLON | SEMICOLON | LPAREN | RPAREN | LBRACE | RBRACE
  | LBRACKET | RBRACKET | AT | DOLLAR | CARET | ARROW | COLONASSIGN
  | FUNC | CLASS | EXTENDS | CLASS_NAME | VAR | CONST | STATIC | ENUM
  | SIGNAL | PASS | RETURN | IF | ELIF | ELSE | FOR | WHILE | BREAK
  | CONTINUE | MATCH | WHEN | IN | IS | AS | AWAIT | BREAKPOINT
  | TRUE | FALSE | NULL | SELF | GET | SET
  deriving DecidableEq, Repr

/-- The string value of each `TokenType` constant in token.go (used by the
parser's error messages through fmt's %s verb). -/
def TokenType.str : TokenType → String
  | .ILLEGAL => "ILLEGAL" | .EOF => "EOF" | .COMMENT => "COMMENT"
  | .NL => "NL" | .INDENT => "INDENT" | .DEDENT => "_DEDENT"
  | .IDENT => "IDENT" | .INT => "INT" | .FLOAT => "FLOAT"
  | .STRING => "STRING" | .RSTRING => "RSTRING" | .HEX => "HEX" | .BIN => "BIN"
  | .ASSIGN => "=" | .PLUS => "+" | .MINUS => "-" | .BANG => "!"
  | .ASTERISK => "*" | .SLASH => "/" | .PERCENT => "%" | .POWER => "**"
  | .LT => "<" | .GT => ">" | .EQ => "==" | .NOT_EQ => "!="
  | .LTE => "<=" | .GTE => ">=" | .AND => "and" | .OR => "or" | .NOT => "not"
  | .AMPAMP => "&&" | .PIPEPIPE => "||"
  | .PLUSEQ => "+=" | .MINUSEQ => "-=" | .ASTERISKEQ => "*=" | .SLASHEQ => "/="
  | .PERCENTEQ => "%=" | .AMPEQ => "&=" | .PIPEEQ => "|=" | .CARETEQ => "^="
  | .LTLTEQ => "<<=" | .GTGTEQ => ">>=" | .POWEREQ => "**="
  | .BITAND => "&" | .BITOR => "|" | .BITXOR => "^" | .BITNOT => "~"
  | .LTLT => "<<" | .GTGT => ">>"
  | .DOT => "." | .COMMA => "," | .COLON => ":" | .SEMICOLON => ";"
  | .LPAREN => "(" | .RPAREN => ")" | .LBRACE => "\x7b" | .RBRACE => "\x7d"
  | .LBRACKET => "[" | .RBRACKET => "]" | .AT => "@" | .DOLLAR => "$"
  | .CARET => "^" | .ARROW => "->" | .COLONASSIGN => ":="
  | .FUNC => "func" | .CLASS => "class" | .EXTENDS => "extends"
  | .CLASS_NAME => "class_name" | .VAR => "var" | .CONST => "const"
  | .STATIC => "static" | .ENUM => "enum" | .SIGNAL => "signal"
  | .PASS => "pass" | .RETURN => "return" | .IF => "if" | .ELIF => "elif"
  | .ELSE => "else" | .FOR => "for" | .WHILE => "while" | .BREAK => "break"
  | .CONTINUE => "continue" | .MATCH => "match" | .WHEN => "when"
  | .IN => "in" | .IS => "is" | .AS => "as" | .AWAIT => "await"
  | .BREAKPOINT => "breakpoint" | .TRUE => "true" | .FALSE => "false"
  | .NULL => "null" | .SELF => "self" | .GET => "get" | .SET => "set"

/-- Discriminator for the two structural indentation token kinds (used only
in proofs, to reason about the keyword-lookup chain without case splits). -/
def TokenType.isStructural : TokenType → Bool
  | .INDENT => true
  | .DEDENT => true
  | _ => false

/-- A lexical token (token.go `Token`). -/
structure Token where
  type : TokenType
  literal : String
  line : Nat
  column : Nat
  offset : Nat
  deriving DecidableEq, Repr

/-- The keywords map of token.go, as the lookup function `LookupIdent`:
keyword text to token kind, defaulting to `IDENT`. -/
def lookupIdent (ident : String) : TokenType :=
  if ident = "func" then .FUNC
  else if ident = "class" then .CLASS
  else if ident = "extends" then .EXTENDS
  else if ident = "class_name" then .CLASS_NAME
  else if ident = "var" then .VAR
  else if ident = "const" then .CONST
  else if ident = "static" then .STATIC
  else if ident = "enum" then .ENUM
  else if ident = "signal" then .SIGNAL
  else if ident = "pass" then .PASS
  else if ident = "return" then .RETURN
  else if ident = "if" then .IF
  else if ident = "elif" then .ELIF
  else if ident = "else" then .ELSE
  else if ident = "for" then .FOR
  else if ident = "while" then .WHILE
  else if ident = "break" then .BREAK
  else if ident = "continue" then .CONTINUE
  else if ident = "match" then .MATCH
  else if ident = "when" then .WHEN
  else if ident = "in" then .IN
  else if ident = "is" then .IS
  else if ident = "as" then .AS
  else if ident = "await" then .AWAIT
  else if ident = "breakpoint" then .BREAKPOINT
  else if ident = "true" then .TRUE
  else if ident = "false" then .FALSE
  else if ident = "null" then .NULL
  else if ident = "self" then .SELF
  else if ident = "get" then .GET
  else if ident = "set" then .SET
  else if ident = "and" then .AND
  else if ident = "or" then .OR
  else if ident = "not" then .NOT
  else .IDENT

/-- The lexer's EOF sentinel: Go rune 0. -/
def charNul : Char := Char.ofNat 0

/-- Go slice `input[a:b]` over the character list. -/
def listSlice (xs : List Char) (a b : Nat) : String :=
  ((xs.drop a).take (b - a)).asString

/-- Lexer state (the `Lexer` struct).  `pending` is the Go field `tokens`
(the INDENT/DEDENT queue); the unused Go field `indentLevel` (written once,
never read) is omitted. -/
structure Lexer where
  input : List Char
  position : Nat
  readPosition : Nat
  ch : Char
  line : Nat
  column : Nat
  indentStack : List Nat   -- top of the Go slice-stack is the head here
  pending : List Token
  deriving Repr

/-- Go `isLetter` (unicode.IsLetter; ASCII fragment modelled). -/
def isLetter (c : Char) : Bool := c.isAlpha

/-- Go `isDigit` (unicode.IsDigit; ASCII fragment modelled). -/
def isDigit (c : Char) : Bool := c.isDigit

/-- Go `isHexDigit`. -/
def isHexDigit (c : Char) : Bool :=
  isDigit c || ('a' ≤ c && c ≤ 'f') || ('A' ≤ c && c ≤ 'F')

/-- Go `isBinDigit`. -/
def isBinDigit (c : Char) : Bool := c = '0' || c = '1'

/-- Lexer.readChar: advance one character; rune size is 1 in the character
model.  Past the end, `ch` is the NUL sentinel and `readPosition` stays. -/
def Lexer.readChar (l : Lexer) : Lexer :=
  let l :=
    if l.readPosition < l.input.length then
      { l with position := l.readPosition,
               ch := l.input.getD l.readPosition charNul,
               readPosition := l.readPosition + 1 }
    else
      { l with position := l.readPosition, ch := charNul }
  if l.ch = '\n' then { l with line := l.line + 1, column := 1 }
  else { l with column := l.column + 1 }

/-- Lexer.peekChar. -/
def Lexer.peekChar (l : Lexer) : Char :=
  if l.readPosition < l.input.length then l.input.getD l.readPosition charNul
  else charNul

/-- Lexer.newToken. -/
def Lexer.newToken (l : Lexer) (tokenType : TokenType) (literal : String) : Token :=
  { type := tokenType, literal := literal,
    line := l.line, column := l.column, offset := l.position }

/-- Loop body of Lexer.skipWhitespace (spaces, tabs, carriage returns). -/
def Lexer.skipWhitespaceLoop : Nat → Lexer → Lexer
  | 0, l => l
  | n + 1, l =>
    if l.ch = ' ' || l.ch = '\t' || l.ch = '\r' then
      Lexer.skipWhitespaceLoop n l.readChar
    else l

/-- Lexer.skipWhitespace. -/
def Lexer.skipWhitespace (l : Lexer) : Lexer :=
  Lexer.skipWhitespaceLoop (l.input.length + 2) l

/-- Loop of Lexer.readIdentifier. -/
def Lexer.identLoop : Nat → Lexer → Lexer
  | 0, l => l
  | n + 1, l =>
    if isLetter l.ch || isDigit l.ch || l.ch = '_' then
      Lexer.identLoop n l.readChar
    else l

/-- Lexer.readIdentifier: returns the advanced lexer and the scanned text. -/
def Lexer.readIdentifier (l : Lexer) : Lexer × String :=
  let position := l.position
  let l := Lexer.identLoop (l.input.length + 2) l
  (l, listSlice l.input position l.position)

/-- Digit-run loop of Lexer.readNumber (digits and underscores). -/
def Lexer.digitLoop : Nat → Lexer → Lexer
  | 0, l => l
  | n + 1, l =>
    if isDigit l.ch || l.ch = '_' then Lexer.digitLoop n l.readChar else l

/-- Hex-digit loop of Lexer.readNumber. -/
def Lexer.hexLoop : Nat → Lexer → Lexer
  | 0, l => l
  | n + 1, l =>
    if isHexDigit l.ch || l.ch = '_' then Lexer.hexLoop n l.readChar else l

/-- Binary-digit loop of Lexer.readNumber. -/
def Lexer.binLoop : Nat → Lexer → Lexer
  | 0, l => l
  | n + 1, l =>
    if isBinDigit l.ch || l.ch = '_' then Lexer.binLoop n l.readChar else l

/-- Lexer.readNumber: integer, float, hex and binary literals.  As in Go,
the produced token's position fields are those of the lexer state after the
number has been consumed. -/
def Lexer.readNumber (l : Lexer) : Lexer × Token :=
  let position := l.position
  if l.ch = '0' && (l.peekChar = 'x' || l.peekChar = 'X') then
    let l := l.readChar.readChar
    let l := Lexer.hexLoop (l.input.length + 2) l
    (l, l.newToken .HEX (listSlice l.input position l.position))
  else if l.ch = '0' && (l.peekChar = 'b' || l.peekChar = 'B') then
    let l := l.readChar.readChar
    let l := Lexer.binLoop (l.input.length + 2) l
    (l, l.newToken .BIN (listSlice l.input position l.position))
  else
    let l := Lexer.digitLoop (l.input.length + 2) l
    let r :=
      if l.ch = '.' && isDigit l.peekChar then
        (Lexer.digitLoop (l.input.length + 2) l.readChar, true)
      else (l, false)
    let l := r.1
    let isFloat := r.2
    let r :=
      if (l.ch = 'e' || l.ch = 'E') &&
          (isDigit l.peekChar || l.peekChar = '+' || l.peekChar = '-') then
        let l := l.readChar
        let l := if l.ch = '+' || l.ch = '-' then l.readChar else l
        (Lexer.digitLoop (l.input.length + 2) l, true)
      else (l, isFloat)
    let l := r.1
    let isFloat := r.2
    if isFloat then (l, l.newToken .FLOAT (listSlice l.input position l.position))
    else (l, l.newToken .INT (listSlice l.input position l.position))

/-- Loop of Lexer.readString: backslash consumes the next character
uninterpreted; the loop stops at the closing quote or at end of input. -/
def Lexer.stringLoop : Nat → Lexer → Char → Lexer
  | 0, l, _ => l
  | n + 1, l, quote =>
    if l.ch = '\\' then Lexer.stringLoop n l.readChar.readChar quote
    else if l.ch = quote || l.ch = charNul then l
    else if l.ch = '\n' then
      Lexer.stringLoop n ({ l with line := l.line + 1, column := 1 }).readChar quote
    else Lexer.stringLoop n l.readChar quote

/-- Lexer.readString: literal runs from the opening quote to the closing
quote inclusive, or to end of input when no closing quote occurs. -/
def Lexer.readString (l : Lexer) (quote : Char) : Lexer × String :=
  let position := l.position
  let l := l.readChar
  let l := Lexer.stringLoop (l.input.length + 2) l quote
  let l := if l.ch = quote then l.readChar else l
  (l, listSlice l.input position l.position)

/-- Loop of Lexer.readRawString. -/
def Lexer.rawStringLoop : Nat → Lexer → Char → Lexer
  | 0, l, _ => l
  | n + 1, l, quote =>
    if l.ch = quote || l.ch = charNul then l
    else if l.ch = '\n' then
      Lexer.rawStringLoop n ({ l with line := l.line + 1, column := 1 }).readChar quote
    else Lexer.rawStringLoop n l.readChar quote

/-- Lexer.readRawString: contents are copied verbatim; the returned slice is
`input[position : l.position-1]` exactly as in Go. -/
def Lexer.readRawString (l : Lexer) (quote : Char) : Lexer × String :=
  let position := l.position
  let l := Lexer.rawStringLoop (l.input.length + 2) l quote
  let l := if l.ch = quote then l.readChar else l
  (l, listSlice l.input position (l.position - 1))

/-- Loop of Lexer.readComment. -/
def Lexer.commentLoop : Nat → Lexer → Lexer
  | 0, l => l
  | n + 1, l =>
    if l.ch ≠ '\n' && l.ch ≠ charNul then Lexer.commentLoop n l.readChar else l

/-- Lexer.readComment: consume to end of line. -/
def Lexer.readComment (l : Lexer) : Lexer × String :=
  let position := l.position
  let l := Lexer.commentLoop (l.input.length + 2) l
  (l, listSlice l.input position l.position)

/-- Indentation-width loop after a newline: spaces count 1, tabs count 4
(the fixed tab width of the reference lexer). -/
def Lexer.indentLoop : Nat → Lexer → Nat → Lexer × Nat
  | 0, l, acc => (l, acc)
  | n + 1, l, acc =>
    if l.ch = ' ' then Lexer.indentLoop n l.readChar (acc + 1)
    else if l.ch = '\t' then Lexer.indentLoop n l.readChar (acc + 4)
    else (l, acc)

/-- The dedent pop loop of handleIndentation: pop while the stack is
nonempty and the new width is strictly below the top; returns the number of
entries popped and the remaining stack. -/
def popWhileGreater : List Nat → Nat → Nat × List Nat
  | [], _ => (0, [])
  | t :: rest, ind =>
    if ind < t then
      let r := popWhileGreater rest ind
      (r.1 + 1, r.2)
    else (0, t :: rest)

/-- Lexer.handleIndentation: push and queue one INDENT when the width grew;
pop and queue one DEDENT per popped level when it shrank, plus one ILLEGAL
token when the final level does not match; do nothing when equal.  The Go
code indexes the stack top unconditionally; the stack is never empty (its
bottom entry 0 is never popped since widths are nonnegative), so `headD 0`
is faithful. -/
def Lexer.handleIndentation (l : Lexer) (indent : Nat) : Lexer :=
  let currentIndent := l.indentStack.headD 0
  if indent > currentIndent then
    { l with indentStack := indent :: l.indentStack,
             pending := l.pending ++ [l.newToken .INDENT ""] }
  else if indent < currentIndent then
    let r := popWhileGreater l.indentStack indent
    let l := { l with indentStack := r.2,
                      pending := l.pending ++ List.replicate r.1 (l.newToken .DEDENT "") }
    if r.2.headD (indent + 1) ≠ indent then
      { l with pending := l.pending ++ [l.newToken .ILLEGAL "invalid indentation"] }
    else l
  else l

/-- The scanning part of Lexer.NextToken (everything after the queue check
and skipWhitespace): one token per call. -/
def Lexer.scanToken (l : Lexer) : Lexer × Token :=
  match l.ch with
  | '+' =>
    if l.peekChar = '=' then
      let l := l.readChar
      (l.readChar, l.newToken .PLUSEQ "+=")
    else (l.readChar, l.newToken .PLUS "+")
  | '-' =>
    if l.peekChar = '=' then
      let l := l.readChar
      (l.readChar, l.newToken .MINUSEQ "-=")
    else if l.peekChar = '>' then
      let l := l.readChar
      (l.readChar, l.newToken .ARROW "->")
    else (l.readChar, l.newToken .MINUS "-")
  | '*' =>
    if l.peekChar = '*' then
      let l := l.readChar
      if l.peekChar = '=' then
        let l := l.readChar
        (l.readChar, l.newToken .POWEREQ "**=")
      else (l.readChar, l.newToken .POWER "**")
    else if l.peekChar = '=' then
      let l := l.readChar
      (l.readChar, l.newToken .ASTERISKEQ "*=")
    else (l.readChar, l.newToken .ASTERISK "*")
  | '/' =>
    if l.peekChar = '=' then
      let l := l.readChar
      (l.readChar, l.newToken .SLASHEQ "/=")
    else (l.readChar, l.newToken .SLASH "/")
  | '%' =>
    if l.peekChar = '=' then
      let l := l.readChar
      (l.readChar, l.newToken .PERCENTEQ "%=")
    else (l.readChar, l.newToken .PERCENT "%")
  | '&' =>
    if l.peekChar = '&' then
      let l := l.readChar
      (l.readChar, l.newToken .AMPAMP "&&")
    else if l.peekChar = '=' then
      let l := l.readChar
      (l.readChar, l.newToken .AMPEQ "&=")
    else (l.readChar, l.newToken .BITAND "&")
  | '|' =>
    if l.peekChar = '|' then
      let l := l.readChar
      (l.readChar, l.newToken .PIPEPIPE "||")
    else if l.peekChar = '=' then
      let l := l.readChar
      (l.readChar, l.newToken .PIPEEQ "|=")
    else (l.readChar, l.newToken .BITOR "|")
  | '^' =>
    if l.peekChar = '=' then
      let l := l.readChar
      (l.readChar, l.newToken .CARETEQ "^=")
    else (l.readChar, l.newToken .CARET "^")
  | '~' => (l.readChar, l.newToken .BITNOT "~")
  | '<' =>
    if l.peekChar = '=' then
      let l := l.readChar
      (l.readChar, l.newToken .LTE "<=")
    else if l.peekChar = '<' then
      let l := l.readChar
      if l.peekChar = '=' then
        let l := l.readChar
        (l.readChar, l.newToken .LTLTEQ "<<=")
      else (l.readChar, l.newToken .LTLT "<<")
    else (l.readChar, l.newToken .LT "<")
  | '>' =>
    if l.peekChar = '=' then
      let l := l.readChar
      (l.readChar, l.newToken .GTE ">=")
    else if l.peekChar = '>' then
      let l := l.readChar
      if l.peekChar = '=' then
        let l := l.readChar
        (l.readChar, l.newToken .GTGTEQ ">>=")
      else (l.readChar, l.newToken .GTGT ">>")
    else (l.readChar, l.newToken .GT ">")
  | '=' =>
    if l.peekChar = '=' then
      let l := l.readChar
      (l.readChar, l.newToken .EQ "==")
    else (l.readChar, l.newToken .ASSIGN "=")
  | '!' =>
    if l.peekChar = '=' then
      let l := l.readChar
      (l.readChar, l.newToken .NOT_EQ "!=")
    else (l.readChar, l.newToken .BANG "!")
  | '.' => (l.readChar, l.newToken .DOT ".")
  | ',' => (l.readChar, l.newToken .COMMA ",")
  | ':' =>
    if l.peekChar = '=' then
      let l := l.readChar
      (l.readChar, l.newToken .COLONASSIGN ":=")
    else (l.readChar, l.newToken .COLON ":")
  | ';' => (l.readChar, l.newToken .SEMICOLON ";")
  | '(' => (l.readChar, l.newToken .LPAREN "(")
  | ')' => (l.readChar, l.newToken .RPAREN ")")
  | '{' => (l.readChar, l.newToken .LBRACE "\x7b")
  | '}' => (l.readChar, l.newToken .RBRACE "\x7d")
  | '[' => (l.readChar, l.newToken .LBRACKET "[")
  | ']' => (l.readChar, l.newToken .RBRACKET "]")
  | '@' => (l.readChar, l.newToken .AT "@")
  | '$' => (l.readChar, l.newToken .DOLLAR "$")
  | '#' =>
    let line := l.line
    let column := l.column
    let offset := l.position
    let r := l.readComment
    (r.1, { type := .COMMENT, literal := r.2,
            line := line, column := column, offset := offset })
  | '"' =>
    let line := l.line
    let column := l.column
    let offset := l.position
    let r := l.readString l.ch
    (r.1, { type := .STRING, literal := r.2,
            line := line, column := column, offset := offset })
  | '\'' =>
    let line := l.line
    let column := l.column
    let offset := l.position
    let r := l.readString l.ch
    (r.1, { type := .STRING, literal := r.2,
            line := line, column := column, offset := offset })
  | 'r' =>
    if l.peekChar = '"' || l.peekChar = '\'' then
      let startCol := l.column
      let startPos := l.position
      let l := l.readChar
      let quote := l.ch
      let l := l.readChar
      let r := l.readRawString quote
      let l := r.1
      (l, { type := .RSTRING,
            literal := "r" ++ String.singleton quote ++ r.2 ++ String.singleton quote,
            line := l.line, column := startCol, offset := startPos })
    else
      let line := l.line
      let column := l.column
      let offset := l.position
      let r := l.readIdentifier
      (r.1, { type := lookupIdent r.2, literal := r.2,
              line := line, column := column, offset := offset })
  | '\n' =>
    let tok := l.newToken .NL "\n"
    let l := l.readChar
    let r := Lexer.indentLoop (l.input.length + 2) l 0
    (Lexer.handleIndentation r.1 r.2, tok)
  | c =>
    if c = charNul then
      (l, { type := .EOF, literal := "",
            line := l.line, column := l.column, offset := l.position })
    else if isLetter c || c = '_' then
      let line := l.line
      let column := l.column
      let offset := l.position
      let r := l.readIdentifier
      (r.1, { type := lookupIdent r.2, literal := r.2,
              line := line, column := column, offset := offset })
    else if isDigit c then
      -- Go sets tok's position fields before calling readNumber but then
      -- returns readNumber's own token, discarding them.
      l.readNumber
    else (l.readChar, l.newToken .ILLEGAL (String.singleton c))

/-- Lexer.NextToken: drain the queued INDENT/DEDENT tokens first, then skip
whitespace and scan one token. -/
def Lexer.nextToken (l : Lexer) : Lexer × Token :=
  match l.pending with
  | t :: rest => ({ l with pending := rest }, t)
  | [] => (l.skipWhitespace).scanToken

/-- NewLexer: seed the indentation stack with [0] and read one character. -/
def newLexer (input : List Char) : Lexer :=
  Lexer.readChar
    { input := input, position := 0, readPosition := 0, ch := charNul,
      line := 1, column := 1, indentStack := [0], pending := [] }

/-- Run the lexer until its first EOF token (or until fuel runs out),
returning the emitted tokens and the final lexer state.  The Go lexer keeps
returning EOF after end of input, so the token stream is the returned list
padded with its final EOF token. -/
def lexAllS : Nat → Lexer → List Token × Lexer
  | 0, l => ([], l)
  | n + 1, l =>
    let r := l.nextToken
    if r.2.type = .EOF then ([r.2], r.1)
    else
      let rec_ := lexAllS n r.1
      (r.2 :: rec_.1, rec_.2)

/-- Fuel bound for a complete lexer run: each emitted token either consumes
at least one input character or drains the queue, and at most three queue
entries are created per newline, so 4·|input| + 8 always reaches EOF. -/
def lexFuel (input : List Char) : Nat := 4 * input.length + 8

/-- Tokenize an input: the token list of a complete run, ending in EOF. -/
def tokenize (input : List Char) : List Token :=
  (lexAllS (lexFuel input) (newLexer input)).1

/-!
AST node model, embedded from internal/core/ast.  Go represents statements
and expressions as interface values over pointer-to-struct variants; we use
closed inductives.  Go interface values of type `ast.Expression` or
`ast.Statement` can be nil, so expression positions are `Option Expr`.

One Go subtlety is embedded explicitly: a concrete arm of `parseStatement`
such as `return p.parseVarStatement()` converts a possibly nil
`*ast.VarStatement` into a NON-nil `ast.Statement` interface wrapping a nil
pointer (a Go "typed nil").  The `stmt != nil` checks in the parsing loops
therefore still append such values.  The constructor `Statement.nilOf`
models these typed-nil interface values, tagged with the wrapped pointer
type; plain untyped nil (the `default:` arm) is `none`.

Fields of the Go structs that the parser provably never populates are
omitted: `Annotations` (always the empty list), `NumberLiteral.Value`
(float64, never assigned by this parser), and the AST variants the parser
never constructs (array/dictionary literals, `DotExpression`,
`IndexExpression`, `AssignmentExpression`; dotted access and indexing are
built as `InfixExpression` by `parseInfixExpression`).
-/

/-- A position in the source code (ast.Position). -/
structure Position where
  line : Nat
  column : Nat
  offset : Nat
  deriving DecidableEq, Repr

/-- Expression nodes the parser can construct (internal/core/ast). -/
inductive Expr where
  | identE (pos : Position) (value : String)
  | stringE (pos : Position) (value : String)
  | numberE (pos : Position) (isInt : Bool) (original : String)
  | booleanE (pos : Position) (value : Bool)
  | nullE (pos : Position)
  | prefixE (pos : Position) (operator : String) (right : Option Expr)
  | infixE (pos : Position) (left : Option Expr) (operator : String) (right : Option Expr)
  | callE (pos : Position) (function : Option Expr) (arguments : Option (List (Option Expr)))
  | conditionalE (pos : Position) (condition valueIfTrue valueIfFalse : Option Expr)

/-- Position accessor of an expression node. -/
def Expr.pos : Expr → Position
  | .identE p _ | .stringE p _ | .numberE p _ _ | .booleanE p _ | .nullE p
  | .prefixE p _ _ | .infixE p _ _ _ | .callE p _ _ | .conditionalE p _ _ _ => p

/-- Go `e.Position()` on a possibly nil `ast.Expression` interface; a nil
receiver would panic in Go (this is never reached by the parser, see the
note at `parseConditionalExpression`). -/
def optExprPos : Option Expr → Position
  | some e => e.pos
  | none => ⟨0, 0, 0⟩

/-- Function parameter (ast.Parameter); `defaultVal` is the Go field
`Default`. -/
structure Param where
  pos : Position
  name : String
  typeHint : String
  defaultVal : Option Expr

/-- Variable/constant declaration (ast.VarStatement). -/
structure VarStmt where
  pos : Position
  kind : String
  name : String
  typeHint : String
  value : Option Expr
  isTyped : Bool
  isConst : Bool
  isInferred : Bool

/-- ast.NewVarStatement. -/
def newVarStatement (pos : Position) (name : String) (isTyped : Bool) : VarStmt :=
  { pos := pos,
    kind := if isTyped then "func_var_typed" else "func_var_stmt",
    name := name, typeHint := "", value := none,
    isTyped := isTyped, isConst := false, isInferred := false }

/-- VarStatement.SetValue (updates the kind tag as in statement.go). -/
def VarStmt.setValue (v : VarStmt) (value : Option Expr) : VarStmt :=
  let v := { v with value := value }
  if v.isConst then
    if v.isTyped then { v with kind := "const_typed_assgnd" }
    else { v with kind := "const_assigned" }
  else
    if v.isTyped then { v with kind := "func_var_typed_assgnd" }
    else { v with kind := "func_var_assigned" }

/-- VarStatement.SetTypeHint. -/
def VarStmt.setTypeHint (v : VarStmt) (typeHint : String) : VarStmt :=
  let v := { v with typeHint := typeHint, isTyped := true }
  if v.value.isSome then
    if v.isConst then { v with kind := "const_typed_assgnd" }
    else { v with kind := "func_var_typed_assgnd" }
  else
    if v.isConst then { v with kind := "const_typed" }
    else { v with kind := "func_var_typed" }

/-- VarStatement.SetConst. -/
def VarStmt.setConst (v : VarStmt) : VarStmt :=
  let v := { v with isConst := true }
  if v.isTyped then
    if v.value.isSome then { v with kind := "const_typed_assgnd" }
    else { v with kind := "const_typed" }
  else
    if v.value.isSome then { v with kind := "const_assigned" }
    else { v with kind := "const_stmt" }

/-- VarStatement.SetInferred. -/
def VarStmt.setInferred (v : VarStmt) : VarStmt :=
  let v := { v with isInferred := true, isTyped := true }
  if v.isConst then { v with kind := "const_typed_assgnd" }
  else { v with kind := "func_var_assigned" }

/-- Concrete pointer type wrapped by a typed-nil statement interface. -/
inductive NilKind where
  | varT | funcT | classT | ifT | forT | whileT | matchT
  deriving DecidableEq, Repr

mutual

/-- Statement nodes (the ast.Statement interface; see the typed-nil note
above for `nilOf`). -/
inductive Statement where
  | passS (pos : Position) (kind : String)
  | returnS (pos : Position) (kind : String) (value : Option Expr)
  | breakS (pos : Position) (kind : String)
  | continueS (pos : Position) (kind : String)
  | exprS (pos : Position) (kind : String) (e : Option Expr)
  | varS (v : VarStmt)
  | funcS (f : Func)
  | classS (c : Class)
  | ifS (i : IfStmt)
  | forS (f : ForStmt)
  | whileS (w : WhileStmt)
  | matchS (m : MatchStmt)
  | nilOf (k : NilKind)

/-- ast.IfStatement. -/
inductive IfStmt where
  | mk (pos : Position) (kind : String) (condition : Option Expr)
      (consequence : List Statement)
      (elseCondition : List (Option Expr))
      (elseBranches : List (List Statement))
      (alternative : List Statement)

/-- ast.ForStatement. -/
inductive ForStmt where
  | mk (pos : Position) (kind : String) (iterator : String)
      (iteratorPos : Position) (collection : Option Expr)
      (body : List Statement) (typeHint : String) (isTyped : Bool)

/-- ast.WhileStatement. -/
inductive WhileStmt where
  | mk (pos : Position) (kind : String) (condition : Option Expr)
      (body : List Statement)

/-- ast.MatchStatement. -/
inductive MatchStmt where
  | mk (pos : Position) (kind : String) (value : Option Expr)
      (branches : List MatchBranch)

/-- ast.MatchBranch. -/
inductive MatchBranch where
  | mk (pos : Position) (pattern : Option Expr) (guard : Option Expr)
      (body : List Statement) (isGuarded : Bool)

/-- ast.Function.  `statements` and `subStatements` mirror the Go fields
Statements and SubStatements. -/
inductive Func where
  | mk (pos : Position) (name : String) (params : List Param)
      (returnType : String) (statements : List Statement)
      (subStatements : List Statement) (isStatic : Bool)

/-- ast.Class.  The Go slices `SubClasses []*ast.Class` and
`Functions []*ast.Function` can hold nil pointers (added through interface
typed-nils by parseGlobalScope), hence the Option element types. -/
inductive Class where
  | mk (pos : Position) (name : String) (extendsName : String)
      (subClasses : List (Option Class)) (functions : List (Option Func))
      (statements : List Statement)

end

/-- Name of a function. -/
def Func.name : Func → String
  | .mk _ n _ _ _ _ _ => n

/-- Statements list of a function (Go field Statements). -/
def Func.statements : Func → List Statement
  | .mk _ _ _ _ s _ _ => s

/-- Flat statements list of a function (Go field SubStatements). -/
def Func.subStatements : Func → List Statement
  | .mk _ _ _ _ _ s _ => s

/-- Parameters of a function. -/
def Func.params : Func → List Param
  | .mk _ _ ps _ _ _ _ => ps

/-- ast.NewFunction. -/
def newFunction (name : String) (pos : Position) : Func :=
  .mk pos name [] "" [] [] false

/-- Function.AddParameter. -/
def Func.addParameter : Func → Param → Func
  | .mk pos name ps rt st sub stat, param => .mk pos name (ps ++ [param]) rt st sub stat

/-- Function.AddStatement: appends to BOTH Statements and SubStatements. -/
def Func.addStatement : Func → Statement → Func
  | .mk pos name ps rt st sub stat, s => .mk pos name ps rt (st ++ [s]) (sub ++ [s]) stat

/-- Function.AddSubStatement: appends only to SubStatements (present in
function.go; never called by the parser). -/
def Func.addSubStatement : Func → Statement → Func
  | .mk pos name ps rt st sub stat, s => .mk pos name ps rt st (sub ++ [s]) stat

/-- Direct Go field write `function.ReturnType = ...`. -/
def Func.setReturnType : Func → String → Func
  | .mk pos name ps _ st sub stat, rt => .mk pos name ps rt st sub stat

/-- Direct Go field write `function.IsStatic = ...`. -/
def Func.setIsStatic : Func → Bool → Func
  | .mk pos name ps rt st sub _, b => .mk pos name ps rt st sub b

/-- Name of a class. -/
def Class.name : Class → String
  | .mk _ n _ _ _ _ => n

/-- Subclasses of a class. -/
def Class.subClasses : Class → List (Option Class)
  | .mk _ _ _ s _ _ => s

/-- Functions of a class. -/
def Class.functions : Class → List (Option Func)
  | .mk _ _ _ _ f _ => f

/-- Statements of a class. -/
def Class.statements : Class → List Statement
  | .mk _ _ _ _ _ s => s

/-- ast.NewClass. -/
def newClass (name : String) (pos : Position) : Class :=
  .mk pos name "" [] [] []

/-- Class.AddSubClass. -/
def Class.addSubClass : Class → Option Class → Class
  | .mk pos name ext subs fns sts, c => .mk pos name ext (subs ++ [c]) fns sts

/-- Class.AddFunction. -/
def Class.addFunction : Class → Option Func → Class
  | .mk pos name ext subs fns sts, f => .mk pos name ext subs (fns ++ [f]) sts

/-- Class.AddStatement. -/
def Class.addStatement : Class → Statement → Class
  | .mk pos name ext subs fns sts, s => .mk pos name ext subs fns (sts ++ [s])

/-- Direct Go field write `class.Extends = ...`. -/
def Class.setExtends : Class → String → Class
  | .mk pos name _ subs fns sts, ext => .mk pos name ext subs fns sts

/-- ast.NewPassStatement. -/
def newPassStatement (pos : Position) : Statement := .passS pos "pass_stmt"

/-- ast.NewReturnStatement. -/
def newReturnStatement (pos : Position) (value : Option Expr) : Statement :=
  .returnS pos "return_stmt" value

/-- ast.NewBreakStatement. -/
def newBreakStatement (pos : Position) : Statement := .breakS pos "break_stmt"

/-- ast.NewContinueStatement. -/
def newContinueStatement (pos : Position) : Statement := .continueS pos "continue_stmt"

/-- ast.NewExpressionStatement. -/
def newExpressionStatement (pos : Position) (e : Option Expr) : Statement :=
  .exprS pos "expr_stmt" e

/-- ast.NewIfStatement. -/
def newIfStatement (pos : Position) (condition : Option Expr) : IfStmt :=
  .mk pos "if_stmt" condition [] [] [] []

/-- IfStatement.AddElseIfBranch. -/
def IfStmt.addElseIfBranch : IfStmt → Option Expr → List Statement → IfStmt
  | .mk pos kind c cons ec eb alt, cond, stmts =>
    .mk pos kind c cons (ec ++ [cond]) (eb ++ [stmts]) alt

/-- IfStatement.SetAlternative. -/
def IfStmt.setAlternative : IfStmt → List Statement → IfStmt
  | .mk pos kind c cons ec eb _, alt => .mk pos kind c cons ec eb alt

/-- Set the consequence list (the parser builds it by repeated
IfStatement.AddConsequenceStatement calls; the block loop below accumulates
the same list). -/
def IfStmt.setConsequence : IfStmt → List Statement → IfStmt
  | .mk pos kind c _ ec eb alt, cons => .mk pos kind c cons ec eb alt

/-- ast.NewForStatement. -/
def newForStatement (pos : Position) (iterator : String) (iteratorPos : Position)
    (collection : Option Expr) (isTyped : Bool) : ForStmt :=
  .mk pos (if isTyped then "for_stmt_typed" else "for_stmt") iterator iteratorPos
    collection [] "" isTyped

/-- ForStatement.SetTypeHint. -/
def ForStmt.setTypeHint : ForStmt → String → ForStmt
  | .mk pos _ it itp coll body _ _, th => .mk pos "for_stmt_typed" it itp coll body th true

/-- Set the body list (built by repeated ForStatement.AddBodyStatement). -/
def ForStmt.setBody : ForStmt → List Statement → ForStmt
  | .mk pos kind it itp coll _ th ty, body => .mk pos kind it itp coll body th ty

/-- ast.NewWhileStatement. -/
def newWhileStatement (pos : Position) (condition : Option Expr) : WhileStmt :=
  .mk pos "while_stmt" condition []

/-- Set the body list (built by repeated WhileStatement.AddBodyStatement). -/
def WhileStmt.setBody : WhileStmt → List Statement → WhileStmt
  | .mk pos kind c _, body => .mk pos kind c body

/-- ast.NewMatchStatement. -/
def newMatchStatement (pos : Position) (value : Option Expr) : MatchStmt :=
  .mk pos "match_stmt" value []

/-- MatchStatement.AddBranch. -/
def MatchStmt.addBranch : MatchStmt → MatchBranch → MatchStmt
  | .mk pos kind v bs, b => .mk pos kind v (bs ++ [b])

/-- ast.NewMatchBranch. -/
def newMatchBranch (pos : Position) (pattern : Option Expr) : MatchBranch :=
  .mk pos pattern none [] false

/-- MatchBranch.SetGuard. -/
def MatchBranch.setGuard : MatchBranch → Option Expr → MatchBranch
  | .mk pos pat _ body _, g => .mk pos pat g body true

/-- MatchBranch.AddBodyStatement. -/
def MatchBranch.addBodyStatement : MatchBranch → Statement → MatchBranch
  | .mk pos pat g body gu, s => .mk pos pat g (body ++ [s]) gu

/-- ast.AbstractSyntaxTree.  `classes` can hold nil entries copied from a
class's SubClasses slice. -/
structure AbstractSyntaxTree where
  pos : Position
  rootClass : Option Class
  classes : List (Option Class)
  functions : List (Option Func)

/-- ast.NewAST. -/
def newAST : AbstractSyntaxTree :=
  { pos := ⟨1, 1, 0⟩, rootClass := none, classes := [], functions := [] }

/-!
Parser, embedded from internal/core/parser/parser.go.  Go's in-place
mutation of the receiver is modelled by explicit state passing.  The Go
parser pulls tokens lazily from the lexer; here the token stream is
materialised (it ends with the EOF token, and the Go lexer returns EOF on
every call past end of input, so `nextTok` reuses the peek token once the
list is exhausted).
-/

/-- A parser error (parser.go `Error`). -/
structure PError where
  line : Nat
  column : Nat
  message : String
  deriving DecidableEq, Repr

/-- Error-handling mode; Go `ErrorModeStrict` is the iota zero value,
`ErrorModePanic` is 1. -/
inductive ErrorMode where
  | strictMode
  | panicMode
  deriving DecidableEq, Repr

/-- Parser state (the `Parser` struct; the lexer is replaced by the
materialised remainder of its token stream). -/
structure Parser where
  toks : List Token
  currentToken : Token
  peekToken : Token
  errors : List PError
  errorMode : ErrorMode
  deriving DecidableEq, Repr

/-- Go's zero-value `Token` (empty type string); it is overwritten by the
two initial nextToken calls before any inspection, so the placeholder kind
is never observed. -/
def zeroToken : Token := { type := .EOF, literal := "", line := 0, column := 0, offset := 0 }

/-- Parser.nextToken: shift peek into current and pull one token.  After
stream exhaustion the Go lexer keeps returning its EOF token, which is then
the current peek token, so it is reused as the default. -/
def Parser.nextTok (p : Parser) : Parser :=
  { p with currentToken := p.peekToken,
           peekToken := p.toks.headD p.peekToken,
           toks := p.toks.tail }

/-- Append one parser error (Go `p.errors = append(p.errors, Error{...})`). -/
def Parser.addErr (p : Parser) (line column : Nat) (message : String) : Parser :=
  { p with errors := p.errors ++ [⟨line, column, message⟩] }

/-- Parser.peekError. -/
def Parser.peekError (p : Parser) (t : TokenType) : Parser :=
  p.addErr p.peekToken.line p.peekToken.column
    ("expected next token to be " ++ t.str ++ ", got " ++ p.peekToken.type.str ++ " instead")

/-- Keywords of the synchronize switch (statement starters). -/
def isSyncKeyword (t : TokenType) : Bool :=
  t = .CLASS || t = .FUNC || t = .VAR || t = .CONST || t = .IF ||
  t = .FOR || t = .WHILE || t = .MATCH || t = .RETURN

/-- Loop of Parser.synchronize: discard tokens until a statement boundary
(newline, semicolon, statement-starting keyword) or EOF. -/
def Parser.syncLoop : Nat → Parser → Parser
  | 0, p => p
  | n + 1, p =>
    if p.currentToken.type = .EOF then p
    else if p.currentToken.type = .SEMICOLON || p.currentToken.type = .NL then p
    else if isSyncKeyword p.currentToken.type then p
    else Parser.syncLoop n p.nextTok

/-- Parser.synchronize: advance once past the offending token, then skip to
a synchronization point. -/
def Parser.synchronize (p : Parser) : Parser :=
  let p := p.nextTok
  Parser.syncLoop (p.toks.length + 2) p

/-- Parser.expectPeek: advance on match, otherwise record the error and (in
panic mode) synchronize. -/
def Parser.expectPeek (p : Parser) (t : TokenType) : Parser × Bool :=
  if p.peekToken.type = t then (p.nextTok, true)
  else
    let p := p.peekError t
    let p := if p.errorMode = .panicMode then p.synchronize else p
    (p, false)

/-- Loop of Parser.skipNewlines (current token is NL or INDENT). -/
def Parser.skipNewlinesLoop : Nat → Parser → Parser
  | 0, p => p
  | n + 1, p =>
    if p.currentToken.type = .NL || p.currentToken.type = .INDENT then
      Parser.skipNewlinesLoop n p.nextTok
    else p

/-- Parser.skipNewlines. -/
def Parser.skipNewlines (p : Parser) : Parser :=
  Parser.skipNewlinesLoop (p.toks.length + 2) p

/-- The inline loops `for p.peekToken.Type == NL { p.nextToken() }` used
before block bodies. -/
def Parser.skipPeekNLLoop : Nat → Parser → Parser
  | 0, p => p
  | n + 1, p =>
    if p.peekToken.type = .NL then Parser.skipPeekNLLoop n p.nextTok else p

/-- Fuelled entry for the peek-NL skipping loop. -/
def Parser.skipPeekNL (p : Parser) : Parser :=
  Parser.skipPeekNLLoop (p.toks.length + 2) p

/-- The inline loop `for peek == NL || peek == INDENT { nextToken }` of
parseFunctionDefinition. -/
def Parser.skipPeekNLIndentLoop : Nat → Parser → Parser
  | 0, p => p
  | n + 1, p =>
    if p.peekToken.type = .NL || p.peekToken.type = .INDENT then
      Parser.skipPeekNLIndentLoop n p.nextTok
    else p

/-- Fuelled entry for the peek-NL-or-INDENT skipping loop. -/
def Parser.skipPeekNLIndent (p : Parser) : Parser :=
  Parser.skipPeekNLIndentLoop (p.toks.length + 2) p

/-- The inline loop `for cur != NL && cur != EOF { nextToken }` of the
single-line match-branch body. -/
def Parser.skipToNLLoop : Nat → Parser → Parser
  | 0, p => p
  | n + 1, p =>
    if p.currentToken.type ≠ .NL && p.currentToken.type ≠ .EOF then
      Parser.skipToNLLoop n p.nextTok
    else p

/-- Fuelled entry for the skip-to-newline loop. -/
def Parser.skipToNL (p : Parser) : Parser :=
  Parser.skipToNLLoop (p.toks.length + 2) p

/-- Precedence levels (the iota block of parser.go). -/
def PREC_LOWEST : Nat := 0
/-- Assignment operators. -/
def PREC_ASSIGN : Nat := 1
/-- Logical and/or. -/
def PREC_LOGICAL : Nat := 2
/-- Comparisons. -/
def PREC_COMPARISON : Nat := 3
/-- Bitwise operators. -/
def PREC_BITWISE : Nat := 4
/-- Additive operators. -/
def PREC_SUM : Nat := 5
/-- Multiplicative operators. -/
def PREC_PRODUCT : Nat := 6
/-- Unary operators. -/
def PREC_PREFIX : Nat := 7
/-- Call `(`. -/
def PREC_CALL : Nat := 8
/-- Index `[`. -/
def PREC_INDEX : Nat := 9
/-- Attribute access `.`. -/
def PREC_DOT : Nat := 10

/-- The operator precedence map of parser.go. -/
def precedences (t : TokenType) : Option Nat :=
  match t with
  | .ASSIGN | .PLUSEQ | .MINUSEQ | .ASTERISKEQ | .SLASHEQ | .PERCENTEQ
  | .AMPEQ | .PIPEEQ | .CARETEQ | .LTLTEQ | .GTGTEQ | .POWEREQ => some PREC_ASSIGN
  | .OR | .AND | .PIPEPIPE | .AMPAMP => some PREC_LOGICAL
  | .EQ | .NOT_EQ | .LT | .GT | .LTE | .GTE => some PREC_COMPARISON
  | .BITAND | .BITOR | .BITXOR | .LTLT | .GTGT => some PREC_BITWISE
  | .PLUS | .MINUS => some PREC_SUM
  | .ASTERISK | .SLASH | .PERCENT | .POWER => some PREC_PRODUCT
  | .LPAREN => some PREC_CALL
  | .LBRACKET => some PREC_INDEX
  | .DOT => some PREC_DOT
  | _ => none

/-- Parser.peekPrecedence. -/
def Parser.peekPrecedence (p : Parser) : Nat :=
  (precedences p.peekToken.type).getD PREC_LOWEST

/-- Parser.curPrecedence. -/
def Parser.curPrecedence (p : Parser) : Nat :=
  (precedences p.currentToken.type).getD PREC_LOWEST

/-- The valid-infix-operator switch inside parseExpression's loop. -/
def isInfixOp (t : TokenType) : Bool :=
  match t with
  | .PLUS | .MINUS | .ASTERISK | .SLASH | .PERCENT | .POWER => true
  | .EQ | .NOT_EQ | .LT | .GT | .LTE | .GTE => true
  | .AND | .OR => true
  | .ASSIGN | .PLUSEQ | .MINUSEQ | .ASTERISKEQ | .SLASHEQ => true
  | .LPAREN => true
  | .LBRACKET => true
  | .DOT => true
  | _ => false

/-- The terminator set of parseExpression's infix loop condition. -/
def isExprTerminator (t : TokenType) : Bool :=
  t = .SEMICOLON || t = .NL || t = .EOF || t = .COLON || t = .RPAREN ||
  t = .COMMA || t = .RBRACE || t = .RBRACKET

/-- Position of the current token (the `ast.Position{...}` literals built
throughout parser.go). -/
def Parser.curPos (p : Parser) : Position :=
  ⟨p.currentToken.line, p.currentToken.column, p.currentToken.offset⟩

/-- Parser.parseIdentifier. -/
def Parser.parseIdentifier (p : Parser) : Expr :=
  .identE p.curPos p.currentToken.literal

/-- Parser.parseIntegerLiteral (Value is never set by the Go parser; only
IsInt and Original are populated). -/
def Parser.parseIntegerLiteral (p : Parser) : Expr :=
  .numberE p.curPos true p.currentToken.literal

/-- Parser.parseFloatLiteral. -/
def Parser.parseFloatLiteral (p : Parser) : Expr :=
  .numberE p.curPos false p.currentToken.literal

/-- Parser.parseStringLiteral. -/
def Parser.parseStringLiteral (p : Parser) : Expr :=
  .stringE p.curPos p.currentToken.literal

/-- Parser.parseBooleanLiteral. -/
def Parser.parseBooleanLiteral (p : Parser) : Expr :=
  .booleanE p.curPos (p.currentToken.type = .TRUE)

/-- Parser.parseNullLiteral. -/
def Parser.parseNullLiteral (p : Parser) : Expr :=
  .nullE p.curPos

mutual

/-- Parser.parseExpression: Pratt parsing; prefix dispatch followed by the
infix loop (`parseExprLoop`). -/
def parseExpression : Nat → Parser → Nat → Parser × Option Expr
  | 0, p, _ => (p, none)
  | n + 1, p, precedence =>
    let r : Parser × Option Expr :=
      match p.currentToken.type with
      | .IDENT => (p, some p.parseIdentifier)
      | .INT => (p, some p.parseIntegerLiteral)
      | .FLOAT => (p, some p.parseFloatLiteral)
      | .STRING => (p, some p.parseStringLiteral)
      | .TRUE => (p, some p.parseBooleanLiteral)
      | .FALSE => (p, some p.parseBooleanLiteral)
      | .NULL => (p, some p.parseNullLiteral)
      | .LPAREN => parseGroupedExpression n p
      | .MINUS => parsePrefixExpression n p
      | .BANG => parsePrefixExpression n p
      | _ => (p, none)
    match r.2 with
    | none => (r.1, none)
    | some leftExp => parseExprLoop n r.1 precedence (some leftExp)

/-- The infix loop of Parser.parseExpression: runs while the peek token is
not a terminator; the trailing-`if` conditional form is special-cased ahead
of the precedence test. -/
def parseExprLoop : Nat → Parser → Nat → Option Expr → Parser × Option Expr
  | 0, p, _, leftExp => (p, leftExp)
  | n + 1, p, precedence, leftExp =>
    if isExprTerminator p.peekToken.type then (p, leftExp)
    else if p.peekToken.type = .IF then
      let r := parseConditionalExpression n p leftExp
      parseExprLoop n r.1 precedence r.2
    else if precedence ≥ p.peekPrecedence then (p, leftExp)
    else if isInfixOp p.peekToken.type then
      let p := p.nextTok
      let r := parseInfixExpression n p leftExp
      parseExprLoop n r.1 precedence r.2
    else (p, leftExp)

/-- Parser.parseConditionalExpression.  The Go comment on its first
nextToken says "consume 'if'", but the call only moves the cursor ONTO the
`if` token (it was the peek token); `parseExpression` is then entered with
current token `if`, which has no prefix handler. -/
def parseConditionalExpression : Nat → Parser → Option Expr → Parser × Option Expr
  | 0, p, _ => (p, none)
  | n + 1, p, valueIfTrue =>
    let p := p.nextTok
    let r := parseExpression n p PREC_LOWEST
    match r.2 with
    | none =>
      let p := r.1
      (p.addErr p.currentToken.line p.currentToken.column
        "expected condition expression in conditional expression", none)
    | some condition =>
      let e := r.1.expectPeek .ELSE
      if !e.2 then (e.1, none)
      else
        let p := e.1.nextTok
        let r2 := parseExpression n p PREC_LOWEST
        match r2.2 with
        | none =>
          let p := r2.1
          (p.addErr p.currentToken.line p.currentToken.column
            "expected expression after 'else' in conditional expression", none)
        | some valueIfFalse =>
          (r2.1, some (.conditionalE (optExprPos valueIfTrue) (some condition)
            valueIfTrue (some valueIfFalse)))

/-- Parser.parseInfixExpression: calls keyed on `(`, otherwise a binary
node holding the operator's literal text. -/
def parseInfixExpression : Nat → Parser → Option Expr → Parser × Option Expr
  | 0, p, _ => (p, none)
  | n + 1, p, left =>
    if p.currentToken.type = .LPAREN then parseCallExpression n p left
    else
      let pos := p.curPos
      let operator := p.currentToken.literal
      let precedence := p.curPrecedence
      let p := p.nextTok
      let r := parseExpression n p precedence
      (r.1, some (.infixE pos left operator r.2))

/-- Parser.parseCallExpression. -/
def parseCallExpression : Nat → Parser → Option Expr → Parser × Option Expr
  | 0, p, _ => (p, none)
  | n + 1, p, fn =>
    let pos := p.curPos
    let r := parseCallArguments n p
    (r.1, some (.callE pos fn r.2))

/-- Parser.parseCallArguments: `none` models Go's nil slice returned when
the closing parenthesis is missing. -/
def parseCallArguments : Nat → Parser → Parser × Option (List (Option Expr))
  | 0, p => (p, none)
  | n + 1, p =>
    if p.peekToken.type = .RPAREN then (p.nextTok, some [])
    else
      let p := p.nextTok
      let r := parseExpression n p PREC_LOWEST
      let r2 := parseCallArgsLoop n r.1 [r.2]
      let e := r2.1.expectPeek .RPAREN
      if !e.2 then (e.1, none)
      else (e.1, some r2.2)

/-- The comma loop of Parser.parseCallArguments. -/
def parseCallArgsLoop : Nat → Parser → List (Option Expr) → Parser × List (Option Expr)
  | 0, p, args => (p, args)
  | n + 1, p, args =>
    if p.peekToken.type = .COMMA then
      let p := p.nextTok.nextTok
      let r := parseExpression n p PREC_LOWEST
      parseCallArgsLoop n r.1 (args ++ [r.2])
    else (p, args)

/-- Parser.parseGroupedExpression. -/
def parseGroupedExpression : Nat → Parser → Parser × Option Expr
  | 0, p => (p, none)
  | n + 1, p =>
    let p := p.nextTok
    let r := parseExpression n p PREC_LOWEST
    match r.2 with
    | none => (r.1, none)
    | some e =>
      let x := r.1.expectPeek .RPAREN
      if !x.2 then (x.1, none)
      else (x.1, some e)

/-- Parser.parsePrefixExpression. -/
def parsePrefixExpression : Nat → Parser → Parser × Option Expr
  | 0, p => (p, none)
  | n + 1, p =>
    let pos := p.curPos
    let operator := p.currentToken.literal
    let p := p.nextTok
    let r := parseExpression n p PREC_PREFIX
    (r.1, some (.prefixE pos operator r.2))

/-- Parser.parseStatement: statement dispatch on the current token's kind.
Concrete arms wrap a nil result as a typed-nil interface value
(`Statement.nilOf`); only the default arm yields the untyped nil `none`. -/
def parseStatement : Nat → Parser → Parser × Option Statement
  | 0, p => (p, none)
  | n + 1, p =>
    match p.currentToken.type with
    | .PASS => (p, some (newPassStatement p.curPos))
    | .RETURN =>
      let r := parseReturnStatement n p
      (r.1, some r.2)
    | .VAR =>
      let r := parseVarStatement n p
      (r.1, some (match r.2 with
        | some v => .varS v
        | none => .nilOf .varT))
    | .CONST =>
      let r := parseConstStatement n p
      (r.1, some (match r.2 with
        | some v => .varS v
        | none => .nilOf .varT))
    | .FUNC =>
      let r := parseFunctionDefinition n p
      (r.1, some (match r.2 with
        | some f => .funcS f
        | none => .nilOf .funcT))
    | .CLASS =>
      let r := parseClassDefinition n p
      (r.1, some (match r.2 with
        | some c => .classS c
        | none => .nilOf .classT))
    | .IF =>
      let r := parseIfStatement n p
      (r.1, some (match r.2 with
        | some i => .ifS i
        | none => .nilOf .ifT))
    | .WHILE =>
      let r := parseWhileStatement n p
      (r.1, some (match r.2 with
        | some w => .whileS w
        | none => .nilOf .whileT))
    | .FOR =>
      let r := parseForStatement n p
      (r.1, some (match r.2 with
        | some f => .forS f
        | none => .nilOf .forT))
    | .MATCH =>
      let r := parseMatchStatement n p
      (r.1, some (match r.2 with
        | some m => .matchS m
        | none => .nilOf .matchT))
    | .BREAK => (p, some (newBreakStatement p.curPos))
    | .CONTINUE => (p, some (newContinueStatement p.curPos))
    | .IDENT | .INT | .FLOAT | .STRING | .RSTRING | .TRUE | .FALSE
    | .NULL | .SELF | .LPAREN =>
      let r := parseExpressionStatement n p
      (r.1, some r.2)
    | _ => (p, none)

/-- Parser.parseReturnStatement (never nil in Go; Value stays nil when a
semicolon or newline follows immediately). -/
def parseReturnStatement : Nat → Parser → Parser × Statement
  | 0, p => (p, newReturnStatement p.curPos none)
  | n + 1, p =>
    let pos := p.curPos
    let p := p.nextTok
    if p.currentToken.type ≠ .SEMICOLON && p.currentToken.type ≠ .NL then
      let r := parseExpression n p PREC_LOWEST
      (r.1, newReturnStatement pos r.2)
    else (p, newReturnStatement pos none)

/-- Parser.parseExpressionStatement. -/
def parseExpressionStatement : Nat → Parser → Parser × Statement
  | 0, p => (p, newExpressionStatement p.curPos none)
  | n + 1, p =>
    let pos := p.curPos
    let r := parseExpression n p PREC_LOWEST
    let stmt := newExpressionStatement pos r.2
    let p := r.1
    let p := if p.peekToken.type = .SEMICOLON then p.nextTok else p
    (p, stmt)

/-- Parser.parseVarStatement. -/
def parseVarStatement : Nat → Parser → Parser × Option VarStmt
  | 0, p => (p, none)
  | n + 1, p =>
    let pos := p.curPos
    let p := p.nextTok
    let p := p.skipNewlines
    if p.currentToken.type ≠ .IDENT then
      let p := p.addErr p.currentToken.line p.currentToken.column
        ("expected identifier, got " ++ p.currentToken.type.str)
      let p := if p.errorMode = .panicMode then p.synchronize else p
      (p, none)
    else
      let varName := p.currentToken.literal
      let stmt := newVarStatement pos varName false
      let p := p.nextTok
      if p.currentToken.type = .COLON then
        let p := p.nextTok
        if p.currentToken.type ≠ .IDENT then
          let p := p.addErr p.currentToken.line p.currentToken.column
            ("expected type identifier, got " ++ p.currentToken.type.str)
          let p := if p.errorMode = .panicMode then p.synchronize else p
          (p, none)
        else
          let stmt := stmt.setTypeHint p.currentToken.literal
          let p := p.nextTok
          parseVarAssignTail n p stmt
      else if p.currentToken.type = .COLONASSIGN then
        let stmt := stmt.setInferred
        let p := p.nextTok
        let r := parseExpression n p PREC_LOWEST
        (r.1, some (stmt.setValue r.2))
      else parseVarAssignTail n p stmt

/-- The trailing assignment check of Parser.parseVarStatement (reached both
after a type hint and with no hint). -/
def parseVarAssignTail : Nat → Parser → VarStmt → Parser × Option VarStmt
  | 0, p, stmt => (p, some stmt)
  | n + 1, p, stmt =>
    if p.currentToken.type = .ASSIGN then
      let p := p.nextTok
      let r := parseExpression n p PREC_LOWEST
      let stmt := stmt.setValue r.2
      (r.1.nextTok, some stmt)
    else (p, some stmt)

/-- Parser.parseConstStatement. -/
def parseConstStatement : Nat → Parser → Parser × Option VarStmt
  | 0, p => (p, none)
  | n + 1, p =>
    let pos := p.curPos
    let p := p.nextTok
    let p := p.skipNewlines
    if p.currentToken.type ≠ .IDENT then
      let p := p.addErr p.currentToken.line p.currentToken.column
        ("expected identifier, got " ++ p.currentToken.type.str)
      let p := if p.errorMode = .panicMode then p.synchronize else p
      (p, none)
    else
      let constName := p.currentToken.literal
      let stmt := (newVarStatement pos constName false).setConst
      let p := p.nextTok
      let s : Parser × Option VarStmt :=
        if p.currentToken.type = .COLON then
          let p := p.nextTok
          if p.currentToken.type ≠ .IDENT then
            let p := p.addErr p.currentToken.line p.currentToken.column
              ("expected type identifier, got " ++ p.currentToken.type.str)
            let p := if p.errorMode = .panicMode then p.synchronize else p
            (p, none)
          else
            let stmt := stmt.setTypeHint p.currentToken.literal
            (p.nextTok, some stmt)
        else (p, some stmt)
      match s.2 with
      | none => (s.1, none)
      | some stmt =>
        let p := s.1
        if p.currentToken.type ≠ .ASSIGN then
          let p := p.addErr p.currentToken.line p.currentToken.column
            "constants must be assigned a value"
          let p := if p.errorMode = .panicMode then p.synchronize else p
          (p, none)
        else
          let p := p.nextTok
          let r := parseExpression n p PREC_LOWEST
          let stmt := stmt.setValue r.2
          (r.1.nextTok, some stmt)

/-- Parser.parseFunctionDefinition. -/
def parseFunctionDefinition : Nat → Parser → Parser × Option Func
  | 0, p => (p, none)
  | n + 1, p =>
    let startPos := p.curPos
    -- static prefix (dead code through parseStatement's dispatch, which
    -- only routes FUNC here; embedded faithfully)
    let s : Parser × Option Bool :=
      if p.currentToken.type = .STATIC then
        let p := p.nextTok
        if p.currentToken.type ≠ .FUNC then
          (p.addErr p.currentToken.line p.currentToken.column
            ("expected 'func' after 'static', got " ++ p.currentToken.type.str), none)
        else (p, some true)
      else (p, some false)
    match s.2 with
    | none => (s.1, none)
    | some isStatic =>
      let p := s.1.nextTok
      if p.currentToken.type ≠ .IDENT then
        (p.addErr p.currentToken.line p.currentToken.column
          ("expected function name, got " ++ p.currentToken.type.str), none)
      else
        let funcName := p.currentToken.literal
        let function := (newFunction funcName startPos).setIsStatic isStatic
        let p := p.nextTok
        if p.currentToken.type ≠ .LPAREN then
          (p.addErr p.currentToken.line p.currentToken.column
            ("expected '(' after function name, got " ++ p.currentToken.type.str), none)
        else
          let r := parseParameterList n p function
          let p := r.1
          let function := r.2
          let s2 : Parser × Option Func :=
            if p.currentToken.type = .ARROW then
              let p := p.nextTok
              if p.currentToken.type ≠ .IDENT then
                let p := p.addErr p.currentToken.line p.currentToken.column
                  ("expected return type, got " ++ p.currentToken.type.str)
                let p := if p.errorMode = .panicMode then p.synchronize else p
                (p, none)
              else
                let function := function.setReturnType p.currentToken.literal
                (p.nextTok, some function)
            else (p, some function)
          match s2.2 with
          | none => (s2.1, none)
          | some function =>
            let p := s2.1
            let e : Parser × Bool :=
              if p.currentToken.type ≠ .COLON then p.expectPeek .COLON
              else (p, true)
            if !e.2 then (e.1, none)
            else
              let p := e.1
              let p := p.skipPeekNLIndent
              if p.peekToken.type = .INDENT then
                let p := p.nextTok
                let r := parseFuncBodyLoop n p function
                (r.1, some r.2)
              else if p.peekToken.type = .VAR || p.peekToken.type = .RETURN ||
                  p.peekToken.type = .PASS then
                let r := parseFuncBodyLoop n p function
                (r.1, some r.2)
              else if p.peekToken.type = .EOF then (p, some function)
              else
                (p.addErr p.peekToken.line p.peekToken.column
                  ("expected indentation or statement, got " ++ p.peekToken.type.str), none)

/-- Function-body loop of parseFunctionDefinition (skips only NL; a
non-nil interface result — including typed nils — is added through
Function.AddStatement). -/
def parseFuncBodyLoop : Nat → Parser → Func → Parser × Func
  | 0, p, function => (p, function)
  | n + 1, p, function =>
    if p.currentToken.type ≠ .DEDENT && p.currentToken.type ≠ .EOF then
      if p.currentToken.type = .NL then parseFuncBodyLoop n p.nextTok function
      else
        let r := parseStatement n p
        let function :=
          match r.2 with
          | some stmt => function.addStatement stmt
          | none => function
        parseFuncBodyLoop n r.1.nextTok function
    else (p, function)

/-- Parser.parseParameterList. -/
def parseParameterList : Nat → Parser → Func → Parser × Func
  | 0, p, function => (p, function)
  | n + 1, p, function =>
    let p := p.nextTok
    if p.currentToken.type = .RPAREN then (p.nextTok, function)
    else
      let r := parseParameter n p
      match r.2 with
      | none => (r.1, function)
      | some param =>
        let function := function.addParameter param
        let r2 := parseParamsLoop n r.1 function
        if !r2.2.2 then (r2.1, r2.2.1)
        else
          let p := r2.1
          let function := r2.2.1
          if p.currentToken.type ≠ .RPAREN then
            (p.addErr p.currentToken.line p.currentToken.column
              "expected ')' at end of parameter list", function)
          else (p.nextTok, function)

/-- The comma loop of Parser.parseParameterList; the Bool is false when a
parameter failed to parse (Go returns early, skipping the `)` check). -/
def parseParamsLoop : Nat → Parser → Func → Parser × (Func × Bool)
  | 0, p, function => (p, (function, true))
  | n + 1, p, function =>
    if p.currentToken.type = .COMMA then
      let p := p.nextTok
      if p.currentToken.type = .RPAREN then (p, (function, true))
      else
        let r := parseParameter n p
        match r.2 with
        | none => (r.1, (function, false))
        | some param => parseParamsLoop n r.1 (function.addParameter param)
    else (p, (function, true))

/-- Parser.parseParameter. -/
def parseParameter : Nat → Parser → Parser × Option Param
  | 0, p => (p, none)
  | n + 1, p =>
    if p.currentToken.type ≠ .IDENT then
      (p.addErr p.currentToken.line p.currentToken.column
        ("expected parameter name, got " ++ p.currentToken.type.str), none)
    else
      let param : Param :=
        { pos := p.curPos, name := p.currentToken.literal,
          typeHint := "", defaultVal := none }
      let p := p.nextTok
      let s : Parser × Option Param :=
        if p.currentToken.type = .COLON then
          let p := p.nextTok
          if p.currentToken.type ≠ .IDENT then
            (p.addErr p.currentToken.line p.currentToken.column
              ("expected type name after ':', got " ++ p.currentToken.type.str), none)
          else ({ p.nextTok with }, some { param with typeHint := p.currentToken.literal })
        else (p, some param)
      match s.2 with
      | none => (s.1, none)
      | some param =>
        let p := s.1
        if p.currentToken.type = .ASSIGN then
          let p := p.nextTok
          let r := parseExpression n p PREC_LOWEST
          match r.2 with
          | none =>
            let p := r.1
            (p.addErr p.currentToken.line p.currentToken.column
              "invalid default value expression", none)
          | some d => (r.1.nextTok, some { param with defaultVal := some d })
        else (p, some param)

/-- Parser.parseClassDefinition. -/
def parseClassDefinition : Nat → Parser → Parser × Option Class
  | 0, p => (p, none)
  | n + 1, p =>
    let pos := p.curPos
    let p := p.nextTok
    let p := p.skipNewlines
    if p.currentToken.type ≠ .IDENT then
      let p := p.addErr p.currentToken.line p.currentToken.column
        ("expected class name, got " ++ p.currentToken.type.str)
      let p := if p.errorMode = .panicMode then p.synchronize else p
      (p, none)
    else
      let className := p.currentToken.literal
      let cls := newClass className pos
      let p := p.nextTok
      let s : Parser × Option Class :=
        if p.currentToken.type = .EXTENDS then
          let p := p.nextTok
          if p.currentToken.type ≠ .IDENT then
            let p := p.addErr p.currentToken.line p.currentToken.column
              ("expected parent class name, got " ++ p.currentToken.type.str)
            let p := if p.errorMode = .panicMode then p.synchronize else p
            (p, none)
          else (p.nextTok, some (cls.setExtends p.currentToken.literal))
        else (p, some cls)
      match s.2 with
      | none => (s.1, none)
      | some cls =>
        let p := s.1
        let e : Parser × Bool :=
          if p.currentToken.type ≠ .COLON then p.expectPeek .COLON
          else (p, true)
        if !e.2 then (e.1, none)
        else
          let p := e.1
          let p := p.skipPeekNL
          if p.peekToken.type = .INDENT then
            let p := p.nextTok
            let r := parseClassBodyLoop n p cls
            (r.1, some r.2)
          else if p.peekToken.type = .VAR || p.peekToken.type = .FUNC ||
              p.peekToken.type = .PASS || p.peekToken.type = .CLASS then
            let r := parseClassBodyLoop n p cls
            (r.1, some r.2)
          else
            (p.addErr p.peekToken.line p.peekToken.column
              ("expected indentation or statement, got " ++ p.peekToken.type.str), none)

/-- Class-body loop of parseClassDefinition: FUNC and CLASS go through the
concrete sub-parsers (real nil checks); everything else through
parseStatement (interface nil check, so typed nils are added). -/
def parseClassBodyLoop : Nat → Parser → Class → Parser × Class
  | 0, p, cls => (p, cls)
  | n + 1, p, cls =>
    if p.currentToken.type ≠ .DEDENT && p.currentToken.type ≠ .EOF then
      if p.currentToken.type = .NL || p.currentToken.type = .INDENT then
        parseClassBodyLoop n p.nextTok cls
      else
        match p.currentToken.type with
        | .FUNC =>
          let r := parseFunctionDefinition n p
          let cls :=
            match r.2 with
            | some f => cls.addFunction (some f)
            | none => cls
          parseClassBodyLoop n r.1.nextTok cls
        | .CLASS =>
          let r := parseClassDefinition n p
          let cls :=
            match r.2 with
            | some sub => cls.addSubClass (some sub)
            | none => cls
          parseClassBodyLoop n r.1.nextTok cls
        | _ =>
          let r := parseStatement n p
          let cls :=
            match r.2 with
            | some stmt => cls.addStatement stmt
            | none => cls
          parseClassBodyLoop n r.1.nextTok cls
    else (p, cls)

/-- The statement-block loop shared (verbatim in the Go source, one copy
per site) by the if-consequence, elif, else, for and while bodies: skip NL
and INDENT tokens, parse statements until DEDENT or EOF, appending non-nil
interface results. -/
def parseBlockLoop : Nat → Parser → List Statement → Parser × List Statement
  | 0, p, acc => (p, acc)
  | n + 1, p, acc =>
    if p.currentToken.type ≠ .DEDENT && p.currentToken.type ≠ .EOF then
      if p.currentToken.type = .NL || p.currentToken.type = .INDENT then
        parseBlockLoop n p.nextTok acc
      else
        let r := parseStatement n p
        let acc :=
          match r.2 with
          | some stmt => acc ++ [stmt]
          | none => acc
        parseBlockLoop n r.1.nextTok acc
    else (p, acc)

/-- Parser.parseIfStatement. -/
def parseIfStatement : Nat → Parser → Parser × Option IfStmt
  | 0, p => (p, none)
  | n + 1, p =>
    let pos := p.curPos
    let p := p.nextTok
    let r := parseExpression n p PREC_LOWEST
    match r.2 with
    | none =>
      let p := r.1
      let p := p.addErr p.currentToken.line p.currentToken.column
        "expected condition expression after 'if'"
      let p := if p.errorMode = .panicMode then p.synchronize else p
      (p, none)
    | some condition =>
      let stmt := newIfStatement pos (some condition)
      let e := r.1.expectPeek .COLON
      if !e.2 then (e.1, none)
      else
        let p := e.1
        let p := p.skipPeekNL
        if p.peekToken.type = .INDENT ∨ p.peekToken.type = .VAR ∨
            p.peekToken.type = .RETURN ∨ p.peekToken.type = .PASS ∨
            p.peekToken.type = .IF ∨ p.peekToken.type = .FOR ∨
            p.peekToken.type = .WHILE then
          let p := if p.peekToken.type = .INDENT then p.nextTok else p
          let rb := parseBlockLoop n p []
          let p := rb.1
          let stmt := stmt.setConsequence rb.2
          let p := if p.currentToken.type = .DEDENT then p.nextTok else p
          let re := parseElifLoop n p stmt
          match re.2 with
          | none => (re.1, none)
          | some stmt => parseElseBranch n re.1 stmt
        else
          (p.addErr p.peekToken.line p.peekToken.column
            ("expected indentation or statement, got " ++ p.peekToken.type.str), none)

/-- The elif loop of parseIfStatement; `none` signals the nil-returning
error exits inside the loop. -/
def parseElifLoop : Nat → Parser → IfStmt → Parser × Option IfStmt
  | 0, p, stmt => (p, some stmt)
  | n + 1, p, stmt =>
    if p.currentToken.type = .ELIF then
      let p := p.nextTok
      let r := parseExpression n p PREC_LOWEST
      match r.2 with
      | none =>
        let p := r.1
        let p := p.addErr p.currentToken.line p.currentToken.column
          "expected condition expression after 'elif'"
        let p := if p.errorMode = .panicMode then p.synchronize else p
        (p, none)
      | some elifCondition =>
        let e := r.1.expectPeek .COLON
        if !e.2 then (e.1, none)
        else
          let p := e.1
          let p := p.skipPeekNL
          let p := if p.peekToken.type = .INDENT then p.nextTok else p
          let rb := parseBlockLoop n p []
          let p := rb.1
          let stmt := stmt.addElseIfBranch (some elifCondition) rb.2
          let p := if p.currentToken.type = .DEDENT then p.nextTok else p
          parseElifLoop n p stmt
    else (p, some stmt)

/-- The else branch of parseIfStatement. -/
def parseElseBranch : Nat → Parser → IfStmt → Parser × Option IfStmt
  | 0, p, stmt => (p, some stmt)
  | n + 1, p, stmt =>
    if p.currentToken.type = .ELSE then
      let p := p.nextTok
      let e : Parser × Bool :=
        if p.currentToken.type = .COLON then (p, true)
        else if p.peekToken.type = .COLON then p.expectPeek .COLON
        else
          (p.addErr p.currentToken.line p.currentToken.column
            ("expected ':' after 'else', got " ++ p.currentToken.type.str), false)
      if !e.2 then (e.1, none)
      else
        let p := e.1
        let p := p.skipPeekNL
        if p.peekToken.type = .INDENT ∨ p.peekToken.type = .VAR ∨
            p.peekToken.type = .RETURN ∨ p.peekToken.type = .PASS ∨
            p.peekToken.type = .IF ∨ p.peekToken.type = .FOR ∨
            p.peekToken.type = .WHILE ∨ p.peekToken.type = .IDENT then
          let p := if p.peekToken.type = .INDENT then p.nextTok else p
          let rb := parseBlockLoop n p []
          (rb.1, some (stmt.setAlternative rb.2))
        else
          (p.addErr p.peekToken.line p.peekToken.column
            ("expected indentation or statement after else, got " ++ p.peekToken.type.str),
           none)
    else (p, some stmt)

/-- Parser.parseForStatement. -/
def parseForStatement : Nat → Parser → Parser × Option ForStmt
  | 0, p => (p, none)
  | n + 1, p =>
    let pos := p.curPos
    let p := p.nextTok
    if p.currentToken.type ≠ .IDENT then
      let p := p.addErr p.currentToken.line p.currentToken.column
        ("expected iterator variable name, got " ++ p.currentToken.type.str)
      let p := if p.errorMode = .panicMode then p.synchronize else p
      (p, none)
    else
      let iteratorName := p.currentToken.literal
      let iteratorPos := p.curPos
      let p := p.nextTok
      let s : Parser × Option (Bool × String) :=
        if p.currentToken.type = .COLON then
          let p := p.nextTok
          if p.currentToken.type ≠ .IDENT then
            let p := p.addErr p.currentToken.line p.currentToken.column
              ("expected type identifier, got " ++ p.currentToken.type.str)
            let p := if p.errorMode = .panicMode then p.synchronize else p
            (p, none)
          else (p.nextTok, some (true, p.currentToken.literal))
        else (p, some (false, ""))
      match s.2 with
      | none => (s.1, none)
      | some ty =>
        let p := s.1
        let isTyped := ty.1
        let typeHint := ty.2
        if p.currentToken.type ≠ .IN then
          let p := p.addErr p.currentToken.line p.currentToken.column
            ("expected 'in' keyword, got " ++ p.currentToken.type.str)
          let p := if p.errorMode = .panicMode then p.synchronize else p
          (p, none)
        else
          let p := p.nextTok
          let r := parseExpression n p PREC_LOWEST
          match r.2 with
          | none =>
            let p := r.1
            let p := p.addErr p.currentToken.line p.currentToken.column
              "expected collection expression after 'in'"
            let p := if p.errorMode = .panicMode then p.synchronize else p
            (p, none)
          | some collection =>
            let stmt := newForStatement pos iteratorName iteratorPos (some collection) isTyped
            let stmt := if isTyped then stmt.setTypeHint typeHint else stmt
            let e := r.1.expectPeek .COLON
            if !e.2 then (e.1, none)
            else
              let p := e.1
              let p := p.skipPeekNL
              if p.peekToken.type = .INDENT ∨ p.peekToken.type = .VAR ∨
                  p.peekToken.type = .RETURN ∨ p.peekToken.type = .PASS ∨
                  p.peekToken.type = .IF ∨ p.peekToken.type = .FOR ∨
                  p.peekToken.type = .WHILE then
                let p := if p.peekToken.type = .INDENT then p.nextTok else p
                let rb := parseBlockLoop n p []
                (rb.1, some (stmt.setBody rb.2))
              else
                (p.addErr p.peekToken.line p.peekToken.column
                  ("expected indentation or statement, got " ++ p.peekToken.type.str), none)

/-- Parser.parseWhileStatement. -/
def parseWhileStatement : Nat → Parser → Parser × Option WhileStmt
  | 0, p => (p, none)
  | n + 1, p =>
    let pos := p.curPos
    let p := p.nextTok
    let r := parseExpression n p PREC_LOWEST
    match r.2 with
    | none =>
      let p := r.1
      let p := p.addErr p.currentToken.line p.currentToken.column
        "expected condition expression after 'while'"
      let p := if p.errorMode = .panicMode then p.synchronize else p
      (p, none)
    | some condition =>
      let stmt := newWhileStatement pos (some condition)
      let e := r.1.expectPeek .COLON
      if !e.2 then (e.1, none)
      else
        let p := e.1
        let p := p.skipPeekNL
        if p.peekToken.type = .INDENT ∨ p.peekToken.type = .VAR ∨
            p.peekToken.type = .RETURN ∨ p.peekToken.type = .PASS ∨
            p.peekToken.type = .IF ∨ p.peekToken.type = .FOR ∨
            p.peekToken.type = .WHILE then
          let p := if p.peekToken.type = .INDENT then p.nextTok else p
          let rb := parseBlockLoop n p []
          (rb.1, some (stmt.setBody rb.2))
        else
          (p.addErr p.peekToken.line p.peekToken.column
            ("expected indentation or statement, got " ++ p.peekToken.type.str), none)

/-- Parser.parseMatchStatement. -/
def parseMatchStatement : Nat → Parser → Parser × Option MatchStmt
  | 0, p => (p, none)
  | n + 1, p =>
    let pos := p.curPos
    let p := p.nextTok
    let r := parseExpression n p PREC_LOWEST
    match r.2 with
    | none =>
      let p := r.1
      let p := p.addErr p.currentToken.line p.currentToken.column
        "expected expression after 'match'"
      let p := if p.errorMode = .panicMode then p.synchronize else p
      (p, none)
    | some value =>
      let stmt := newMatchStatement pos (some value)
      let e := r.1.expectPeek .COLON
      if !e.2 then (e.1, none)
      else
        let p := e.1
        let p := p.skipPeekNL
        let p := if p.peekToken.type = .INDENT then p.nextTok else p.nextTok
        let rb := parseMatchBranchLoop n p stmt
        (rb.1, some rb.2)

/-- The branch loop of parseMatchStatement (Go `break`s exit returning the
statement with the branches accumulated so far). -/
def parseMatchBranchLoop : Nat → Parser → MatchStmt → Parser × MatchStmt
  | 0, p, stmt => (p, stmt)
  | n + 1, p, stmt =>
    if p.currentToken.type ≠ .DEDENT && p.currentToken.type ≠ .EOF then
      let r := parseExpression n p PREC_LOWEST
      match r.2 with
      | none =>
        let p := r.1
        let p := p.addErr p.currentToken.line p.currentToken.column
          "expected pattern expression in match branch"
        let p := if p.errorMode = .panicMode then p.synchronize else p
        (p, stmt)
      | some pattern =>
        let p := r.1
        let branch := newMatchBranch p.curPos (some pattern)
        let s : Parser × Option MatchBranch :=
          if p.peekToken.type = .WHEN then
            let p := p.nextTok.nextTok
            let rg := parseExpression n p PREC_LOWEST
            match rg.2 with
            | none =>
              let p := rg.1
              let p := p.addErr p.currentToken.line p.currentToken.column
                "expected guard expression after 'when'"
              let p := if p.errorMode = .panicMode then p.synchronize else p
              (p, none)
            | some guard => (rg.1, some (branch.setGuard (some guard)))
          else (p, some branch)
        match s.2 with
        | none => (s.1, stmt)
        | some branch =>
          let e := s.1.expectPeek .COLON
          if !e.2 then (e.1, stmt)
          else
            let p := e.1
            if p.peekToken.type = .NL then
              let p := p.nextTok
              let e2 := p.expectPeek .INDENT
              if !e2.2 then (e2.1, stmt)
              else
                let rb := parseMatchMultiLoop n e2.1 branch
                parseMatchBranchLoop n rb.1 (stmt.addBranch rb.2)
            else
              let p := p.nextTok
              let rs := parseStatement n p
              let branch :=
                match rs.2 with
                | some bodyStmt => branch.addBodyStatement bodyStmt
                | none => branch
              let p := rs.1.skipToNL
              let p := if p.currentToken.type = .NL then p.nextTok else p
              parseMatchBranchLoop n p (stmt.addBranch branch)
    else (p, stmt)

/-- The multi-line match-branch body loop (no NL/INDENT skipping: NL tokens
go through parseStatement's default arm and are dropped). -/
def parseMatchMultiLoop : Nat → Parser → MatchBranch → Parser × MatchBranch
  | 0, p, branch => (p, branch)
  | n + 1, p, branch =>
    if p.currentToken.type ≠ .DEDENT && p.currentToken.type ≠ .EOF then
      let r := parseStatement n p
      let branch :=
        match r.2 with
        | some bodyStmt => branch.addBodyStatement bodyStmt
        | none => branch
      parseMatchMultiLoop n r.1.nextTok branch
    else (p, branch)

/-- The statement loop of Parser.parseGlobalScope.  The type switch on the
interface result sends Function and Class values (including typed nils,
whose type assertion succeeds in Go with a nil concrete pointer) to
AddFunction/AddSubClass and everything else non-nil to AddStatement. -/
def parseGlobalScopeLoop : Nat → Parser → Class → Parser × Class
  | 0, p, cls => (p, cls)
  | n + 1, p, cls =>
    if p.currentToken.type ≠ .EOF then
      let r := parseStatement n p
      let cls :=
        match r.2 with
        | some (.funcS f) => cls.addFunction (some f)
        | some (.nilOf .funcT) => cls.addFunction none
        | some (.classS c) => cls.addSubClass (some c)
        | some (.nilOf .classT) => cls.addSubClass none
        | some stmt => cls.addStatement stmt
        | none => cls
      parseGlobalScopeLoop n r.1.nextTok cls
    else (p, cls)

/-- Parser.parseGlobalScope: the module scope is a class with the sentinel
name "global scope". -/
def parseGlobalScope (n : Nat) (p : Parser) : Parser × Class :=
  parseGlobalScopeLoop n p (newClass "global scope" ⟨1, 1, 0⟩)

end

/-- Parser.Parse with explicit fuel: build the tree, set the root class and
list it followed by its global-scope subclasses.  (The Go nil check on the
parseGlobalScope result is vacuous: it always returns a class.) -/
def Parser.ParseWith (n : Nat) (p : Parser) : Parser × AbstractSyntaxTree :=
  let r := parseGlobalScope n p
  let cls := r.2
  (r.1, { newAST with rootClass := some cls, classes := some cls :: cls.subClasses })

/-- Fuel for a full parse: every parser function call consumes one fuel
unit and at most quadratically many calls happen in a run (each token is
reconsidered at most once per nesting level, and nesting is bounded by the
token count). -/
def parseFuelFor (p : Parser) : Nat := (p.toks.length + 8) * (p.toks.length + 8)

/-- Parser.Parse. -/
def Parser.Parse (p : Parser) : Parser × AbstractSyntaxTree :=
  Parser.ParseWith (parseFuelFor p) p

/-- NewParser: tokenize the input and perform the two initial nextToken
calls.  The errorMode field is left at its Go zero value, which is
ErrorModeStrict. -/
def NewParser (input : String) : Parser :=
  let p : Parser :=
    { toks := tokenize input.data, currentToken := zeroToken,
      peekToken := zeroToken, errors := [], errorMode := .strictMode }
  p.nextTok.nextTok

/-- NewParserWithOptions. -/
def NewParserWithOptions (input : String) (errorMode : ErrorMode) : Parser :=
  { NewParser input with errorMode := errorMode }

/-- Run the parser on a source text and return the tree together with the
accumulated error list (NewParser + Parse + Errors). -/
def parseSource (input : String) : AbstractSyntaxTree × List PError :=
  let p := NewParser input
  let r := p.Parse
  (r.2, r.1.errors)

/-!
Observation functions used by the statements of the claims: token counting,
counting the ConditionalExpression nodes of a tree, and collecting every
Function node of a tree.
-/

/-- Number of tokens of a given kind in a token list. -/
def countType (ty : TokenType) (ts : List Token) : Nat :=
  (ts.filter (fun t => t.type = ty)).length

mutual

/-- Number of ConditionalExpression nodes inside an expression. -/
def exprConds : Expr → Nat
  | .identE _ _ => 0
  | .stringE _ _ => 0
  | .numberE _ _ _ => 0
  | .booleanE _ _ => 0
  | .nullE _ => 0
  | .prefixE _ _ r => optConds r
  | .infixE _ l _ r => optConds l + optConds r
  | .callE _ f args => optConds f + argsConds args
  | .conditionalE _ c t f => 1 + optConds c + optConds t + optConds f

/-- ConditionalExpression count under a possibly nil expression. -/
def optConds : Option Expr → Nat
  | none => 0
  | some e => exprConds e

/-- ConditionalExpression count under a possibly nil argument list. -/
def argsConds : Option (List (Option Expr)) → Nat
  | none => 0
  | some l => listConds l

/-- ConditionalExpression count under an argument list. -/
def listConds : List (Option Expr) → Nat
  | [] => 0
  | x :: r => optConds x + listConds r

end

mutual

/-- ConditionalExpression count inside a statement. -/
def stmtConds : Statement → Nat
  | .passS _ _ => 0
  | .returnS _ _ v => optConds v
  | .breakS _ _ => 0
  | .continueS _ _ => 0
  | .exprS _ _ e => optConds e
  | .varS v => optConds v.value
  | .funcS f => funcConds f
  | .classS c => classConds c
  | .ifS (.mk _ _ c cons ec eb alt) =>
    optConds c + stmtsConds cons + listConds ec + stmtssConds eb + stmtsConds alt
  | .forS (.mk _ _ _ _ coll body _ _) => optConds coll + stmtsConds body
  | .whileS (.mk _ _ c body) => optConds c + stmtsConds body
  | .matchS (.mk _ _ v bs) => optConds v + branchesConds bs
  | .nilOf _ => 0

/-- ConditionalExpression count in a statement list. -/
def stmtsConds : List Statement → Nat
  | [] => 0
  | s :: r => stmtConds s + stmtsConds r

/-- ConditionalExpression count in a list of statement lists. -/
def stmtssConds : List (List Statement) → Nat
  | [] => 0
  | b :: r => stmtsConds b + stmtssConds r

/-- ConditionalExpression count in a match branch. -/
def branchConds : MatchBranch → Nat
  | .mk _ pat g body _ => optConds pat + optConds g + stmtsConds body

/-- ConditionalExpression count in branch lists. -/
def branchesConds : List MatchBranch → Nat
  | [] => 0
  | b :: r => branchConds b + branchesConds r

/-- ConditionalExpression count in a function (Statements and
SubStatements alias the same nodes in parser output, but both are
traversed). -/
def funcConds : Func → Nat
  | .mk _ _ ps _ st sub _ => paramsConds ps + stmtsConds st + stmtsConds sub

/-- ConditionalExpression count in parameter default values. -/
def paramsConds : List Param → Nat
  | [] => 0
  | pm :: r => optConds pm.defaultVal + paramsConds r

/-- ConditionalExpression count in a class. -/
def classConds : Class → Nat
  | .mk _ _ _ subs fns sts =>
    oclassesConds subs + ofuncsConds fns + stmtsConds sts

/-- ConditionalExpression count under a possibly nil class. -/
def oclassConds : Option Class → Nat
  | none => 0
  | some c => classConds c

/-- ConditionalExpression count over subclass lists. -/
def oclassesConds : List (Option Class) → Nat
  | [] => 0
  | c :: r => oclassConds c + oclassesConds r

/-- ConditionalExpression count under a possibly nil function. -/
def ofuncConds : Option Func → Nat
  | none => 0
  | some f => funcConds f

/-- ConditionalExpression count over function lists. -/
def ofuncsConds : List (Option Func) → Nat
  | [] => 0
  | f :: r => ofuncConds f + ofuncsConds r

end

/-- ConditionalExpression count of a whole tree.  Every class of the tree's
`classes` list is the root class or one of its subclasses, so traversing
the root covers every node of the tree. -/
def astConds (t : AbstractSyntaxTree) : Nat :=
  oclassConds t.rootClass + ofuncsConds t.functions

mutual

/-- All Function nodes inside a statement. -/
def stmtFuncs : Statement → List Func
  | .passS _ _ => []
  | .returnS _ _ _ => []
  | .breakS _ _ => []
  | .continueS _ _ => []
  | .exprS _ _ _ => []
  | .varS _ => []
  | .funcS f => funcFuncs f
  | .classS c => classFuncs c
  | .ifS (.mk _ _ _ cons _ eb alt) =>
    stmtsFuncs cons ++ stmtssFuncs eb ++ stmtsFuncs alt
  | .forS (.mk _ _ _ _ _ body _ _) => stmtsFuncs body
  | .whileS (.mk _ _ _ body) => stmtsFuncs body
  | .matchS (.mk _ _ _ bs) => branchesFuncs bs
  | .nilOf _ => []

/-- Function nodes of a statement list. -/
def stmtsFuncs : List Statement → List Func
  | [] => []
  | s :: r => stmtFuncs s ++ stmtsFuncs r

/-- Function nodes of a list of statement lists. -/
def stmtssFuncs : List (List Statement) → List Func
  | [] => []
  | b :: r => stmtsFuncs b ++ stmtssFuncs r

/-- Function nodes of a match branch. -/
def branchFuncs : MatchBranch → List Func
  | .mk _ _ _ body _ => stmtsFuncs body

/-- Function nodes of branch lists. -/
def branchesFuncs : List MatchBranch → List Func
  | [] => []
  | b :: r => branchFuncs b ++ branchesFuncs r

/-- A function node together with the function nodes nested in either of
its statement lists. -/
def funcFuncs : Func → List Func
  | .mk pos name ps rt st sub stat =>
    .mk pos name ps rt st sub stat :: (stmtsFuncs st ++ stmtsFuncs sub)

/-- Function nodes under a possibly nil function pointer. -/
def ofuncFuncs : Option Func → List Func
  | none => []
  | some f => funcFuncs f

/-- Function nodes of function-pointer lists. -/
def ofuncsFuncs : List (Option Func) → List Func
  | [] => []
  | f :: r => ofuncFuncs f ++ ofuncsFuncs r

/-- Function nodes of a class. -/
def classFuncs : Class → List Func
  | .mk _ _ _ subs fns sts =>
    oclassesFuncs subs ++ ofuncsFuncs fns ++ stmtsFuncs sts

/-- Function nodes under a possibly nil class pointer. -/
def oclassFuncs : Option Class → List Func
  | none => []
  | some c => classFuncs c

/-- Function nodes of subclass lists. -/
def oclassesFuncs : List (Option Class) → List Func
  | [] => []
  | c :: r => oclassFuncs c ++ oclassesFuncs r

end

/-- Every Function node of a tree (the `classes` list holds the root class
and its subclasses, all of which are reached through the root). -/
def astFuncs (t : AbstractSyntaxTree) : List Func :=
  oclassFuncs t.rootClass ++ ofuncsFuncs t.functions

/-- Statements of the root class (empty when there is no root). -/
def rootStatements (t : AbstractSyntaxTree) : List Statement :=
  match t.rootClass with
  | some c => c.statements
  | none => []

/-- Every Function node in the list has its raw and flat statement lists
equal (the C8 sync property, as a predicate on collected function nodes). -/
def allSynced (fs : List Func) : Prop :=
  ∀ g ∈ fs, g.statements = g.subStatements

/-- Sync property under a possibly nil function result. -/
def syncedOptF : Option Func → Prop
  | none => True
  | some f => allSynced (funcFuncs f)

/-- Sync property under a possibly nil class result. -/
def syncedOptC : Option Class → Prop
  | none => True
  | some c => allSynced (classFuncs c)

/-!
Small preservation lemmas about the AST mutators used by the claim proofs.
-/

theorem Class.addFunction_name (c : Class) (f : Option Func) :
    (c.addFunction f).name = c.name := by
  cases c; rfl

theorem Class.addSubClass_name (c : Class) (s : Option Class) :
    (c.addSubClass s).name = c.name := by
  cases c; rfl

theorem Class.addStatement_name (c : Class) (s : Statement) :
    (c.addStatement s).name = c.name := by
  cases c; rfl

/-- The global-scope loop never renames the class it fills in. -/
theorem parseGlobalScopeLoop_name :
    ∀ (n : Nat) (p : Parser) (c : Class),
      (parseGlobalScopeLoop n p c).2.name = c.name := by
  intro n
  induction n with
  | zero => intro p c; rfl
  | succ m ih =>
    intro p c
    unfold parseGlobalScopeLoop
    split
    · dsimp only
      split <;>
        simp [ih, Class.addFunction_name, Class.addSubClass_name, Class.addStatement_name]
    · rfl

/-!
Claim theorems.
-/

/--
C1.  The spec claims that `1 + 2 if true else 3` parses into a
ConditionalExpression whose condition is `true`, whose true-value is the
infix `1 + 2` and whose false-value is `3`.  The code cannot do this:
`parseConditionalExpression` performs a single nextToken (commented
"consume 'if'"), which only moves the cursor ONTO the `if` token, and
`parseExpression` entered at the `if` token has no prefix handler, so the
condition parse always fails.  On this very input the parser records one
error, the tree contains NO conditional node at all, and the `+` node is
left with a nil right operand (followed by two stray expression
statements for `true` and `3`).  This contradicts both the spec sentence
and the function's own documentation, so it is a bug in the code.
-/
theorem c1_ternary_code_bug :
    astConds (parseSource "1 + 2 if true else 3").1 = 0 ∧
    (parseSource "1 + 2 if true else 3").2 =
      [⟨1, 8, "expected condition expression in conditional expression"⟩] ∧
    ∃ q1 q2 q3 q4 q5 q6 q7,
      rootStatements (parseSource "1 + 2 if true else 3").1 =
        [ .exprS q1 "expr_stmt"
            (some (.infixE q2 (some (.numberE q3 true "1")) "+" none)),
          .exprS q4 "expr_stmt" (some (.booleanE q5 true)),
          .exprS q6 "expr_stmt" (some (.numberE q7 true "3")) ] := by
  exact ⟨rfl, rfl, _, _, _, _, _, _, _, rfl⟩

/--
C2 counterexample.  On the input "\n\ta" the lexer reaches EOF having
emitted one INDENT and zero DEDENT tokens: open indentation levels are not
closed at end of input, so the claimed indent/dedent balance fails.
-/
theorem c2_counterexample :
    (tokenize "\n\ta".data).getLast?.map Token.type = some .EOF ∧
    countType .INDENT (tokenize "\n\ta".data) = 1 ∧
    countType .DEDENT (tokenize "\n\ta".data) = 0 :=
  ⟨rfl, rfl, rfl⟩

/--
C3.  For every input, Parse returns a tree whose root class exists and
carries the sentinel name "global scope", and the tree's class list is
exactly that root class followed by its global-scope subclasses.  (In the
embedding the parse function is total, so termination and the always-
returned `(tree, errors)` pair are part of the statement's type.)
-/
theorem c3_root_is_global_scope (input : String) :
    ∃ c, (parseSource input).1.rootClass = some c ∧
      c.name = "global scope" ∧
      (parseSource input).1.classes = some c :: c.subClasses := by
  refine ⟨(parseGlobalScope (parseFuelFor (NewParser input)) (NewParser input)).2,
    rfl, ?_, rfl⟩
  exact parseGlobalScopeLoop_name _ _ _

/--
C4 counterexample.  The input consisting of an unterminated string `"abc`
is tokenized as an ordinary STRING token (whose literal runs to end of
input with no closing quote) followed by EOF; no ILLEGAL token is
produced, contradicting the claim that the anomaly is represented as an
illegal token.
-/
theorem c4_counterexample :
    (tokenize "\"abc".data).map Token.type = [.STRING, .EOF] ∧
    (tokenize "\"abc".data).map Token.literal = ["\"abc", ""] ∧
    countType .ILLEGAL (tokenize "\"abc".data) = 0 :=
  ⟨rfl, rfl, rfl⟩

/--
C7 amended.  A parser constructed from source text alone (NewParser) has
error mode ErrorModeStrict — the Go zero value — not panic mode; panic
mode must be requested explicitly through NewParserWithOptions (as the
file-level entry point does).
-/
theorem c7_default_mode_strict (input : String) :
    (NewParser input).errorMode = .strictMode := rfl

/--
C7 counterexample: the parser built from the source text "x" alone does
not operate in panic mode.
-/
theorem c7_counterexample : (NewParser "x").errorMode ≠ ErrorMode.panicMode := by
  decide

/--
C9.  Parsing is a deterministic function of the input text: two
independently constructed parsers over the same input yield structurally
identical trees and identical diagnostics lists.  (The embedding is a pure
function of the input, faithfully so: the Go core keeps no global mutable
state and two parser instances share nothing.)
-/
theorem c9_deterministic (input : String) :
    ((NewParser input).Parse.2 = (NewParser input).Parse.2 ∧
      (NewParser input).Parse.1.errors = (NewParser input).Parse.1.errors) :=
  ⟨rfl, rfl⟩

/-- Token kinds having an arm in parseStatement's dispatch switch. -/
def hasDispatch (t : TokenType) : Bool :=
  match t with
  | .PASS | .RETURN | .VAR | .CONST | .FUNC | .CLASS | .IF | .WHILE | .FOR
  | .MATCH | .BREAK | .CONTINUE | .IDENT | .INT | .FLOAT | .STRING
  | .RSTRING | .TRUE | .FALSE | .NULL | .SELF | .LPAREN => true
  | _ => false

/--
C10.  A current token outside the dispatch switch (for example an ILLEGAL
token) makes parseStatement return no statement and leave the parser state
— including the error list — untouched, for every fuel value; and
concretely, the top-level input "?" (a single lexically illegal character)
parses with an empty diagnostics list and an empty global scope.
-/
theorem c10_no_dispatch_is_silent (n : Nat) (p : Parser)
    (h : hasDispatch p.currentToken.type = false) :
    parseStatement n p = (p, none) ∧
    (parseSource "?").2 = [] ∧
    rootStatements (parseSource "?").1 = [] := by
  refine ⟨?_, rfl, rfl⟩
  cases n with
  | zero => rfl
  | succ m =>
    unfold parseStatement
    split <;> first
      | rfl
      | (rename_i heq; rw [heq] at h; simp [hasDispatch] at h)

/-- Witness for C10 at the concrete parser state built from "?" (whose
current token is ILLEGAL). -/
theorem c10_witness :
    hasDispatch (NewParser "?").currentToken.type = false ∧
    parseStatement 5 (NewParser "?") = (NewParser "?", none) :=
  ⟨by decide, (c10_no_dispatch_is_silent 5 (NewParser "?") (by decide)).1⟩

/-- The dedent pop loop equals takeWhile/dropWhile on the predicate "the
stored width strictly exceeds the new width". -/
theorem popWhileGreater_eq (stack : List Nat) (ind : Nat) :
    popWhileGreater stack ind =
      ((stack.takeWhile (fun t => decide (ind < t))).length,
        stack.dropWhile (fun t => decide (ind < t))) := by
  induction stack with
  | nil => rfl
  | cons t rest ih =>
    by_cases h : ind < t
    · simp [popWhileGreater, h, List.takeWhile_cons, List.dropWhile_cons, ih]
    · simp [popWhileGreater, h, List.takeWhile_cons, List.dropWhile_cons]

/--
C6.  When a measured indentation width is strictly below the stack top,
handleIndentation pops exactly the stack entries exceeding the new width,
queueing one DEDENT token per pop, and additionally queues one ILLEGAL
token ("invalid indentation") exactly when the remaining top differs from
the new width; when the width equals the top, the lexer state is left
unchanged (no structural token).
-/
theorem c6_handle_indentation (l : Lexer) (ind : Nat) :
    (ind < l.indentStack.headD 0 →
      (l.handleIndentation ind).pending =
        l.pending ++
          List.replicate (l.indentStack.takeWhile (fun t => decide (ind < t))).length
            (l.newToken .DEDENT "") ++
          (if (l.indentStack.dropWhile (fun t => decide (ind < t))).headD (ind + 1) = ind
            then []
            else [l.newToken .ILLEGAL "invalid indentation"]) ∧
      (l.handleIndentation ind).indentStack =
        l.indentStack.dropWhile (fun t => decide (ind < t))) ∧
    (ind = l.indentStack.headD 0 → l.handleIndentation ind = l) := by
  constructor
  · intro h
    unfold Lexer.handleIndentation
    rw [if_neg (by omega), if_pos h, popWhileGreater_eq]
    dsimp only
    split_ifs with h1 h2 h3 <;>
      first
        | (exact absurd h2 h1)
        | (exact absurd h1 (by simpa using h3))
        | (constructor <;> simp [Lexer.newToken])
  · intro h
    unfold Lexer.handleIndentation
    rw [if_neg (by omega), if_neg (by omega)]

/-- A bare lexer state over an empty input with a given indentation stack,
used to instantiate the C6 theorem. -/
def mkLexerStack (stack : List Nat) : Lexer :=
  { input := [], position := 0, readPosition := 0, ch := charNul,
    line := 1, column := 1, indentStack := stack, pending := [] }

/-- Witness for C6: dedenting from stack [4, 2, 0] to width 1 queues two
DEDENT tokens and one ILLEGAL token and leaves stack [0] (width 1 was
never pushed); dedenting from stack [2, 0] to width 2 changes nothing. -/
theorem c6_witness :
    (((mkLexerStack [4, 2, 0]).handleIndentation 1).pending =
        [(mkLexerStack [4, 2, 0]).newToken .DEDENT "",
         (mkLexerStack [4, 2, 0]).newToken .DEDENT "",
         (mkLexerStack [4, 2, 0]).newToken .ILLEGAL "invalid indentation"] ∧
      ((mkLexerStack [4, 2, 0]).handleIndentation 1).indentStack = [0]) ∧
    (mkLexerStack [2, 0]).handleIndentation 2 = mkLexerStack [2, 0] := by
  constructor
  · have h := (c6_handle_indentation (mkLexerStack [4, 2, 0]) 1).1 (by decide)
    exact ⟨by rw [h.1]; rfl, by rw [h.2]; rfl⟩
  · exact (c6_handle_indentation (mkLexerStack [2, 0]) 2).2 (by decide)

/-- A statement-boundary token for panic-mode recovery: newline, semicolon,
or a statement-starting keyword. -/
def isSyncPoint (t : TokenType) : Bool :=
  t = .NL || t = .SEMICOLON || isSyncKeyword t

/-- The parser's buffered stream eventually yields EOF: the last token of
the remaining stream (or the peek token once the stream is exhausted) has
kind EOF.  Every parser built by NewParser satisfies this, because
tokenize ends with the EOF token. -/
def streamEndsEOF (p : Parser) : Prop :=
  (p.toks.getLastD p.peekToken).type = .EOF

instance (p : Parser) : Decidable (streamEndsEOF p) := by
  unfold streamEndsEOF; infer_instance

theorem nextTok_streamEndsEOF (p : Parser) (h : streamEndsEOF p) :
    streamEndsEOF p.nextTok := by
  unfold streamEndsEOF at h ⊢
  unfold Parser.nextTok
  cases htoks : p.toks with
  | nil => simpa [htoks] using h
  | cons t rest =>
    rw [htoks] at h
    rw [List.getLastD_cons] at h
    simpa [htoks] using h

theorem nextTok_toks (p : Parser) : p.nextTok.toks = p.toks.tail := rfl

theorem nextTok_errors (p : Parser) : p.nextTok.errors = p.errors := rfl

/-- Unfolding equation of syncLoop at a successor fuel value. -/
theorem syncLoop_succ (n : Nat) (q : Parser) :
    Parser.syncLoop (n + 1) q =
      if q.currentToken.type = .EOF then q
      else if q.currentToken.type = .SEMICOLON || q.currentToken.type = .NL then q
      else if isSyncKeyword q.currentToken.type then q
      else Parser.syncLoop n q.nextTok := rfl

/-- syncLoop does nothing once the current token is EOF. -/
theorem syncLoop_eof (n : Nat) (q : Parser) (h : q.currentToken.type = .EOF) :
    Parser.syncLoop n q = q := by
  cases n with
  | zero => rfl
  | succ m => unfold Parser.syncLoop; rw [if_pos h]

/-- The synchronize loop is an iteration of nextTok that stops at the
first synchronization point (or at EOF), skipping only non-boundary
tokens. -/
theorem syncLoop_spec :
    ∀ (n : Nat) (q : Parser), streamEndsEOF q → q.toks.length + 1 ≤ n →
      ∃ m, Parser.syncLoop n q = Parser.nextTok^[m] q ∧
        (isSyncPoint (Parser.nextTok^[m] q).currentToken.type = true ∨
          (Parser.nextTok^[m] q).currentToken.type = .EOF) ∧
        ∀ j < m, isSyncPoint (Parser.nextTok^[j] q).currentToken.type = false ∧
          (Parser.nextTok^[j] q).currentToken.type ≠ .EOF := by
  intro n
  induction n with
  | zero => intro q _ hlen; omega
  | succ m ih =>
    intro q hEOF hlen
    by_cases heof : q.currentToken.type = .EOF
    · refine ⟨0, ?_, Or.inr heof, by omega⟩
      simpa using syncLoop_eof (m + 1) q heof
    · by_cases hsync : isSyncPoint q.currentToken.type = true
      · refine ⟨0, ?_, Or.inl hsync, by omega⟩
        unfold Parser.syncLoop
        rw [if_neg heof]
        rcases Bool.or_eq_true _ _ |>.mp hsync with h1 | h2
        · rcases Bool.or_eq_true _ _ |>.mp h1 with ha | hb
          · simp [show q.currentToken.type = .NL by simpa using ha]
          · simp [show q.currentToken.type = .SEMICOLON by simpa using hb]
        · simp [h2]
      · have hstep : Parser.syncLoop (m + 1) q = Parser.syncLoop m q.nextTok := by
          rw [syncLoop_succ, if_neg heof]
          have hNL : ¬ (q.currentToken.type = .SEMICOLON ∨ q.currentToken.type = .NL) := by
            intro hc
            apply hsync
            rcases hc with hc | hc <;> simp [isSyncPoint, hc]
          rw [if_neg (by simpa using hNL)]
          rw [if_neg (by
            intro hk
            apply hsync
            simp [isSyncPoint, hk])]
        cases htoks : q.toks with
        | nil =>
          -- the stream is exhausted, so the peek token is EOF and one more
          -- step reaches it
          have hpeek : q.peekToken.type = .EOF := by
            unfold streamEndsEOF at hEOF
            simpa [htoks] using hEOF
          have hcur : q.nextTok.currentToken.type = .EOF := hpeek
          refine ⟨1, ?_, Or.inr (by simpa using hcur), ?_⟩
          · rw [hstep, syncLoop_eof m q.nextTok hcur]
            simp
          · intro j hj
            interval_cases j
            exact ⟨by simpa using hsync, heof⟩
        | cons t rest =>
          have hlen' : q.nextTok.toks.length + 1 ≤ m := by
            rw [nextTok_toks, htoks]
            rw [htoks] at hlen
            simp at hlen ⊢
            omega
          obtain ⟨k, hk1, hk2, hk3⟩ := ih q.nextTok (nextTok_streamEndsEOF q hEOF) hlen'
          refine ⟨k + 1, ?_, ?_, ?_⟩
          · rw [hstep, hk1, Function.iterate_succ_apply]
          · rw [Function.iterate_succ_apply]
            exact hk2
          · intro j hj
            cases j with
            | zero => exact ⟨by simpa using hsync, heof⟩
            | succ i =>
              rw [Function.iterate_succ_apply]
              exact hk3 i (by omega)

/--
C5.  Parser.synchronize first advances past the offending token (at least
one nextToken), then discards tokens until the current token is a
newline, a semicolon, one of class/func/var/const/if/for/while/match/
return, or end-of-input; parsing resumes from that state, which is
reached purely by nextToken steps (so the error list is untouched), and
every strictly intermediate token is not a synchronization point.
-/
theorem c5_synchronize_spec (p : Parser) (h : streamEndsEOF p) :
    ∃ k, 1 ≤ k ∧ p.synchronize = Parser.nextTok^[k] p ∧
      (isSyncPoint (Parser.nextTok^[k] p).currentToken.type = true ∨
        (Parser.nextTok^[k] p).currentToken.type = .EOF) ∧
      (∀ j, 1 ≤ j → j < k →
        isSyncPoint (Parser.nextTok^[j] p).currentToken.type = false ∧
          (Parser.nextTok^[j] p).currentToken.type ≠ .EOF) ∧
      p.synchronize.errors = p.errors := by
  obtain ⟨m, hm1, hm2, hm3⟩ :=
    syncLoop_spec (p.nextTok.toks.length + 2) p.nextTok
      (nextTok_streamEndsEOF p h) (by omega)
  have hiter : ∀ i, Parser.nextTok^[i] p.nextTok = Parser.nextTok^[i + 1] p := by
    intro i
    rw [Function.iterate_succ_apply]
  refine ⟨m + 1, by omega, ?_, ?_, ?_, ?_⟩
  · show Parser.syncLoop _ _ = _
    rw [hm1, hiter]
  · rw [← hiter]; exact hm2
  · intro j hj1 hjk
    cases j with
    | zero => omega
    | succ i =>
      rw [← hiter]
      exact hm3 i (by omega)
  · show (Parser.syncLoop _ _).errors = _
    rw [hm1, hiter]
    clear hm1 hm2 hm3 hiter
    induction (m + 1) with
    | zero => rfl
    | succ i ihh => rw [Function.iterate_succ_apply', nextTok_errors]; exact ihh

/-- Witness for C5 at a concrete parser state (current token ILLEGAL, then
an identifier, a `var` keyword and EOF in the stream): synchronize stops
at the `var` keyword, two steps in. -/
theorem c5_witness :
    streamEndsEOF (NewParser "? x var y") ∧
    ∃ k, 1 ≤ k ∧ (NewParser "? x var y").synchronize = Parser.nextTok^[k] (NewParser "? x var y") ∧
      (isSyncPoint (Parser.nextTok^[k] (NewParser "? x var y")).currentToken.type = true ∨
        (Parser.nextTok^[k] (NewParser "? x var y")).currentToken.type = .EOF) ∧
      (∀ j, 1 ≤ j → j < k →
        isSyncPoint (Parser.nextTok^[j] (NewParser "? x var y")).currentToken.type = false ∧
          (Parser.nextTok^[j] (NewParser "? x var y")).currentToken.type ≠ .EOF) ∧
      (NewParser "? x var y").synchronize.errors = (NewParser "? x var y").errors :=
  ⟨by decide, c5_synchronize_spec (NewParser "? x var y") (by decide)⟩

/-!
Lemmas for C4: an unterminated string consumes the rest of the input and
is emitted as an ordinary STRING token.
-/

/-- readChar when a character remains. -/
theorem readChar_adv (l : Lexer) (h : l.readPosition < l.input.length) :
    l.readChar.input = l.input ∧ l.readChar.pending = l.pending ∧
    l.readChar.indentStack = l.indentStack ∧
    l.readChar.position = l.readPosition ∧
    l.readChar.readPosition = l.readPosition + 1 ∧
    l.readChar.ch = l.input.getD l.readPosition charNul := by
  unfold Lexer.readChar
  rw [if_pos h]
  dsimp only
  split <;> simp

/-- readChar at end of input. -/
theorem readChar_end (l : Lexer) (h : ¬ l.readPosition < l.input.length) :
    l.readChar.input = l.input ∧ l.readChar.pending = l.pending ∧
    l.readChar.indentStack = l.indentStack ∧
    l.readChar.position = l.readPosition ∧
    l.readChar.readPosition = l.readPosition ∧
    l.readChar.ch = charNul := by
  unfold Lexer.readChar
  rw [if_neg h]
  dsimp only
  rw [if_neg (by decide)]
  simp

/-- The string loop exits immediately on the NUL sentinel. -/
theorem stringLoop_nul (fuel : Nat) (l : Lexer) (quote : Char)
    (h : l.ch = charNul) : Lexer.stringLoop fuel l quote = l := by
  cases fuel with
  | zero => rfl
  | succ n =>
    unfold Lexer.stringLoop
    rw [if_neg (by rw [h]; decide)]
    rw [if_pos (by simp [h])]

/-- With no occurrence of the quote (nor of NUL) in the unread input, the
string loop consumes every remaining character and stops at end of input,
leaving the queue and the indentation stack untouched. -/
theorem stringLoop_no_quote :
    ∀ (fuel : Nat) (l : Lexer) (quote : Char),
      l.position + 1 = l.readPosition →
      l.readPosition ≤ l.input.length →
      l.position < l.input.length →
      l.ch = l.input.getD l.position charNul →
      (∀ i, l.position ≤ i → i < l.input.length →
        l.input.getD i charNul ≠ quote ∧ l.input.getD i charNul ≠ charNul) →
      l.input.length ≤ fuel + l.position →
      (Lexer.stringLoop fuel l quote).ch = charNul ∧
      (Lexer.stringLoop fuel l quote).position = l.input.length ∧
      (Lexer.stringLoop fuel l quote).input = l.input ∧
      (Lexer.stringLoop fuel l quote).pending = l.pending ∧
      (Lexer.stringLoop fuel l quote).indentStack = l.indentStack := by
  intro fuel
  induction fuel with
  | zero => intro l quote h1 h2 h3 _ _ hf; omega
  | succ n ih =>
    intro l quote h1 h2 h3 hch hsafe hf
    have hcur := hsafe l.position (le_refl _) h3
    rw [← hch] at hcur
    -- one readChar step: either a new frontier or end of input
    have step :
        ∀ (l' : Lexer), l'.input = l.input → l'.pending = l.pending →
          l'.indentStack = l.indentStack → l'.position = l.position →
          l'.readPosition = l.readPosition →
          (Lexer.stringLoop n l'.readChar quote).ch = charNul ∧
          (Lexer.stringLoop n l'.readChar quote).position = l.input.length ∧
          (Lexer.stringLoop n l'.readChar quote).input = l.input ∧
          (Lexer.stringLoop n l'.readChar quote).pending = l.pending ∧
          (Lexer.stringLoop n l'.readChar quote).indentStack = l.indentStack := by
      intro l' e1 e2 e3 e4 e5
      by_cases hrp : l'.readPosition < l'.input.length
      · obtain ⟨a1, a2, a3, a4, a5, a6⟩ := readChar_adv l' hrp
        rw [e1] at a1 a6
        rw [e2] at a2
        rw [e3] at a3
        rw [e5] at a4 a5 a6
        rw [e1, e5] at hrp
        have := ih l'.readChar quote (by omega) (by rw [a1]; omega)
          (by rw [a1]; omega) (by rw [a1, a4, a6])
          (by
            intro i hi1 hi2
            rw [a1] at hi2 ⊢
            exact hsafe i (by omega) hi2)
          (by rw [a1, a4]; omega)
        rw [a1, a2, a3] at this
        exact this
      · obtain ⟨a1, a2, a3, a4, a5, a6⟩ := readChar_end l' hrp
        rw [e1] at a1
        rw [e2] at a2
        rw [e3] at a3
        rw [e5] at a4 a5
        rw [stringLoop_nul n _ quote a6]
        have hpos : l'.readChar.position = l.input.length := by
          rw [e1] at hrp
          omega
        exact ⟨a6, hpos, a1, a2, a3⟩
    unfold Lexer.stringLoop
    by_cases hbs : l.ch = '\\'
    · rw [if_pos hbs]
      -- two readChar steps; handle the first explicitly, the second via step
      by_cases hrp : l.readPosition < l.input.length
      · obtain ⟨a1, a2, a3, a4, a5, a6⟩ := readChar_adv l hrp
        have hsafe2 :
            l.readChar.position + 1 = l.readChar.readPosition ∧
            l.readChar.readPosition ≤ l.input.length := by
          constructor <;> omega
        by_cases hrp2 : l.readChar.readPosition < l.readChar.input.length
        · obtain ⟨b1, b2, b3, b4, b5, b6⟩ := readChar_adv l.readChar hrp2
          rw [a1] at b1 b6
          rw [a2] at b2
          rw [a3] at b3
          rw [a5] at b4 b5 b6
          by_cases hend2 : l.readPosition + 1 < l.input.length
          · have := ih l.readChar.readChar quote (by omega) (by rw [b1]; omega)
              (by rw [b1]; omega) (by rw [b1, b4, b6])
              (by
                intro i hi1 hi2
                rw [b1] at hi2 ⊢
                exact hsafe i (by omega) hi2)
              (by rw [b1, b4]; omega)
            rw [b1, b2, b3] at this
            exact this
          · rw [a1] at hrp2
            omega
        · obtain ⟨b1, b2, b3, b4, b5, b6⟩ := readChar_end l.readChar hrp2
          rw [a1] at b1
          rw [a2] at b2
          rw [a3] at b3
          rw [a5] at b4 b5
          rw [stringLoop_nul n _ quote b6]
          have hpos : l.readChar.readChar.position = l.input.length := by
            rw [a1] at hrp2
            omega
          exact ⟨b6, hpos, b1, b2, b3⟩
      · -- the backslash is the final character: both readChar calls stay at
        -- end of input
        obtain ⟨a1, a2, a3, a4, a5, a6⟩ := readChar_end l hrp
        have hrp2 : ¬ l.readChar.readPosition < l.readChar.input.length := by
          rw [a1, a5]
          exact hrp
        obtain ⟨b1, b2, b3, b4, b5, b6⟩ := readChar_end l.readChar hrp2
        rw [a1] at b1
        rw [a2] at b2
        rw [a3] at b3
        rw [a5] at b4 b5
        rw [stringLoop_nul n _ quote b6]
        have hpos : l.readChar.readChar.position = l.input.length := by omega
        exact ⟨b6, hpos, b1, b2, b3⟩
    · rw [if_neg hbs]
      rw [if_neg (by
        simp only [Bool.or_eq_true, decide_eq_true_eq]
        rintro (hq | hn)
        · exact hcur.1 hq
        · exact hcur.2 hn)]
      by_cases hnl : l.ch = '\n'
      · rw [if_pos hnl]
        exact step { l with line := l.line + 1, column := 1 } rfl rfl rfl rfl rfl
      · rw [if_neg hnl]
        exact step l rfl rfl rfl rfl rfl

/-- NextToken with an empty queue scans after skipping whitespace. -/
theorem nextToken_nil (l : Lexer) (h : l.pending = []) :
    l.nextToken = (l.skipWhitespace).scanToken := by
  cases l
  subst h
  rfl

/-- skipWhitespace does nothing when the current character is not a space,
tab, or carriage return. -/
theorem skipWhitespace_nop (l : Lexer)
    (h : ¬ (l.ch = ' ' || l.ch = '\t' || l.ch = '\r') = true) :
    l.skipWhitespace = l := by
  unfold Lexer.skipWhitespace
  unfold Lexer.skipWhitespaceLoop
  rw [if_neg h]

/-- scanToken at a double quote produces a STRING token via readString. -/
theorem scanToken_dquote (l : Lexer) (h : l.ch = '"') :
    l.scanToken =
      ((l.readString '"').1,
        { type := .STRING, literal := (l.readString '"').2,
          line := l.line, column := l.column, offset := l.position }) := by
  cases l
  subst h
  rfl

/-- scanToken at the NUL sentinel produces the EOF token and leaves the
state unchanged. -/
theorem scanToken_nul (l : Lexer) (h : l.ch = charNul) :
    l.scanToken =
      (l, { type := .EOF, literal := "",
            line := l.line, column := l.column, offset := l.position }) := by
  cases l
  subst h
  rfl

/-- Slicing the whole character list yields the whole text. -/
theorem listSlice_all (xs : List Char) : listSlice xs 0 xs.length = xs.asString := by
  simp [listSlice]

/-- The lexer state reached by NewLexer on the C4 family of inputs: cursor
on the opening quote. -/
def c4L1 (c : Char) (cs' : List Char) : Lexer :=
  { input := '"' :: c :: cs', position := 0, readPosition := 1, ch := '"',
    line := 1, column := 2, indentStack := [0], pending := [] }

/-- The state after readString consumes the opening quote. -/
def c4L2 (c : Char) (cs' : List Char) : Lexer :=
  { input := '"' :: c :: cs', position := 1, readPosition := 2, ch := c,
    line := if c = '\n' then 2 else 1, column := if c = '\n' then 1 else 3,
    indentStack := [0], pending := [] }

theorem c4_newLexer (c : Char) (cs' : List Char) :
    newLexer ('"' :: c :: cs') = c4L1 c cs' := by
  unfold newLexer Lexer.readChar c4L1
  simp [List.getD]

theorem c4L1_ch (c : Char) (cs' : List Char) : (c4L1 c cs').ch = '"' := rfl

theorem c4_readChar (c : Char) (cs' : List Char) :
    (c4L1 c cs').readChar = c4L2 c cs' := by
  unfold Lexer.readChar c4L1 c4L2
  by_cases hc : c = '\n' <;> simp [List.getD, hc]

/--
C4 amended.  For an input consisting of an opening double quote followed
by characters among which neither the quote character nor NUL occurs (an
unterminated string reaching end of input), the lexer does not fail hard:
it emits one ordinary STRING token whose literal is the whole input with
no closing quote, followed by EOF, and no ILLEGAL token at all.
-/
theorem c4_unterminated_string (cs : List Char)
    (h1 : '"' ∉ cs) (h2 : charNul ∉ cs) :
    (tokenize ('"' :: cs)).map Token.type = [.STRING, .EOF] ∧
    (tokenize ('"' :: cs)).head?.map Token.literal = some ('"' :: cs).asString ∧
    countType .ILLEGAL (tokenize ('"' :: cs)) = 0 := by
  cases cs with
  | nil => exact ⟨rfl, rfl, rfl⟩
  | cons c cs' =>
    have hsafe : ∀ i, 1 ≤ i → i < ('"' :: c :: cs').length →
        ('"' :: c :: cs').getD i charNul ≠ '"' ∧
        ('"' :: c :: cs').getD i charNul ≠ charNul := by
      intro i hi1 hi2
      have hmem : ('"' :: c :: cs').getD i charNul ∈ c :: cs' := by
        match i, hi1 with
        | Nat.succ j, _ =>
          rw [List.getD_cons_succ]
          rw [List.getD_eq_getElem (c :: cs') charNul (by simpa using hi2)]
          exact List.getElem_mem _
      exact ⟨fun hq => h1 (hq ▸ hmem), fun hq => h2 (hq ▸ hmem)⟩
    obtain ⟨c1, c2, c3, c4, c5⟩ := stringLoop_no_quote ((c4L2 c cs').input.length + 2)
      (c4L2 c cs') '"'
      (by simp [c4L2]) (by simp [c4L2]) (by simp [c4L2]) (by simp [c4L2, List.getD])
      (by
        intro i hi1 hi2
        simp only [c4L2] at hi1 hi2 ⊢
        exact hsafe i (by omega) hi2)
      (by simp [c4L2])
    have hrs : (c4L1 c cs').readString '"' =
        (Lexer.stringLoop ((c4L2 c cs').input.length + 2) (c4L2 c cs') '"',
          ('"' :: c :: cs').asString) := by
      unfold Lexer.readString
      rw [c4_readChar]
      dsimp only
      rw [if_neg (by rw [c1]; decide)]
      rw [Prod.mk.injEq]
      refine ⟨rfl, ?_⟩
      rw [c3, c2]
      show listSlice ('"' :: c :: cs') 0 ('"' :: c :: cs').length = ('"' :: c :: cs').asString
      exact listSlice_all _
    have hnt1 : (c4L1 c cs').nextToken =
        (Lexer.stringLoop ((c4L2 c cs').input.length + 2) (c4L2 c cs') '"',
          { type := .STRING, literal := ('"' :: c :: cs').asString,
            line := 1, column := 2, offset := 0 }) := by
      rw [nextToken_nil (c4L1 c cs') rfl,
        skipWhitespace_nop (c4L1 c cs') (by rw [c4L1_ch]; decide),
        scanToken_dquote (c4L1 c cs') rfl, hrs]
      rfl
    set LF := Lexer.stringLoop ((c4L2 c cs').input.length + 2) (c4L2 c cs') '"' with hLF
    have hnt2 : LF.nextToken =
        (LF, { type := .EOF, literal := "",
               line := LF.line, column := LF.column, offset := LF.position }) := by
      rw [nextToken_nil LF (by rw [c4]; rfl),
        skipWhitespace_nop LF (by rw [c1]; decide),
        scanToken_nul LF c1]
    have hfuel : lexFuel ('"' :: c :: cs') = (4 * ('"' :: c :: cs').length + 6) + 1 + 1 := by
      unfold lexFuel
      omega
    unfold tokenize
    rw [hfuel, c4_newLexer]
    unfold lexAllS
    rw [hnt1]
    dsimp only
    rw [if_neg (by simp)]
    unfold lexAllS
    rw [hnt2]
    dsimp only
    rw [if_pos (by simp)]
    exact ⟨by simp, by simp, by simp [countType]⟩

/-- Witness for C4 at the concrete unterminated input made of a double
quote followed by "abc". -/
theorem c4_witness :
    ('"' ∉ "abc".data ∧ charNul ∉ "abc".data) ∧
    ((tokenize ('"' :: "abc".data)).map Token.type = [.STRING, .EOF] ∧
      (tokenize ('"' :: "abc".data)).head?.map Token.literal =
        some ('"' :: "abc".data).asString ∧
      countType .ILLEGAL (tokenize ('"' :: "abc".data)) = 0) :=
  ⟨⟨by decide, by decide⟩, c4_unterminated_string "abc".data (by decide) (by decide)⟩

/-!
C2: token-count conservation across a lexer run.  The conserved quantity is
(queued DEDENTs) - (queued INDENTs) + (indentation-stack depth): it is
untouched by plain scanning, preserved by handleIndentation, and dequeuing
merely moves one queued token into the emitted stream.  From it, the number
of DEDENT tokens a complete run emits never exceeds the number of INDENT
tokens; the two differ exactly by final stack depth minus one, because the
lexer does not flush outstanding indentation levels at end of input.
-/

/-- readChar never touches the token queue. -/
@[simp] theorem readChar_pending (l : Lexer) : l.readChar.pending = l.pending := by
  unfold Lexer.readChar
  dsimp only
  split <;> split <;> rfl

/-- readChar never touches the indentation stack. -/
@[simp] theorem readChar_stack (l : Lexer) : l.readChar.indentStack = l.indentStack := by
  unfold Lexer.readChar
  dsimp only
  split <;> split <;> rfl

/-- The whitespace loop touches neither queue nor stack. -/
@[simp] theorem skipWhitespaceLoop_state :
    ∀ (n : Nat) (l : Lexer),
      (Lexer.skipWhitespaceLoop n l).pending = l.pending ∧
      (Lexer.skipWhitespaceLoop n l).indentStack = l.indentStack := by
  intro n
  induction n with
  | zero => intro l; exact ⟨rfl, rfl⟩
  | succ k ih =>
    intro l
    unfold Lexer.skipWhitespaceLoop
    split
    · exact ⟨(ih _).1.trans (readChar_pending l), (ih _).2.trans (readChar_stack l)⟩
    · exact ⟨rfl, rfl⟩

/-- skipWhitespace preserves the queue. -/
@[simp] theorem skipWhitespace_pending (l : Lexer) :
    l.skipWhitespace.pending = l.pending :=
  (skipWhitespaceLoop_state _ l).1

/-- skipWhitespace preserves the indentation stack. -/
@[simp] theorem skipWhitespace_stack (l : Lexer) :
    l.skipWhitespace.indentStack = l.indentStack :=
  (skipWhitespaceLoop_state _ l).2

/-- The identifier loop touches neither queue nor stack. -/
@[simp] theorem identLoop_state :
    ∀ (n : Nat) (l : Lexer),
      (Lexer.identLoop n l).pending = l.pending ∧
      (Lexer.identLoop n l).indentStack = l.indentStack := by
  intro n
  induction n with
  | zero => intro l; exact ⟨rfl, rfl⟩
  | succ k ih =>
    intro l
    unfold Lexer.identLoop
    split
    · exact ⟨(ih _).1.trans (readChar_pending l), (ih _).2.trans (readChar_stack l)⟩
    · exact ⟨rfl, rfl⟩

/-- readIdentifier preserves the queue and the stack. -/
@[simp] theorem readIdentifier_pending (l : Lexer) :
    l.readIdentifier.1.pending = l.pending :=
  (identLoop_state _ l).1

@[simp] theorem readIdentifier_stack (l : Lexer) :
    l.readIdentifier.1.indentStack = l.indentStack :=
  (identLoop_state _ l).2

/-- The decimal-digit loop touches neither queue nor stack. -/
@[simp] theorem digitLoop_state :
    ∀ (n : Nat) (l : Lexer),
      (Lexer.digitLoop n l).pending = l.pending ∧
      (Lexer.digitLoop n l).indentStack = l.indentStack := by
  intro n
  induction n with
  | zero => intro l; exact ⟨rfl, rfl⟩
  | succ k ih =>
    intro l
    unfold Lexer.digitLoop
    split
    · exact ⟨(ih _).1.trans (readChar_pending l), (ih _).2.trans (readChar_stack l)⟩
    · exact ⟨rfl, rfl⟩

/-- The hex-digit loop touches neither queue nor stack. -/
@[simp] theorem hexLoop_state :
    ∀ (n : Nat) (l : Lexer),
      (Lexer.hexLoop n l).pending = l.pending ∧
      (Lexer.hexLoop n l).indentStack = l.indentStack := by
  intro n
  induction n with
  | zero => intro l; exact ⟨rfl, rfl⟩
  | succ k ih =>
    intro l
    unfold Lexer.hexLoop
    split
    · exact ⟨(ih _).1.trans (readChar_pending l), (ih _).2.trans (readChar_stack l)⟩
    · exact ⟨rfl, rfl⟩

/-- The binary-digit loop touches neither queue nor stack. -/
@[simp] theorem binLoop_state :
    ∀ (n : Nat) (l : Lexer),
      (Lexer.binLoop n l).pending = l.pending ∧
      (Lexer.binLoop n l).indentStack = l.indentStack := by
  intro n
  induction n with
  | zero => intro l; exact ⟨rfl, rfl⟩
  | succ k ih =>
    intro l
    unfold Lexer.binLoop
    split
    · exact ⟨(ih _).1.trans (readChar_pending l), (ih _).2.trans (readChar_stack l)⟩
    · exact ⟨rfl, rfl⟩

/-- readNumber preserves the queue. -/
@[simp] theorem readNumber_pending (l : Lexer) :
    l.readNumber.1.pending = l.pending := by
  unfold Lexer.readNumber
  dsimp only
  split_ifs <;> simp

/-- readNumber preserves the indentation stack. -/
@[simp] theorem readNumber_stack (l : Lexer) :
    l.readNumber.1.indentStack = l.indentStack := by
  unfold Lexer.readNumber
  dsimp only
  split_ifs <;> simp

/-- The string loop touches neither queue nor stack. -/
@[simp] theorem stringLoop_state :
    ∀ (n : Nat) (l : Lexer) (q : Char),
      (Lexer.stringLoop n l q).pending = l.pending ∧
      (Lexer.stringLoop n l q).indentStack = l.indentStack := by
  intro n
  induction n with
  | zero => intro l q; exact ⟨rfl, rfl⟩
  | succ k ih =>
    intro l q
    unfold Lexer.stringLoop
    split
    · exact ⟨(ih _ _).1.trans ((readChar_pending _).trans (readChar_pending _)),
             (ih _ _).2.trans ((readChar_stack _).trans (readChar_stack _))⟩
    · split
      · exact ⟨rfl, rfl⟩
      · split
        · exact ⟨(ih _ _).1.trans (readChar_pending _),
                 (ih _ _).2.trans (readChar_stack _)⟩
        · exact ⟨(ih _ _).1.trans (readChar_pending _),
                 (ih _ _).2.trans (readChar_stack _)⟩

/-- readString preserves the queue. -/
@[simp] theorem readString_pending (l : Lexer) (q : Char) :
    (l.readString q).1.pending = l.pending := by
  unfold Lexer.readString
  dsimp only
  split <;> simp

/-- readString preserves the indentation stack. -/
@[simp] theorem readString_stack (l : Lexer) (q : Char) :
    (l.readString q).1.indentStack = l.indentStack := by
  unfold Lexer.readString
  dsimp only
  split <;> simp

/-- The raw-string loop touches neither queue nor stack. -/
@[simp] theorem rawStringLoop_state :
    ∀ (n : Nat) (l : Lexer) (q : Char),
      (Lexer.rawStringLoop n l q).pending = l.pending ∧
      (Lexer.rawStringLoop n l q).indentStack = l.indentStack := by
  intro n
  induction n with
  | zero => intro l q; exact ⟨rfl, rfl⟩
  | succ k ih =>
    intro l q
    unfold Lexer.rawStringLoop
    split
    · exact ⟨rfl, rfl⟩
    · split
      · exact ⟨(ih _ _).1.trans (readChar_pending _),
               (ih _ _).2.trans (readChar_stack _)⟩
      · exact ⟨(ih _ _).1.trans (readChar_pending _),
               (ih _ _).2.trans (readChar_stack _)⟩

/-- readRawString preserves the queue. -/
@[simp] theorem readRawString_pending (l : Lexer) (q : Char) :
    (l.readRawString q).1.pending = l.pending := by
  unfold Lexer.readRawString
  dsimp only
  split <;> simp

/-- readRawString preserves the indentation stack. -/
@[simp] theorem readRawString_stack (l : Lexer) (q : Char) :
    (l.readRawString q).1.indentStack = l.indentStack := by
  unfold Lexer.readRawString
  dsimp only
  split <;> simp

/-- The comment loop touches neither queue nor stack. -/
@[simp] theorem commentLoop_state :
    ∀ (n : Nat) (l : Lexer),
      (Lexer.commentLoop n l).pending = l.pending ∧
      (Lexer.commentLoop n l).indentStack = l.indentStack := by
  intro n
  induction n with
  | zero => intro l; exact ⟨rfl, rfl⟩
  | succ k ih =>
    intro l
    unfold Lexer.commentLoop
    split
    · exact ⟨(ih _).1.trans (readChar_pending l), (ih _).2.trans (readChar_stack l)⟩
    · exact ⟨rfl, rfl⟩

/-- readComment preserves the queue and the stack. -/
@[simp] theorem readComment_pending (l : Lexer) :
    l.readComment.1.pending = l.pending :=
  (commentLoop_state _ l).1

@[simp] theorem readComment_stack (l : Lexer) :
    l.readComment.1.indentStack = l.indentStack :=
  (commentLoop_state _ l).2

/-- The indentation-width loop touches neither queue nor stack. -/
@[simp] theorem indentLoop_state :
    ∀ (n : Nat) (l : Lexer) (acc : Nat),
      (Lexer.indentLoop n l acc).1.pending = l.pending ∧
      (Lexer.indentLoop n l acc).1.indentStack = l.indentStack := by
  intro n
  induction n with
  | zero => intro l acc; exact ⟨rfl, rfl⟩
  | succ k ih =>
    intro l acc
    unfold Lexer.indentLoop
    split
    · exact ⟨(ih _ _).1.trans (readChar_pending l), (ih _ _).2.trans (readChar_stack l)⟩
    · split
      · exact ⟨(ih _ _).1.trans (readChar_pending l), (ih _ _).2.trans (readChar_stack l)⟩
      · exact ⟨rfl, rfl⟩

/-- Keyword lookup never yields a structural token: pushing the
discriminator through the if-chain turns every leaf into false. -/
theorem lookupIdent_not_structural (s : String) :
    (lookupIdent s).isStructural = false := by
  unfold lookupIdent
  simp only [apply_ite TokenType.isStructural]
  simp [TokenType.isStructural]

/-- Keyword lookup never yields a structural INDENT token. -/
@[simp] theorem lookupIdent_ne_INDENT (s : String) : ¬ lookupIdent s = .INDENT := by
  intro h
  have hs := lookupIdent_not_structural s
  rw [h] at hs
  simp [TokenType.isStructural] at hs

/-- Keyword lookup never yields a structural DEDENT token. -/
@[simp] theorem lookupIdent_ne_DEDENT (s : String) : ¬ lookupIdent s = .DEDENT := by
  intro h
  have hs := lookupIdent_not_structural s
  rw [h] at hs
  simp [TokenType.isStructural] at hs

/-- readNumber yields one of the four numeric token kinds. -/
theorem readNumber_type (l : Lexer) :
    l.readNumber.2.type = .HEX ∨ l.readNumber.2.type = .BIN ∨
    l.readNumber.2.type = .FLOAT ∨ l.readNumber.2.type = .INT := by
  unfold Lexer.readNumber
  dsimp only
  split_ifs <;> simp [Lexer.newToken]

/-- readNumber never yields INDENT. -/
@[simp] theorem readNumber_ne_INDENT (l : Lexer) :
    ¬ l.readNumber.2.type = .INDENT := by
  rcases readNumber_type l with h | h | h | h <;> simp [h]

/-- readNumber never yields DEDENT. -/
@[simp] theorem readNumber_ne_DEDENT (l : Lexer) :
    ¬ l.readNumber.2.type = .DEDENT := by
  rcases readNumber_type l with h | h | h | h <;> simp [h]

/-- Counting in the empty token list. -/
@[simp] theorem countType_nil (ty : TokenType) : countType ty [] = 0 := rfl

/-- Counting across a cons cell. -/
theorem countType_cons (ty : TokenType) (t : Token) (ts : List Token) :
    countType ty (t :: ts) =
      (if t.type = ty then 1 else 0) + countType ty ts := by
  simp only [countType, List.filter_cons, decide_eq_true_eq]
  split_ifs with h
  · simp only [List.length_cons]
    omega
  · omega

/-- Counting across an append. -/
theorem countType_append (ty : TokenType) (a b : List Token) :
    countType ty (a ++ b) = countType ty a + countType ty b := by
  simp [countType, List.filter_append]

/-- Counting inside a replicated token. -/
theorem countType_replicate (ty : TokenType) (k : Nat) (t : Token) :
    countType ty (List.replicate k t) = if t.type = ty then k else 0 := by
  induction k with
  | zero => simp [countType]
  | succ m ih =>
    rw [List.replicate_succ, countType_cons, ih]
    split_ifs <;> omega

/-- The pop loop pops exactly as many entries as it removes from the stack. -/
theorem popWhileGreater_length :
    ∀ (s : List Nat) (ind : Nat),
      (popWhileGreater s ind).1 + (popWhileGreater s ind).2.length = s.length := by
  intro s
  induction s with
  | nil => intro ind; rfl
  | cons t rest ih =>
    intro ind
    unfold popWhileGreater
    split
    · dsimp only
      have := ih ind
      simp only [List.length_cons]
      omega
    · simp

/-- The pop loop never removes the bottom sentinel 0: widths are
nonnegative, so the seed entry 0 never satisfies the pop condition. -/
theorem popWhileGreater_getLast :
    ∀ (s : List Nat) (ind : Nat), s.getLast? = some 0 →
      (popWhileGreater s ind).2.getLast? = some 0 := by
  intro s
  induction s with
  | nil => intro ind h; simp at h
  | cons t rest ih =>
    intro ind h
    unfold popWhileGreater
    split
    · dsimp only
      cases rest with
      | nil =>
        simp only [List.getLast?_singleton, Option.some_inj] at h
        subst h
        omega
      | cons u rest2 =>
        apply ih
        rw [List.getLast?_cons_cons] at h
        exact h
    · exact h

/-- handleIndentation conserves queued DEDENTs minus queued INDENTs plus
stack depth (stated additively over Nat). -/
theorem handleIndentation_counts (l : Lexer) (ind : Nat) :
    countType .DEDENT (l.handleIndentation ind).pending +
      (l.handleIndentation ind).indentStack.length +
      countType .INDENT l.pending
      = countType .INDENT (l.handleIndentation ind).pending +
        l.indentStack.length + countType .DEDENT l.pending := by
  unfold Lexer.handleIndentation
  dsimp only
  split_ifs with h1 h2 h3
  · simp [countType_append, countType_cons, Lexer.newToken]
    omega
  · have := popWhileGreater_length l.indentStack ind
    simp [countType_append, countType_cons, countType_replicate, Lexer.newToken]
    omega
  · have := popWhileGreater_length l.indentStack ind
    simp [countType_append, countType_cons, countType_replicate, Lexer.newToken]
    omega
  · omega

/-- handleIndentation keeps the bottom stack sentinel. -/
theorem handleIndentation_getLast (l : Lexer) (ind : Nat)
    (h : l.indentStack.getLast? = some 0) :
    (l.handleIndentation ind).indentStack.getLast? = some 0 := by
  unfold Lexer.handleIndentation
  dsimp only
  split_ifs with h1 h2 h3
  · cases hs : l.indentStack with
    | nil => rw [hs] at h; simp at h
    | cons a as =>
      dsimp only
      rw [List.getLast?_cons_cons]
      rw [hs] at h
      exact h
  · exact popWhileGreater_getLast _ ind h
  · exact popWhileGreater_getLast _ ind h
  · exact h

/-- handleIndentation only queues INDENT, DEDENT and ILLEGAL tokens, never
an EOF token. -/
theorem handleIndentation_noEOF (l : Lexer) (ind : Nat)
    (h : ∀ t ∈ l.pending, ¬ t.type = .EOF) :
    ∀ t ∈ (l.handleIndentation ind).pending, ¬ t.type = .EOF := by
  unfold Lexer.handleIndentation
  dsimp only
  split_ifs with h1 h2 h3
  · intro t ht
    rcases List.mem_append.1 ht with hm | hm
    · exact h t hm
    · simp only [List.mem_singleton] at hm
      rw [hm]
      simp [Lexer.newToken]
  · intro t ht
    rcases List.mem_append.1 ht with hm | hm
    · rcases List.mem_append.1 hm with hm2 | hm2
      · exact h t hm2
      · rw [List.eq_of_mem_replicate hm2]
        simp [Lexer.newToken]
    · simp only [List.mem_singleton] at hm
      rw [hm]
      simp [Lexer.newToken]
  · intro t ht
    rcases List.mem_append.1 ht with hm | hm
    · exact h t hm
    · rw [List.eq_of_mem_replicate hm]
      simp [Lexer.newToken]
  · exact h

/-- One scan step either leaves the queue and the stack untouched, or (for
a newline) hands a state with the same queue and stack to handleIndentation
and yields the NL token. -/
theorem scanToken_shape (l : Lexer) :
    (l.scanToken.1.pending = l.pending ∧
      l.scanToken.1.indentStack = l.indentStack) ∨
    (∃ (l' : Lexer) (ind : Nat),
      l'.pending = l.pending ∧ l'.indentStack = l.indentStack ∧
      l.scanToken.1 = l'.handleIndentation ind ∧ l.scanToken.2.type = .NL) := by
  unfold Lexer.scanToken
  split
  all_goals first
  | (left
     refine ⟨?_, ?_⟩ <;> (repeat' ((try dsimp only); split)) <;> simp
     done)
  | (right
     exact ⟨(Lexer.indentLoop (l.readChar.input.length + 2) l.readChar 0).1,
            (Lexer.indentLoop (l.readChar.input.length + 2) l.readChar 0).2,
            by simp, by simp, rfl, rfl⟩)

/-- A scanned token is never one of the structural INDENT/DEDENT tokens
(those are only ever queued by handleIndentation and dequeued later). -/
theorem scanToken_ne_structural (l : Lexer) :
    ¬ l.scanToken.2.type = .INDENT ∧ ¬ l.scanToken.2.type = .DEDENT := by
  unfold Lexer.scanToken
  split
  all_goals refine ⟨?_, ?_⟩ <;> (repeat' ((try dsimp only); split)) <;>
    simp [Lexer.newToken]

/-- One scan step conserves queued DEDENTs minus queued INDENTs plus stack
depth. -/
theorem scanToken_counts (l : Lexer) :
    countType .DEDENT l.scanToken.1.pending + l.scanToken.1.indentStack.length +
      countType .INDENT l.pending
      = countType .INDENT l.scanToken.1.pending + l.indentStack.length +
        countType .DEDENT l.pending := by
  rcases scanToken_shape l with ⟨h1, h2⟩ | ⟨l', ind, hp, hs, he, _⟩
  · rw [h1, h2]
    omega
  · rw [he]
    have hci := handleIndentation_counts l' ind
    rw [hp, hs] at hci
    exact hci

/-- One scan step keeps the bottom stack sentinel. -/
theorem scanToken_bottom (l : Lexer) (h : l.indentStack.getLast? = some 0) :
    l.scanToken.1.indentStack.getLast? = some 0 := by
  rcases scanToken_shape l with ⟨_, h2⟩ | ⟨l', ind, _, hs, he, _⟩
  · rw [h2]
    exact h
  · rw [he]
    exact handleIndentation_getLast l' ind (by rw [hs]; exact h)

/-- One scan step never queues an EOF token. -/
theorem scanToken_noEOF (l : Lexer) (h : ∀ t ∈ l.pending, ¬ t.type = .EOF) :
    ∀ t ∈ l.scanToken.1.pending, ¬ t.type = .EOF := by
  rcases scanToken_shape l with ⟨h1, _⟩ | ⟨l', ind, hp, _, he, _⟩
  · rw [h1]
    exact h
  · rw [he]
    exact handleIndentation_noEOF l' ind (by rw [hp]; exact h)

/-- When the scanned token is EOF the queue is left untouched. -/
theorem scanToken_eof_state (l : Lexer) (h : l.scanToken.2.type = .EOF) :
    l.scanToken.1.pending = l.pending := by
  rcases scanToken_shape l with ⟨h1, _⟩ | ⟨_, _, _, _, _, hnl⟩
  · exact h1
  · rw [h] at hnl
    simp at hnl

/-- NextToken on a nonempty queue merely dequeues. -/
theorem nextToken_dequeue (l : Lexer) (t : Token) (rest : List Token)
    (hp : l.pending = t :: rest) :
    l.nextToken = ({ l with pending := rest }, t) := by
  cases l
  dsimp only at hp
  subst hp
  rfl

/-- One NextToken call conserves emitted-or-queued DEDENTs minus
emitted-or-queued INDENTs plus stack depth. -/
theorem nextToken_counts (l : Lexer) :
    countType .DEDENT [l.nextToken.2] + countType .DEDENT l.nextToken.1.pending +
      l.nextToken.1.indentStack.length + countType .INDENT l.pending
      = countType .INDENT [l.nextToken.2] + countType .INDENT l.nextToken.1.pending +
        l.indentStack.length + countType .DEDENT l.pending := by
  rcases hp : l.pending with _ | ⟨t, rest⟩
  · rw [nextToken_nil l hp]
    have hcnt := scanToken_counts l.skipWhitespace
    rw [skipWhitespace_pending, skipWhitespace_stack, hp] at hcnt
    have hne := scanToken_ne_structural l.skipWhitespace
    simp only [countType_cons, countType_nil, if_neg hne.1, if_neg hne.2] at hcnt ⊢
    omega
  · rw [nextToken_dequeue l t rest hp]
    dsimp only
    simp only [countType_cons, countType_nil]
    omega

/-- One NextToken call keeps the bottom stack sentinel. -/
theorem nextToken_bottom (l : Lexer) (h : l.indentStack.getLast? = some 0) :
    l.nextToken.1.indentStack.getLast? = some 0 := by
  rcases hp : l.pending with _ | ⟨t, rest⟩
  · rw [nextToken_nil l hp]
    exact scanToken_bottom l.skipWhitespace (by rw [skipWhitespace_stack]; exact h)
  · rw [nextToken_dequeue l t rest hp]
    exact h

/-- One NextToken call never queues an EOF token. -/
theorem nextToken_noEOF (l : Lexer) (h : ∀ t ∈ l.pending, ¬ t.type = .EOF) :
    ∀ t ∈ l.nextToken.1.pending, ¬ t.type = .EOF := by
  rcases hp : l.pending with _ | ⟨t, rest⟩
  · rw [nextToken_nil l hp]
    exact scanToken_noEOF l.skipWhitespace (by rw [skipWhitespace_pending]; exact h)
  · rw [nextToken_dequeue l t rest hp]
    dsimp only
    intro u hu
    exact h u (by rw [hp]; exact List.mem_cons_of_mem t hu)

/-- When NextToken returns EOF the queue afterwards is empty: EOF can only
come from a scan on an already-empty queue, which EOF leaves untouched. -/
theorem nextToken_eof_empty (l : Lexer) (h : ∀ t ∈ l.pending, ¬ t.type = .EOF)
    (he : l.nextToken.2.type = .EOF) : l.nextToken.1.pending = [] := by
  rcases hp : l.pending with _ | ⟨t, rest⟩
  · rw [nextToken_nil l hp] at he ⊢
    rw [scanToken_eof_state l.skipWhitespace he, skipWhitespace_pending]
    exact hp
  · rw [nextToken_dequeue l t rest hp] at he
    exact absurd he (h t (by rw [hp]; exact List.mem_cons_self t rest))

/-- Unfolding equation of lexAllS at zero fuel. -/
theorem lexAllS_zero (l : Lexer) : lexAllS 0 l = ([], l) := rfl

/-- Unfolding equation of lexAllS at successor fuel. -/
theorem lexAllS_succ (n : Nat) (l : Lexer) :
    lexAllS (n + 1) l =
      if l.nextToken.2.type = .EOF then ([l.nextToken.2], l.nextToken.1)
      else (l.nextToken.2 :: (lexAllS n l.nextToken.1).1,
            (lexAllS n l.nextToken.1).2) := rfl

/-- Master invariant of a lexer run: (1) emitted-plus-queued DEDENTs minus
emitted-plus-queued INDENTs plus stack depth is conserved; (2) the bottom
stack sentinel 0 survives; (3) if the queue holds no EOF token and the run
ends in an EOF token, the final queue is empty (EOF only arises from a scan
on an empty queue, which it leaves untouched). -/
theorem lexAllS_run :
    ∀ (n : Nat) (l : Lexer),
      (countType .DEDENT (lexAllS n l).1 + countType .DEDENT (lexAllS n l).2.pending +
        (lexAllS n l).2.indentStack.length + countType .INDENT l.pending
        = countType .INDENT (lexAllS n l).1 + countType .INDENT (lexAllS n l).2.pending +
          l.indentStack.length + countType .DEDENT l.pending) ∧
      (l.indentStack.getLast? = some 0 →
        (lexAllS n l).2.indentStack.getLast? = some 0) ∧
      ((∀ t ∈ l.pending, ¬ t.type = .EOF) →
        (lexAllS n l).1.getLast?.map Token.type = some .EOF →
        (lexAllS n l).2.pending = []) := by
  intro n
  induction n with
  | zero =>
    intro l
    rw [lexAllS_zero]
    dsimp only
    refine ⟨?_, ?_, ?_⟩
    · simp only [countType_nil]
      omega
    · intro h0
      exact h0
    · intro _ hlast
      simp at hlast
  | succ k ih =>
    intro l
    rw [lexAllS_succ]
    by_cases he : l.nextToken.2.type = .EOF
    · rw [if_pos he]
      dsimp only
      refine ⟨?_, ?_, ?_⟩
      · exact nextToken_counts l
      · intro h0
        exact nextToken_bottom l h0
      · intro hno _
        exact nextToken_eof_empty l hno he
    · rw [if_neg he]
      obtain ⟨ih1, ih2, ih3⟩ := ih l.nextToken.1
      dsimp only
      refine ⟨?_, ?_, ?_⟩
      · have hstep := nextToken_counts l
        simp only [countType_cons, countType_nil] at hstep ih1 ⊢
        omega
      · intro h0
        exact ih2 (nextToken_bottom l h0)
      · intro hno hlast
        have hno2 := nextToken_noEOF l hno
        cases hE : (lexAllS k l.nextToken.1).1 with
        | nil =>
          rw [hE] at hlast
          simp at hlast
          exact absurd hlast he
        | cons u E2 =>
          rw [hE] at hlast
          rw [List.getLast?_cons_cons] at hlast
          rw [← hE] at hlast
          exact ih3 hno2 hlast

/-- C2, corrected: over a complete lexer run (one that reaches the EOF
token), the number of emitted DEDENT tokens never exceeds the number of
emitted INDENT tokens; the claimed equality fails in general because the
lexer does not flush open indentation levels at end of input — the deficit
is exactly the final stack depth minus one. -/
theorem c2_dedent_le_indent (input : List Char)
    (h : (tokenize input).getLast?.map Token.type = some .EOF) :
    countType .DEDENT (tokenize input) ≤ countType .INDENT (tokenize input) := by
  unfold tokenize at h ⊢
  obtain ⟨hcnt, hbot, hfin⟩ := lexAllS_run (lexFuel input) (newLexer input)
  have hp : (newLexer input).pending = [] := readChar_pending _
  have hs : (newLexer input).indentStack = [0] := readChar_stack _
  rw [hp, hs] at hcnt
  have hbot2 := hbot (by rw [hs]; rfl)
  have hfp := hfin (by rw [hp]; intro t ht; exact absurd ht (List.not_mem_nil t)) h
  have hlen : 1 ≤ (lexAllS (lexFuel input) (newLexer input)).2.indentStack.length := by
    cases hq : (lexAllS (lexFuel input) (newLexer input)).2.indentStack with
    | nil => rw [hq] at hbot2; simp at hbot2
    | cons a as => simp
  rw [hfp] at hcnt
  simp only [countType_nil, List.length_cons, List.length_nil] at hcnt
  omega

/-- Witness for the corrected C2 bound, at a concrete input that opens an
indented block and never closes it (the run reaches EOF, and the strict
inequality 0 < 1 shows why the original equality claim fails). -/
theorem c2_witness :
    ((tokenize "\n\ta".data).getLast?.map Token.type = some .EOF) ∧
    countType .DEDENT (tokenize "\n\ta".data) ≤
      countType .INDENT (tokenize "\n\ta".data) :=
  ⟨by decide, c2_dedent_le_indent "\n\ta".data (by decide)⟩

/-!
C8: the parser keeps every Function node's Statements and SubStatements
lists identical.  Function.AddStatement appends to both lists and is the
only statement-adding mutator the parser calls, so the sync property is an
invariant of every node constructor and mutator, and a fuel induction
carries it through the whole parse.
-/

/-- The empty collection is synced. -/
theorem allSynced_nil : allSynced [] := by
  intro g hg
  exact absurd hg (List.not_mem_nil g)

/-- Sync over a cons cell. -/
theorem allSynced_cons (f : Func) (fs : List Func) :
    allSynced (f :: fs) ↔ f.statements = f.subStatements ∧ allSynced fs := by
  constructor
  · intro h
    exact ⟨h f (List.mem_cons_self f fs), fun g hg => h g (List.mem_cons_of_mem f hg)⟩
  · intro h g hg
    rcases List.mem_cons.1 hg with hm | hm
    · rw [hm]
      exact h.1
    · exact h.2 g hm

/-- Sync over an append. -/
theorem allSynced_append (a b : List Func) :
    allSynced (a ++ b) ↔ allSynced a ∧ allSynced b := by
  constructor
  · intro h
    exact ⟨fun g hg => h g (List.mem_append.2 (Or.inl hg)),
           fun g hg => h g (List.mem_append.2 (Or.inr hg))⟩
  · intro h g hg
    rcases List.mem_append.1 hg with hm | hm
    · exact h.1 g hm
    · exact h.2 g hm

/-- Unfolding equations of the Function-node collectors. -/
theorem funcFuncs_mk (pos : Position) (name : String) (ps : List Param)
    (rt : String) (st sub : List Statement) (stat : Bool) :
    funcFuncs (.mk pos name ps rt st sub stat) =
      .mk pos name ps rt st sub stat :: (stmtsFuncs st ++ stmtsFuncs sub) := rfl

theorem classFuncs_mk (pos : Position) (name ext : String)
    (subs : List (Option Class)) (fns : List (Option Func))
    (sts : List Statement) :
    classFuncs (.mk pos name ext subs fns sts) =
      oclassesFuncs subs ++ ofuncsFuncs fns ++ stmtsFuncs sts := rfl

theorem stmtFuncs_ifS (pos : Position) (kind : String) (c : Option Expr)
    (cons : List Statement) (ec : List (Option Expr))
    (eb : List (List Statement)) (alt : List Statement) :
    stmtFuncs (.ifS (.mk pos kind c cons ec eb alt)) =
      stmtsFuncs cons ++ stmtssFuncs eb ++ stmtsFuncs alt := rfl

theorem stmtFuncs_matchS (pos : Position) (kind : String) (v : Option Expr)
    (bs : List MatchBranch) :
    stmtFuncs (.matchS (.mk pos kind v bs)) = branchesFuncs bs := rfl

theorem branchFuncs_mk (pos : Position) (pat g : Option Expr)
    (body : List Statement) (gu : Bool) :
    branchFuncs (.mk pos pat g body gu) = stmtsFuncs body := rfl

theorem stmtsFuncs_nil : stmtsFuncs [] = [] := rfl

theorem stmtsFuncs_cons (s : Statement) (r : List Statement) :
    stmtsFuncs (s :: r) = stmtFuncs s ++ stmtsFuncs r := rfl

theorem stmtssFuncs_nil : stmtssFuncs [] = [] := rfl

theorem stmtssFuncs_cons (b : List Statement) (r : List (List Statement)) :
    stmtssFuncs (b :: r) = stmtsFuncs b ++ stmtssFuncs r := rfl

theorem branchesFuncs_nil : branchesFuncs [] = [] := rfl

theorem branchesFuncs_cons (b : MatchBranch) (r : List MatchBranch) :
    branchesFuncs (b :: r) = branchFuncs b ++ branchesFuncs r := rfl

theorem ofuncsFuncs_nil : ofuncsFuncs [] = [] := rfl

theorem ofuncsFuncs_cons (f : Option Func) (r : List (Option Func)) :
    ofuncsFuncs (f :: r) = ofuncFuncs f ++ ofuncsFuncs r := rfl

theorem oclassesFuncs_nil : oclassesFuncs [] = [] := rfl

theorem oclassesFuncs_cons (c : Option Class) (r : List (Option Class)) :
    oclassesFuncs (c :: r) = oclassFuncs c ++ oclassesFuncs r := rfl

/-- The collectors distribute over appends. -/
theorem stmtsFuncs_append (a b : List Statement) :
    stmtsFuncs (a ++ b) = stmtsFuncs a ++ stmtsFuncs b := by
  induction a with
  | nil => simp [stmtsFuncs_nil]
  | cons s r ih => simp [stmtsFuncs_cons, ih]

theorem stmtssFuncs_append (a b : List (List Statement)) :
    stmtssFuncs (a ++ b) = stmtssFuncs a ++ stmtssFuncs b := by
  induction a with
  | nil => simp [stmtssFuncs_nil]
  | cons s r ih => simp [stmtssFuncs_cons, ih]

theorem branchesFuncs_append (a b : List MatchBranch) :
    branchesFuncs (a ++ b) = branchesFuncs a ++ branchesFuncs b := by
  induction a with
  | nil => simp [branchesFuncs_nil]
  | cons s r ih => simp [branchesFuncs_cons, ih]

theorem ofuncsFuncs_append (a b : List (Option Func)) :
    ofuncsFuncs (a ++ b) = ofuncsFuncs a ++ ofuncsFuncs b := by
  induction a with
  | nil => simp [ofuncsFuncs_nil]
  | cons s r ih => simp [ofuncsFuncs_cons, ih]

theorem oclassesFuncs_append (a b : List (Option Class)) :
    oclassesFuncs (a ++ b) = oclassesFuncs a ++ oclassesFuncs b := by
  induction a with
  | nil => simp [oclassesFuncs_nil]
  | cons s r ih => simp [oclassesFuncs_cons, ih]

/-- A fresh (possibly static) function node is synced: both lists start
empty. -/
theorem synced_newFunction (name : String) (pos : Position) (b : Bool) :
    allSynced (funcFuncs ((newFunction name pos).setIsStatic b)) := by
  intro g hg
  simp only [newFunction, Func.setIsStatic, funcFuncs_mk, stmtsFuncs_nil,
    List.append_nil, List.mem_singleton] at hg
  rw [hg]
  rfl

/-- AddParameter touches neither statement list. -/
theorem synced_addParameter (f : Func) (param : Param)
    (h : allSynced (funcFuncs f)) :
    allSynced (funcFuncs (f.addParameter param)) := by
  cases f with
  | mk pos name ps rt st sub stat =>
    simp only [Func.addParameter, funcFuncs_mk, allSynced_cons] at h ⊢
    exact h

/-- The ReturnType field write touches neither statement list. -/
theorem synced_setReturnType (f : Func) (rt : String)
    (h : allSynced (funcFuncs f)) :
    allSynced (funcFuncs (f.setReturnType rt)) := by
  cases f with
  | mk pos name ps rt0 st sub stat =>
    simp only [Func.setReturnType, funcFuncs_mk, allSynced_cons] at h ⊢
    exact h

/-- Function.AddStatement appends the same statement to BOTH lists, so sync
is preserved (given the added statement's own nested functions are synced). -/
theorem synced_addStatement (f : Func) (s : Statement)
    (hf : allSynced (funcFuncs f)) (hs : allSynced (stmtFuncs s)) :
    allSynced (funcFuncs (f.addStatement s)) := by
  cases f with
  | mk pos name ps rt st sub stat =>
    simp only [Func.addStatement, funcFuncs_mk, allSynced_cons, stmtsFuncs_append,
      stmtsFuncs_cons, stmtsFuncs_nil, List.append_nil, allSynced_append] at hf ⊢
    exact ⟨congrArg (fun l => l ++ [s]) hf.1, ⟨hf.2.1, hs⟩, hf.2.2, hs⟩

/-- A fresh class node contains no function nodes. -/
theorem synced_newClass (name : String) (pos : Position) :
    allSynced (classFuncs (newClass name pos)) := allSynced_nil

/-- The Extends field write adds no function nodes. -/
theorem synced_setExtends (c : Class) (ext : String)
    (h : allSynced (classFuncs c)) :
    allSynced (classFuncs (c.setExtends ext)) := by
  cases c with
  | mk pos name e0 subs fns sts =>
    simp only [Class.setExtends, classFuncs_mk] at h ⊢
    exact h

/-- Class.AddFunction preserves sync when the added pointer does. -/
theorem synced_cls_addFunction (c : Class) (of : Option Func)
    (hc : allSynced (classFuncs c)) (hof : allSynced (ofuncFuncs of)) :
    allSynced (classFuncs (c.addFunction of)) := by
  cases c with
  | mk pos name ext subs fns sts =>
    simp only [Class.addFunction, classFuncs_mk, ofuncsFuncs_append,
      ofuncsFuncs_cons, ofuncsFuncs_nil, List.append_nil, allSynced_append] at hc ⊢
    exact ⟨⟨hc.1.1, hc.1.2, hof⟩, hc.2⟩

/-- Class.AddSubClass preserves sync when the added pointer does. -/
theorem synced_cls_addSubClass (c : Class) (oc : Option Class)
    (hc : allSynced (classFuncs c)) (hoc : allSynced (oclassFuncs oc)) :
    allSynced (classFuncs (c.addSubClass oc)) := by
  cases c with
  | mk pos name ext subs fns sts =>
    simp only [Class.addSubClass, classFuncs_mk, oclassesFuncs_append,
      oclassesFuncs_cons, oclassesFuncs_nil, List.append_nil, allSynced_append] at hc ⊢
    exact ⟨⟨⟨hc.1.1, hoc⟩, hc.1.2⟩, hc.2⟩

/-- Class.AddStatement preserves sync when the added statement does. -/
theorem synced_cls_addStatement (c : Class) (s : Statement)
    (hc : allSynced (classFuncs c)) (hs : allSynced (stmtFuncs s)) :
    allSynced (classFuncs (c.addStatement s)) := by
  cases c with
  | mk pos name ext subs fns sts =>
    simp only [Class.addStatement, classFuncs_mk, stmtsFuncs_append,
      stmtsFuncs_cons, stmtsFuncs_nil, List.append_nil, allSynced_append] at hc ⊢
    exact ⟨hc.1, hc.2, hs⟩

/-- A fresh if-statement has empty branch lists. -/
theorem synced_newIf (pos : Position) (cond : Option Expr) :
    allSynced (stmtFuncs (.ifS (newIfStatement pos cond))) := allSynced_nil

/-- Replacing the consequence with a synced block keeps the node synced. -/
theorem synced_setConsequence (i : IfStmt) (b : List Statement)
    (hi : allSynced (stmtFuncs (.ifS i))) (hb : allSynced (stmtsFuncs b)) :
    allSynced (stmtFuncs (.ifS (i.setConsequence b))) := by
  cases i with
  | mk pos kind c cons ec eb alt =>
    simp only [IfStmt.setConsequence, stmtFuncs_ifS, allSynced_append] at hi ⊢
    exact ⟨⟨hb, hi.1.2⟩, hi.2⟩

/-- Adding a synced elif branch keeps the node synced. -/
theorem synced_addElseIfBranch (i : IfStmt) (cond : Option Expr)
    (b : List Statement)
    (hi : allSynced (stmtFuncs (.ifS i))) (hb : allSynced (stmtsFuncs b)) :
    allSynced (stmtFuncs (.ifS (i.addElseIfBranch cond b))) := by
  cases i with
  | mk pos kind c cons ec eb alt =>
    simp only [IfStmt.addElseIfBranch, stmtFuncs_ifS, stmtssFuncs_append,
      stmtssFuncs_cons, stmtssFuncs_nil, List.append_nil, allSynced_append] at hi ⊢
    exact ⟨⟨hi.1.1, hi.1.2, hb⟩, hi.2⟩

/-- Replacing the alternative with a synced block keeps the node synced. -/
theorem synced_setAlternative (i : IfStmt) (b : List Statement)
    (hi : allSynced (stmtFuncs (.ifS i))) (hb : allSynced (stmtsFuncs b)) :
    allSynced (stmtFuncs (.ifS (i.setAlternative b))) := by
  cases i with
  | mk pos kind c cons ec eb alt =>
    simp only [IfStmt.setAlternative, stmtFuncs_ifS, allSynced_append] at hi ⊢
    exact ⟨hi.1, hb⟩

/-- A for-statement's function nodes come from its body only. -/
theorem synced_for_setBody (f : ForStmt) (b : List Statement)
    (hb : allSynced (stmtsFuncs b)) :
    allSynced (stmtFuncs (.forS (f.setBody b))) := by
  cases f with
  | mk pos kind it itp coll body th ty => exact hb

/-- A while-statement's function nodes come from its body only. -/
theorem synced_while_setBody (w : WhileStmt) (b : List Statement)
    (hb : allSynced (stmtsFuncs b)) :
    allSynced (stmtFuncs (.whileS (w.setBody b))) := by
  cases w with
  | mk pos kind c body => exact hb

/-- A fresh match statement has no branches. -/
theorem synced_newMatch (pos : Position) (v : Option Expr) :
    allSynced (stmtFuncs (.matchS (newMatchStatement pos v))) := allSynced_nil

/-- Adding a synced branch keeps a match statement synced. -/
theorem synced_match_addBranch (m : MatchStmt) (b : MatchBranch)
    (hm : allSynced (stmtFuncs (.matchS m))) (hb : allSynced (branchFuncs b)) :
    allSynced (stmtFuncs (.matchS (m.addBranch b))) := by
  cases m with
  | mk pos kind v bs =>
    simp only [MatchStmt.addBranch, stmtFuncs_matchS, branchesFuncs_append,
      branchesFuncs_cons, branchesFuncs_nil, List.append_nil, allSynced_append] at hm ⊢
    exact ⟨hm, hb⟩

/-- A fresh match branch has an empty body. -/
theorem synced_newBranch (pos : Position) (pat : Option Expr) :
    allSynced (branchFuncs (newMatchBranch pos pat)) := allSynced_nil

/-- Setting a guard leaves the branch body untouched. -/
theorem synced_branch_setGuard (b : MatchBranch) (g : Option Expr)
    (hb : allSynced (branchFuncs b)) :
    allSynced (branchFuncs (b.setGuard g)) := by
  cases b with
  | mk pos pat g0 body gu => exact hb

/-- Adding a synced body statement keeps a match branch synced. -/
theorem synced_branch_addBody (b : MatchBranch) (s : Statement)
    (hb : allSynced (branchFuncs b)) (hs : allSynced (stmtFuncs s)) :
    allSynced (branchFuncs (b.addBodyStatement s)) := by
  cases b with
  | mk pos pat g body gu =>
    simp only [MatchBranch.addBodyStatement, branchFuncs_mk, stmtsFuncs_append,
      stmtsFuncs_cons, stmtsFuncs_nil, List.append_nil, allSynced_append] at hb ⊢
    exact ⟨hb, hs⟩

/-- Return statements contain no function nodes (their payload is an
expression). -/
theorem parseReturn_funcs (n : Nat) (p : Parser) :
    stmtFuncs (parseReturnStatement n p).2 = [] := by
  cases n with
  | zero => rfl
  | succ k =>
    unfold parseReturnStatement
    dsimp only
    split <;> rfl

/-- Expression statements contain no function nodes. -/
theorem parseExprStmt_funcs (n : Nat) (p : Parser) :
    stmtFuncs (parseExpressionStatement n p).2 = [] := by
  cases n with
  | zero => rfl
  | succ k => rfl

/-- Introduction rule for syncedOptF. -/
theorem syncedOptF_intro (o : Option Func)
    (h : ∀ f, o = some f → allSynced (funcFuncs f)) : syncedOptF o := by
  cases o with
  | none => trivial
  | some f => exact h f rfl

/-- Elimination rule for syncedOptF. -/
theorem syncedOptF_elim (o : Option Func) (f : Func)
    (ho : syncedOptF o) (h : o = some f) : allSynced (funcFuncs f) := by
  rw [h] at ho
  exact ho

/-- Introduction rule for syncedOptC. -/
theorem syncedOptC_intro (o : Option Class)
    (h : ∀ c, o = some c → allSynced (classFuncs c)) : syncedOptC o := by
  cases o with
  | none => trivial
  | some c => exact h c rfl

/-- Elimination rule for syncedOptC. -/
theorem syncedOptC_elim (o : Option Class) (c : Class)
    (ho : syncedOptC o) (h : o = some c) : allSynced (classFuncs c) := by
  rw [h] at ho
  exact ho

/-- One-step sync lemma for parseStatement: dispatch over the current token
kind; every produced statement is synced, using the sub-parsers at one fuel
less. -/
theorem step_stmt (k : Nat)
    (ihF : ∀ p f, (parseFunctionDefinition k p).2 = some f → allSynced (funcFuncs f))
    (ihC : ∀ p c, (parseClassDefinition k p).2 = some c → allSynced (classFuncs c))
    (ihIf : ∀ p i, (parseIfStatement k p).2 = some i → allSynced (stmtFuncs (.ifS i)))
    (ihFor : ∀ p f, (parseForStatement k p).2 = some f → allSynced (stmtFuncs (.forS f)))
    (ihWhile : ∀ p w, (parseWhileStatement k p).2 = some w → allSynced (stmtFuncs (.whileS w)))
    (ihM : ∀ p m, (parseMatchStatement k p).2 = some m → allSynced (stmtFuncs (.matchS m))) :
    ∀ p s, (parseStatement (k + 1) p).2 = some s → allSynced (stmtFuncs s) := by
  intro p s
  unfold parseStatement
  cases p.currentToken.type <;> intro h <;>
    first
    | exact Option.noConfusion h
    | (injection h with h2
       subst h2
       first
       | exact allSynced_nil
       | (rw [parseReturn_funcs]; exact allSynced_nil)
       | (rw [parseExprStmt_funcs]; exact allSynced_nil)
       | (cases hv : (parseVarStatement k p).2 <;> exact allSynced_nil)
       | (cases hv : (parseConstStatement k p).2 <;> exact allSynced_nil)
       | (cases hf : (parseFunctionDefinition k p).2 with
          | none => exact allSynced_nil
          | some f => exact ihF p f hf)
       | (cases hc : (parseClassDefinition k p).2 with
          | none => exact allSynced_nil
          | some c2 => exact ihC p c2 hc)
       | (cases hi : (parseIfStatement k p).2 with
          | none => exact allSynced_nil
          | some i => exact ihIf p i hi)
       | (cases hw : (parseWhileStatement k p).2 with
          | none => exact allSynced_nil
          | some w => exact ihWhile p w hw)
       | (cases hfo : (parseForStatement k p).2 with
          | none => exact allSynced_nil
          | some f2 => exact ihFor p f2 hfo)
       | (cases hm : (parseMatchStatement k p).2 with
          | none => exact allSynced_nil
          | some m => exact ihM p m hm))

/-- Sync lemma for the tail of parseFunctionDefinition (everything after
the static-keyword stage), stated over an arbitrary entry state so that the
intermediate terms stay small. -/
theorem fdef_tail (k : Nat)
    (ihPL : ∀ p fn, allSynced (funcFuncs fn) →
      allSynced (funcFuncs (parseParameterList k p fn).2))
    (ihFB : ∀ p fn, allSynced (funcFuncs fn) →
      allSynced (funcFuncs (parseFuncBodyLoop k p fn).2)) :
    ∀ (p1 : Parser) (startPos : Position) (isStatic : Bool) (f : Func),
      ((if p1.currentToken.type ≠ TokenType.IDENT then
        (p1.addErr p1.currentToken.line p1.currentToken.column
          ("expected function name, got " ++ p1.currentToken.type.str), none)
      else
        let funcName := p1.currentToken.literal
        let function := (newFunction funcName startPos).setIsStatic isStatic
        let p := p1.nextTok
        if p.currentToken.type ≠ TokenType.LPAREN then
          (p.addErr p.currentToken.line p.currentToken.column
            ("expected '(' after function name, got " ++ p.currentToken.type.str), none)
        else
          let r := parseParameterList k p function
          let p := r.1
          let function := r.2
          let s2 : Parser × Option Func :=
            if p.currentToken.type = TokenType.ARROW then
              let p := p.nextTok
              if p.currentToken.type ≠ TokenType.IDENT then
                let p := p.addErr p.currentToken.line p.currentToken.column
                  ("expected return type, got " ++ p.currentToken.type.str)
                let p := if p.errorMode = ErrorMode.panicMode then p.synchronize else p
                (p, none)
              else
                let function := function.setReturnType p.currentToken.literal
                (p.nextTok, some function)
            else (p, some function)
          match s2.2 with
          | none => (s2.1, none)
          | some function =>
            let p := s2.1
            let e : Parser × Bool :=
              if p.currentToken.type ≠ TokenType.COLON then p.expectPeek TokenType.COLON
              else (p, true)
            if !e.2 then (e.1, none)
            else
              let p := e.1
              let p := p.skipPeekNLIndent
              if p.peekToken.type = TokenType.INDENT then
                let p := p.nextTok
                let r := parseFuncBodyLoop k p function
                (r.1, some r.2)
              else if p.peekToken.type = TokenType.VAR || p.peekToken.type = TokenType.RETURN ||
                  p.peekToken.type = TokenType.PASS then
                let r := parseFuncBodyLoop k p function
                (r.1, some r.2)
              else if p.peekToken.type = TokenType.EOF then (p, some function)
              else
                (p.addErr p.peekToken.line p.peekToken.column
                  ("expected indentation or statement, got " ++ p.peekToken.type.str),
                 none)) : Parser × Option Func).2 = some f →
      allSynced (funcFuncs f) := by
  intro p1 startPos isStatic f h
  dsimp only at h
  set f0 := (newFunction p1.currentToken.literal startPos).setIsStatic isStatic with hf0
  set r0 := parseParameterList k p1.nextTok f0 with hr0
  have hfsync : allSynced (funcFuncs f0) := by
    rw [hf0]
    exact synced_newFunction _ _ _
  have hrsync : allSynced (funcFuncs r0.2) := by
    rw [hr0]
    exact ihPL _ _ hfsync
  set s2v := (if r0.1.currentToken.type = TokenType.ARROW then
      if r0.1.nextTok.currentToken.type ≠ TokenType.IDENT then
        (if (r0.1.nextTok.addErr r0.1.nextTok.currentToken.line
              r0.1.nextTok.currentToken.column
              ("expected return type, got " ++ r0.1.nextTok.currentToken.type.str)).errorMode =
            ErrorMode.panicMode then
          (r0.1.nextTok.addErr r0.1.nextTok.currentToken.line
            r0.1.nextTok.currentToken.column
            ("expected return type, got " ++ r0.1.nextTok.currentToken.type.str)).synchronize
        else
          r0.1.nextTok.addErr r0.1.nextTok.currentToken.line
            r0.1.nextTok.currentToken.column
            ("expected return type, got " ++ r0.1.nextTok.currentToken.type.str),
        none)
      else (r0.1.nextTok.nextTok, some (r0.2.setReturnType r0.1.nextTok.currentToken.literal))
    else (r0.1, some r0.2)) with hs2
  set e0 := (if s2v.1.currentToken.type ≠ TokenType.COLON then
      s2v.1.expectPeek TokenType.COLON
    else (s2v.1, true)) with he0
  split at h
  · exact Option.noConfusion h
  · split at h
    · exact Option.noConfusion h
    · split at h
      · exact Option.noConfusion h
      · rename_i function heq
        have hfun : allSynced (funcFuncs function) := by
          rw [hs2] at heq
          repeat' (split at heq)
          all_goals first
          | exact Option.noConfusion heq
          | (injection heq with heq
             subst heq
             first
             | exact synced_setReturnType _ _ hrsync
             | exact hrsync)
        repeat' (split at h)
        all_goals first
        | exact Option.noConfusion h
        | (injection h with h
           subst h
           first
           | exact ihFB _ _ hfun
           | exact hfun)

/-- One-step sync lemma for parseFunctionDefinition. -/
theorem step_fdef (k : Nat)
    (ihPL : ∀ p fn, allSynced (funcFuncs fn) →
      allSynced (funcFuncs (parseParameterList k p fn).2))
    (ihFB : ∀ p fn, allSynced (funcFuncs fn) →
      allSynced (funcFuncs (parseFuncBodyLoop k p fn).2)) :
    ∀ p f, (parseFunctionDefinition (k + 1) p).2 = some f →
      allSynced (funcFuncs f) := by
  intro p f h
  unfold parseFunctionDefinition at h
  dsimp only at h
  by_cases h1 : p.currentToken.type = TokenType.STATIC
  · simp only [if_pos h1] at h
    by_cases h2 : p.nextTok.currentToken.type ≠ TokenType.FUNC
    · simp only [if_pos h2] at h
      exact Option.noConfusion h
    · simp only [if_neg h2] at h
      exact fdef_tail k ihPL ihFB p.nextTok.nextTok p.curPos true f h
  · simp only [if_neg h1] at h
    exact fdef_tail k ihPL ihFB p.nextTok p.curPos false f h

/-- One-step sync lemma for the function-body loop. -/
theorem step_fbody (k : Nat)
    (ihS : ∀ p s, (parseStatement k p).2 = some s → allSynced (stmtFuncs s))
    (ihFB : ∀ p fn, allSynced (funcFuncs fn) →
      allSynced (funcFuncs (parseFuncBodyLoop k p fn).2)) :
    ∀ p fn, allSynced (funcFuncs fn) →
      allSynced (funcFuncs (parseFuncBodyLoop (k + 1) p fn).2) := by
  intro p fn hfn
  unfold parseFuncBodyLoop
  dsimp only
  split
  · split
    · exact ihFB _ _ hfn
    · apply ihFB
      cases hs : (parseStatement k p).2 with
      | none => exact hfn
      | some stmt => exact synced_addStatement fn stmt hfn (ihS p stmt hs)
  · exact hfn

/-- One-step sync lemma for parseParameterList. -/
theorem step_plist (k : Nat)
    (ihPsL : ∀ p fn, allSynced (funcFuncs fn) →
      allSynced (funcFuncs (parseParamsLoop k p fn).2.1)) :
    ∀ p fn, allSynced (funcFuncs fn) →
      allSynced (funcFuncs (parseParameterList (k + 1) p fn).2) := by
  intro p fn hfn
  unfold parseParameterList
  dsimp only
  split
  · exact hfn
  · split
    · exact hfn
    · split
      · exact ihPsL _ _ (synced_addParameter fn _ hfn)
      · split
        · exact ihPsL _ _ (synced_addParameter fn _ hfn)
        · exact ihPsL _ _ (synced_addParameter fn _ hfn)

/-- One-step sync lemma for the parameter comma loop. -/
theorem step_ploop (k : Nat)
    (ihPsL : ∀ p fn, allSynced (funcFuncs fn) →
      allSynced (funcFuncs (parseParamsLoop k p fn).2.1)) :
    ∀ p fn, allSynced (funcFuncs fn) →
      allSynced (funcFuncs (parseParamsLoop (k + 1) p fn).2.1) := by
  intro p fn hfn
  unfold parseParamsLoop
  dsimp only
  split
  · split
    · exact hfn
    · split
      · exact hfn
      · exact ihPsL _ _ (synced_addParameter fn _ hfn)
  · exact hfn

/-- One-step sync lemma for parseClassDefinition. -/
theorem step_cdef (k : Nat)
    (ihCB : ∀ p c, allSynced (classFuncs c) →
      allSynced (classFuncs (parseClassBodyLoop k p c).2)) :
    ∀ p c, (parseClassDefinition (k + 1) p).2 = some c →
      allSynced (classFuncs c) := by
  intro p c h
  unfold parseClassDefinition at h
  dsimp only at h
  generalize hS : (if p.nextTok.skipNewlines.nextTok.currentToken.type = TokenType.EXTENDS then
      if p.nextTok.skipNewlines.nextTok.nextTok.currentToken.type ≠ TokenType.IDENT then
        (if (p.nextTok.skipNewlines.nextTok.nextTok.addErr
              p.nextTok.skipNewlines.nextTok.nextTok.currentToken.line
              p.nextTok.skipNewlines.nextTok.nextTok.currentToken.column
              ("expected parent class name, got " ++
                p.nextTok.skipNewlines.nextTok.nextTok.currentToken.type.str)).errorMode =
            ErrorMode.panicMode then
          (p.nextTok.skipNewlines.nextTok.nextTok.addErr
            p.nextTok.skipNewlines.nextTok.nextTok.currentToken.line
            p.nextTok.skipNewlines.nextTok.nextTok.currentToken.column
            ("expected parent class name, got " ++
              p.nextTok.skipNewlines.nextTok.nextTok.currentToken.type.str)).synchronize
        else
          p.nextTok.skipNewlines.nextTok.nextTok.addErr
            p.nextTok.skipNewlines.nextTok.nextTok.currentToken.line
            p.nextTok.skipNewlines.nextTok.nextTok.currentToken.column
            ("expected parent class name, got " ++
              p.nextTok.skipNewlines.nextTok.nextTok.currentToken.type.str),
          none)
      else
        (p.nextTok.skipNewlines.nextTok.nextTok.nextTok,
          some ((newClass p.nextTok.skipNewlines.currentToken.literal p.curPos).setExtends
            p.nextTok.skipNewlines.nextTok.nextTok.currentToken.literal))
    else
      (p.nextTok.skipNewlines.nextTok,
        some (newClass p.nextTok.skipNewlines.currentToken.literal p.curPos))) = s0 at h
  split at h
  · exact Option.noConfusion h
  · split at h
    · exact Option.noConfusion h
    · rename_i cls heq
      have hcls : allSynced (classFuncs cls) := by
        rw [← hS] at heq
        repeat' (split at heq)
        all_goals first
        | exact Option.noConfusion heq
        | (injection heq with heq
           subst heq
           first
           | exact synced_setExtends _ _ (synced_newClass _ _)
           | exact synced_newClass _ _)
      repeat' (split at h)
      all_goals first
      | exact Option.noConfusion h
      | (injection h with h
         subst h
         exact ihCB _ _ hcls)

/-- One-step sync lemma for the class-body loop. -/
theorem step_cbody (k : Nat)
    (ihS : ∀ p s, (parseStatement k p).2 = some s → allSynced (stmtFuncs s))
    (ihF : ∀ p f, (parseFunctionDefinition k p).2 = some f → allSynced (funcFuncs f))
    (ihC : ∀ p c, (parseClassDefinition k p).2 = some c → allSynced (classFuncs c))
    (ihCB : ∀ p c, allSynced (classFuncs c) →
      allSynced (classFuncs (parseClassBodyLoop k p c).2)) :
    ∀ p c, allSynced (classFuncs c) →
      allSynced (classFuncs (parseClassBodyLoop (k + 1) p c).2) := by
  intro p c hc
  unfold parseClassBodyLoop
  dsimp only
  split
  · split
    · exact ihCB _ _ hc
    · split
      all_goals first
      | (apply ihCB
         cases hf2 : (parseFunctionDefinition k p).2 with
         | none => exact hc
         | some f => exact synced_cls_addFunction _ _ hc (ihF p f hf2))
      | (apply ihCB
         cases hc2 : (parseClassDefinition k p).2 with
         | none => exact hc
         | some sub => exact synced_cls_addSubClass _ _ hc (ihC p sub hc2))
      | (apply ihCB
         cases hs2 : (parseStatement k p).2 with
         | none => exact hc
         | some stmt => exact synced_cls_addStatement _ _ hc (ihS p stmt hs2))
  · exact hc

/-- One-step sync lemma for the shared statement-block loop. -/
theorem step_block (k : Nat)
    (ihS : ∀ p s, (parseStatement k p).2 = some s → allSynced (stmtFuncs s))
    (ihB : ∀ p acc, allSynced (stmtsFuncs acc) →
      allSynced (stmtsFuncs (parseBlockLoop k p acc).2)) :
    ∀ p acc, allSynced (stmtsFuncs acc) →
      allSynced (stmtsFuncs (parseBlockLoop (k + 1) p acc).2) := by
  intro p acc hacc
  unfold parseBlockLoop
  dsimp only
  split
  · split
    · exact ihB _ _ hacc
    · apply ihB
      cases hs : (parseStatement k p).2 with
      | none => exact hacc
      | some stmt =>
        rw [stmtsFuncs_append, allSynced_append]
        refine ⟨hacc, ?_⟩
        rw [stmtsFuncs_cons, stmtsFuncs_nil, List.append_nil]
        exact ihS p stmt hs
  · exact hacc

/-- One-step sync lemma for parseIfStatement. -/
theorem step_if (k : Nat)
    (ihB : ∀ p acc, allSynced (stmtsFuncs acc) →
      allSynced (stmtsFuncs (parseBlockLoop k p acc).2))
    (ihElif : ∀ p i j, allSynced (stmtFuncs (.ifS i)) →
      (parseElifLoop k p i).2 = some j → allSynced (stmtFuncs (.ifS j)))
    (ihElse : ∀ p i j, allSynced (stmtFuncs (.ifS i)) →
      (parseElseBranch k p i).2 = some j → allSynced (stmtFuncs (.ifS j))) :
    ∀ p i, (parseIfStatement (k + 1) p).2 = some i →
      allSynced (stmtFuncs (.ifS i)) := by
  intro p i h
  unfold parseIfStatement at h
  dsimp only at h
  split at h
  · exact Option.noConfusion h
  · split at h
    · exact Option.noConfusion h
    · split at h
      · split at h
        · exact Option.noConfusion h
        · rename_i stmt2 heq2
          exact ihElse _ _ _ (ihElif _ _ _
            (synced_setConsequence _ _ (synced_newIf _ _) (ihB _ [] allSynced_nil))
            heq2) h
      · exact Option.noConfusion h

/-- One-step sync lemma for the elif loop. -/
theorem step_elif (k : Nat)
    (ihB : ∀ p acc, allSynced (stmtsFuncs acc) →
      allSynced (stmtsFuncs (parseBlockLoop k p acc).2))
    (ihElif : ∀ p i j, allSynced (stmtFuncs (.ifS i)) →
      (parseElifLoop k p i).2 = some j → allSynced (stmtFuncs (.ifS j))) :
    ∀ p i j, allSynced (stmtFuncs (.ifS i)) →
      (parseElifLoop (k + 1) p i).2 = some j → allSynced (stmtFuncs (.ifS j)) := by
  intro p i j hi hj
  unfold parseElifLoop at hj
  dsimp only at hj
  split at hj
  · split at hj
    · exact Option.noConfusion hj
    · split at hj
      · exact Option.noConfusion hj
      · exact ihElif _ _ _ (synced_addElseIfBranch _ _ _ hi (ihB _ [] allSynced_nil)) hj
  · dsimp only at hj
    injection hj with hj
    subst hj
    exact hi

/-- One-step sync lemma for the else branch. -/
theorem step_else (k : Nat)
    (ihB : ∀ p acc, allSynced (stmtsFuncs acc) →
      allSynced (stmtsFuncs (parseBlockLoop k p acc).2)) :
    ∀ p i j, allSynced (stmtFuncs (.ifS i)) →
      (parseElseBranch (k + 1) p i).2 = some j → allSynced (stmtFuncs (.ifS j)) := by
  intro p i j hi hj
  unfold parseElseBranch at hj
  dsimp only at hj
  repeat' (split at hj)
  all_goals first
  | exact Option.noConfusion hj
  | (injection hj with hj
     subst hj
     exact synced_setAlternative _ _ hi (ihB _ [] allSynced_nil))
  | (injection hj with hj
     subst hj
     exact hi)

/-- One-step sync lemma for parseForStatement. -/
theorem step_for (k : Nat)
    (ihB : ∀ p acc, allSynced (stmtsFuncs acc) →
      allSynced (stmtsFuncs (parseBlockLoop k p acc).2)) :
    ∀ p f, (parseForStatement (k + 1) p).2 = some f →
      allSynced (stmtFuncs (.forS f)) := by
  intro p f h
  unfold parseForStatement at h
  dsimp only at h
  repeat' (split at h)
  all_goals first
  | exact Option.noConfusion h
  | (injection h with h
     subst h
     exact synced_for_setBody _ _ (ihB _ [] allSynced_nil))

/-- One-step sync lemma for parseWhileStatement. -/
theorem step_while (k : Nat)
    (ihB : ∀ p acc, allSynced (stmtsFuncs acc) →
      allSynced (stmtsFuncs (parseBlockLoop k p acc).2)) :
    ∀ p w, (parseWhileStatement (k + 1) p).2 = some w →
      allSynced (stmtFuncs (.whileS w)) := by
  intro p w h
  unfold parseWhileStatement at h
  dsimp only at h
  split at h
  · exact Option.noConfusion h
  · split at h
    · exact Option.noConfusion h
    · split at h
      · dsimp only at h
        injection h with h
        subst h
        exact synced_while_setBody _ _ (ihB _ _ allSynced_nil)
      · exact Option.noConfusion h

/-- One-step sync lemma for parseMatchStatement. -/
theorem step_match (k : Nat)
    (ihMBr : ∀ p m, allSynced (stmtFuncs (.matchS m)) →
      allSynced (stmtFuncs (.matchS (parseMatchBranchLoop k p m).2))) :
    ∀ p m, (parseMatchStatement (k + 1) p).2 = some m →
      allSynced (stmtFuncs (.matchS m)) := by
  intro p m h
  unfold parseMatchStatement at h
  dsimp only at h
  split at h
  · exact Option.noConfusion h
  · split at h
    · exact Option.noConfusion h
    · dsimp only at h
      injection h with h
      subst h
      exact ihMBr _ _ (synced_newMatch _ _)

/-- One-step sync lemma for the match-branch loop. -/
theorem step_mbr (k : Nat)
    (ihS : ∀ p s, (parseStatement k p).2 = some s → allSynced (stmtFuncs s))
    (ihMBr : ∀ p m, allSynced (stmtFuncs (.matchS m)) →
      allSynced (stmtFuncs (.matchS (parseMatchBranchLoop k p m).2)))
    (ihMM : ∀ p b, allSynced (branchFuncs b) →
      allSynced (branchFuncs (parseMatchMultiLoop k p b).2)) :
    ∀ p m, allSynced (stmtFuncs (.matchS m)) →
      allSynced (stmtFuncs (.matchS (parseMatchBranchLoop (k + 1) p m).2)) := by
  intro p m hm
  unfold parseMatchBranchLoop
  dsimp only
  split
  · split
    · exact hm
    · split
      · exact hm
      · rename_i branch heq
        have hbr : allSynced (branchFuncs branch) := by
          split at heq
          · split at heq
            · exact Option.noConfusion heq
            · dsimp only at heq
              injection heq with heq
              subst heq
              exact synced_branch_setGuard _ _ (synced_newBranch _ _)
          · dsimp only at heq
            injection heq with heq
            subst heq
            exact synced_newBranch _ _
        repeat' ((try dsimp only); split)
        all_goals first
        | exact hm
        | exact ihMBr _ _ (synced_match_addBranch _ _ hm (ihMM _ _ hbr))
        | exact ihMBr _ _ (synced_match_addBranch _ _ hm hbr)
        | (rename_i bodyStmt hs2
           exact ihMBr _ _ (synced_match_addBranch _ _ hm
             (synced_branch_addBody _ _ hbr (ihS _ _ hs2))))
  · exact hm

/-- One-step sync lemma for the multi-line match-branch body loop. -/
theorem step_mml (k : Nat)
    (ihS : ∀ p s, (parseStatement k p).2 = some s → allSynced (stmtFuncs s))
    (ihMM : ∀ p b, allSynced (branchFuncs b) →
      allSynced (branchFuncs (parseMatchMultiLoop k p b).2)) :
    ∀ p b, allSynced (branchFuncs b) →
      allSynced (branchFuncs (parseMatchMultiLoop (k + 1) p b).2) := by
  intro p b hb
  unfold parseMatchMultiLoop
  dsimp only
  split
  · apply ihMM
    cases hs : (parseStatement k p).2 with
    | none => exact hb
    | some stmt => exact synced_branch_addBody _ _ hb (ihS p stmt hs)
  · exact hb

/-- One-step sync lemma for the global-scope loop. -/
theorem step_glob (k : Nat)
    (ihS : ∀ p s, (parseStatement k p).2 = some s → allSynced (stmtFuncs s))
    (ihG : ∀ p c, allSynced (classFuncs c) →
      allSynced (classFuncs (parseGlobalScopeLoop k p c).2)) :
    ∀ p c, allSynced (classFuncs c) →
      allSynced (classFuncs (parseGlobalScopeLoop (k + 1) p c).2) := by
  intro p c hc
  unfold parseGlobalScopeLoop
  dsimp only
  split
  · apply ihG
    cases hs : (parseStatement k p).2 with
    | none => exact hc
    | some stmt =>
      have hst := ihS p stmt hs
      cases stmt with
      | passS pos kind => exact synced_cls_addStatement _ _ hc hst
      | returnS pos kind v => exact synced_cls_addStatement _ _ hc hst
      | breakS pos kind => exact synced_cls_addStatement _ _ hc hst
      | continueS pos kind => exact synced_cls_addStatement _ _ hc hst
      | exprS pos kind e => exact synced_cls_addStatement _ _ hc hst
      | varS v => exact synced_cls_addStatement _ _ hc hst
      | funcS fn => exact synced_cls_addFunction _ _ hc hst
      | classS c2 => exact synced_cls_addSubClass _ _ hc hst
      | ifS i => exact synced_cls_addStatement _ _ hc hst
      | forS f2 => exact synced_cls_addStatement _ _ hc hst
      | whileS w => exact synced_cls_addStatement _ _ hc hst
      | matchS m => exact synced_cls_addStatement _ _ hc hst
      | nilOf nk =>
        cases nk with
        | varT => exact synced_cls_addStatement _ _ hc hst
        | funcT => exact synced_cls_addFunction _ _ hc allSynced_nil
        | classT => exact synced_cls_addSubClass _ _ hc allSynced_nil
        | ifT => exact synced_cls_addStatement _ _ hc hst
        | forT => exact synced_cls_addStatement _ _ hc hst
        | whileT => exact synced_cls_addStatement _ _ hc hst
        | matchT => exact synced_cls_addStatement _ _ hc hst
  · exact hc

/-- Full sync invariant of the parser, by induction on fuel: every Function
node produced or threaded by any statement-level parser function has equal
Statements and SubStatements lists. -/
theorem parseSync : ∀ n : Nat,
    (∀ p s, (parseStatement n p).2 = some s → allSynced (stmtFuncs s)) ∧
    (∀ p f, (parseFunctionDefinition n p).2 = some f → allSynced (funcFuncs f)) ∧
    (∀ p fn, allSynced (funcFuncs fn) →
      allSynced (funcFuncs (parseFuncBodyLoop n p fn).2)) ∧
    (∀ p fn, allSynced (funcFuncs fn) →
      allSynced (funcFuncs (parseParameterList n p fn).2)) ∧
    (∀ p fn, allSynced (funcFuncs fn) →
      allSynced (funcFuncs (parseParamsLoop n p fn).2.1)) ∧
    (∀ p c, (parseClassDefinition n p).2 = some c → allSynced (classFuncs c)) ∧
    (∀ p c, allSynced (classFuncs c) →
      allSynced (classFuncs (parseClassBodyLoop n p c).2)) ∧
    (∀ p acc, allSynced (stmtsFuncs acc) →
      allSynced (stmtsFuncs (parseBlockLoop n p acc).2)) ∧
    (∀ p i, (parseIfStatement n p).2 = some i → allSynced (stmtFuncs (.ifS i))) ∧
    (∀ p i j, allSynced (stmtFuncs (.ifS i)) →
      (parseElifLoop n p i).2 = some j → allSynced (stmtFuncs (.ifS j))) ∧
    (∀ p i j, allSynced (stmtFuncs (.ifS i)) →
      (parseElseBranch n p i).2 = some j → allSynced (stmtFuncs (.ifS j))) ∧
    (∀ p f, (parseForStatement n p).2 = some f → allSynced (stmtFuncs (.forS f))) ∧
    (∀ p w, (parseWhileStatement n p).2 = some w → allSynced (stmtFuncs (.whileS w))) ∧
    (∀ p m, (parseMatchStatement n p).2 = some m → allSynced (stmtFuncs (.matchS m))) ∧
    (∀ p m, allSynced (stmtFuncs (.matchS m)) →
      allSynced (stmtFuncs (.matchS (parseMatchBranchLoop n p m).2))) ∧
    (∀ p b, allSynced (branchFuncs b) →
      allSynced (branchFuncs (parseMatchMultiLoop n p b).2)) ∧
    (∀ p c, allSynced (classFuncs c) →
      allSynced (classFuncs (parseGlobalScopeLoop n p c).2)) := by
  intro n
  induction n with
  | zero =>
    refine ⟨?_, ?_, ?_, ?_, ?_, ?_, ?_, ?_, ?_, ?_, ?_, ?_, ?_, ?_, ?_, ?_, ?_⟩
    · intro p s h
      exact Option.noConfusion h
    · intro p f h
      exact Option.noConfusion h
    · intro p fn hfn
      exact hfn
    · intro p fn hfn
      exact hfn
    · intro p fn hfn
      exact hfn
    · intro p c h
      exact Option.noConfusion h
    · intro p c hc
      exact hc
    · intro p acc hacc
      exact hacc
    · intro p i h
      exact Option.noConfusion h
    · intro p i j hi hj
      injection hj with hj
      subst hj
      exact hi
    · intro p i j hi hj
      injection hj with hj
      subst hj
      exact hi
    · intro p f h
      exact Option.noConfusion h
    · intro p w h
      exact Option.noConfusion h
    · intro p m h
      exact Option.noConfusion h
    · intro p m hm
      exact hm
    · intro p b hb
      exact hb
    · intro p c hc
      exact hc
  | succ k ih =>
    obtain ⟨ihS, ihF, ihFB, ihPL, ihPsL, ihC, ihCB, ihB, ihIf, ihElif, ihElse,
      ihFor, ihWhile, ihM, ihMBr, ihMM, ihG⟩ := ih
    exact ⟨step_stmt k ihF ihC ihIf ihFor ihWhile ihM,
           step_fdef k ihPL ihFB,
           step_fbody k ihS ihFB,
           step_plist k ihPsL,
           step_ploop k ihPsL,
           step_cdef k ihCB,
           step_cbody k ihS ihF ihC ihCB,
           step_block k ihS ihB,
           step_if k ihB ihElif ihElse,
           step_elif k ihB ihElif,
           step_else k ihB,
           step_for k ihB,
           step_while k ihB,
           step_match k ihMBr,
           step_mbr k ihS ihMBr ihMM,
           step_mml k ihS ihMM,
           step_glob k ihS ihG⟩

/-- C8: in every tree returned by Parse, every Function node has its
Statements and SubStatements lists exactly equal (same statements, same
order): the parser adds statements to functions only through
Function.AddStatement, which appends to both lists. -/
theorem c8_statements_subStatements (input : String) :
    ∀ f ∈ astFuncs (parseSource input).1, f.statements = f.subStatements := by
  obtain ⟨-, -, -, -, -, -, -, -, -, -, -, -, -, -, -, -, ihG⟩ :=
    parseSync (parseFuelFor (NewParser input))
  have hroot := ihG (NewParser input) (newClass "global scope" ⟨1, 1, 0⟩)
    (synced_newClass _ _)
  intro f hf
  have hshape : astFuncs (parseSource input).1 =
      classFuncs (parseGlobalScopeLoop (parseFuelFor (NewParser input))
        (NewParser input) (newClass "global scope" ⟨1, 1, 0⟩)).2 ++ [] := rfl
  rw [hshape, List.append_nil] at hf
  exact hroot f hf

/-- Witness for C8 at a concrete one-function source: the parsed function
node is a member of the tree's function list and its two statement lists
coincide. -/
theorem c8_witness :
    (Func.mk ⟨1, 2, 0⟩ "f" [] ""
        [Statement.passS ⟨2, 3, 11⟩ "pass_stmt"]
        [Statement.passS ⟨2, 3, 11⟩ "pass_stmt"] false)
      ∈ astFuncs (parseSource "func f():\n\tpass").1 ∧
    (Func.mk ⟨1, 2, 0⟩ "f" [] ""
        [Statement.passS ⟨2, 3, 11⟩ "pass_stmt"]
        [Statement.passS ⟨2, 3, 11⟩ "pass_stmt"] false).statements =
      (Func.mk ⟨1, 2, 0⟩ "f" [] ""
        [Statement.passS ⟨2, 3, 11⟩ "pass_stmt"]
        [Statement.passS ⟨2, 3, 11⟩ "pass_stmt"] false).subStatements :=
  ⟨List.mem_cons_self _ _,
   c8_statements_subStatements "func f():\n\tpass" _ (List.mem_cons_self _ _)⟩

end GD
